import Mathlib

/-!
# heplify-server: the Prometheus metric module (`metric/prometheus.go`)

A shallow embedding of `setup`, `collect`, `dissectXRTPStats` and the
structured-report callbacks, followed by theorems about them.

Conventions of the embedding

* A Go `string` is an immutable byte sequence; it is a `List Char`, one `Char`
  standing for one byte.
* A Go `int` is a 64-bit two's-complement integer; it is an `Int` that every
  arithmetic operation brings back into range with `wrap64`.
* A `float64` gauge value is an exact rational.
* A run-time panic (integer division by zero, nil dereference, index out of
  range) is the result `none`.
* Writes to the metric registry are recorded as a trace of `MetricOp`s.
-/

namespace Heplify

/-- Go strings: byte sequences. -/
abbrev GoString := List Char

/-! ## Go standard library: `strings`, `strconv`, machine integers -/

/-- Scanning loop of `strings.Split` for a one-byte separator: `cur` holds the
bytes of the current piece in reverse. -/
def splitAux (sep : Char) : List Char → List Char → List GoString
  | [], cur => [cur.reverse]
  | c :: cs, cur =>
    if c = sep then cur.reverse :: splitAux sep cs [] else splitAux sep cs (c :: cur)

/-- Go `strings.Split(s, sep)` for a one-byte separator, the only form used by
the module (`","`, `";"`, `"="`). The result always has at least one piece. -/
def Split (s : GoString) (sep : Char) : List GoString := splitAux sep s []

/-- Go `strings.HasPrefix(s, p)`. -/
def hasPrefixB : GoString → GoString → Bool
  | _, [] => true
  | [], _ :: _ => false
  | c :: s, d :: p => decide (c = d) && hasPrefixB s p

/-- Go `strings.Contains(s, substr)`: `substr` occurs somewhere within `s`. -/
def Contains : GoString → GoString → Bool
  | [], substr => hasPrefixB [] substr
  | c :: s, substr => hasPrefixB (c :: s) substr || Contains s substr

/-- Two's-complement reduction of an integer to the range of a Go `int`. -/
def wrap64 (x : Int) : Int := (x + 2 ^ 63) % 2 ^ 64 - 2 ^ 63

/-- Largest Go `int`. -/
def maxInt64 : Int := 2 ^ 63 - 1

/-- Smallest Go `int`. -/
def minInt64 : Int := -(2 ^ 63)

/-- Go `a + b` on `int`. -/
def goAdd (a b : Int) : Int := wrap64 (a + b)

/-- Go `a - b` on `int`. -/
def goSub (a b : Int) : Int := wrap64 (a - b)

/-- Go `a * b` on `int`. -/
def goMul (a b : Int) : Int := wrap64 (a * b)

/-- Go `a / b` on `int`: truncated quotient; `none` is the run-time panic
"integer divide by zero". -/
def goQuo (a b : Int) : Option Int :=
  if b = 0 then none else some (wrap64 (Int.tdiv a b))

/-- The two error kinds of `strconv`. -/
inductive NumError where
  | ErrSyntax
  | ErrRange
  deriving DecidableEq, Repr

/-- Digit loop of `strconv.ParseUint(s, 10, 64)`: a byte that is not a decimal
digit is a syntax error with value 0; the first digit that takes the value past
`2^64 - 1` is a range error with value `2^64 - 1`, returned at once. -/
def parseUintLoop : List Char → Nat → Nat × Option NumError
  | [], n => (n, none)
  | c :: cs, n =>
    if 48 ≤ c.toNat ∧ c.toNat ≤ 57 then
      if n * 10 + (c.toNat - 48) > 2 ^ 64 - 1 then (2 ^ 64 - 1, some NumError.ErrRange)
      else parseUintLoop cs (n * 10 + (c.toNat - 48))
    else (0, some NumError.ErrSyntax)

/-- Go `strconv.ParseInt(s, 10, 0)` on a 64-bit platform: optional sign, then
`ParseUint`; a syntax error returns 0, a range error returns the nearest bound. -/
def ParseInt (s : GoString) : Int × Option NumError :=
  let neg : Bool := s.head? = some '-'
  let rest : GoString := if s.head? = some '+' ∨ s.head? = some '-' then s.tail else s
  if rest = [] then (0, some NumError.ErrSyntax)
  else
    match parseUintLoop rest 0 with
    | (_, some NumError.ErrSyntax) => (0, some NumError.ErrSyntax)
    | (un, _) =>
      if neg = false ∧ (un : Int) ≥ 2 ^ 63 then (maxInt64, some NumError.ErrRange)
      else if neg = true ∧ (un : Int) > 2 ^ 63 then (minInt64, some NumError.ErrRange)
      else (if neg then -(un : Int) else (un : Int), none)

/-- Go `strconv.Atoi(s)`: the value and the error. Its fast path (fewer than 19
bytes) computes the same result as `ParseInt(s, 10, 0)`, to which it otherwise
defers. -/
def Atoi (s : GoString) : Int × Option NumError := ParseInt s

/-! ## Data model -/

/-- One write to the metric registry: `WithLabelValues(labels...).Inc()` on a
counter family or `.Set(value)` on a gauge (an unlabelled gauge has no labels). -/
inductive MetricOp where
  | counterInc (name : String) (labels : List GoString)
  | gaugeSet (name : String) (labels : List GoString) (value : ℚ)
  deriving DecidableEq

/-- Name of the series a write goes to. -/
def MetricOp.name : MetricOp → String
  | MetricOp.counterInc n _ => n
  | MetricOp.gaugeSet n _ _ => n

/-- Label values of a write. -/
def MetricOp.labels : MetricOp → List GoString
  | MetricOp.counterInc _ l => l
  | MetricOp.gaugeSet _ l _ => l

/-- The fields of `config.Setting` read by the module. -/
structure Setting where
  PromTargetIP : GoString
  PromTargetName : GoString
  RTPAgentStats : Bool
  HoraclifixStats : Bool

/-- Functions the module calls but does not define: `cutSpace` and `normMax`
live in other files of the package, the others in `jsonparser` and `freecache`.
`EachKey data paths` is the list of `(idx, value)` pairs with which the
extractor invokes its callback, in invocation order; `cacheSetErr key` tells
whether `Cache.Set` returns an error for `key`. -/
structure Env where
  cutSpace : GoString → GoString
  normMax : ℚ → ℚ
  EachKey : GoString → List (List String) → List (Nat × GoString)
  ParseFloat : GoString → Option ℚ
  ParseString : GoString → Option GoString
  cacheSetErr : GoString → Bool

/-- The `freecache` cache as the module uses it: a key is mapped to the second
at which it expires, 0 standing for "never" (values are always nil). The newest
entry comes first. Eviction for lack of room is not modelled. -/
structure Cache where
  entries : List (GoString × Nat)

/-- Go `Cache.Get(key)` at time `now`: `true` when the call returns a nil error,
which is when the key has an entry that is not expired (an entry is expired
when `expireAt != 0 && expireAt <= now`). -/
def Cache.Get (c : Cache) (now : Nat) (key : GoString) : Bool :=
  match c.entries.lookup key with
  | some expireAt => decide (expireAt = 0 ∨ now < expireAt)
  | none => false

/-- Go `Cache.Set(key, nil, expireSeconds)` at time `now`: the cache afterwards
and whether an error was returned (then nothing was written). The entry
expires at `now + expireSeconds`, or never when `expireSeconds` is 0. -/
def Cache.Set (env : Env) (c : Cache) (now : Nat) (key : GoString) (expireSeconds : Nat) :
    Cache × Bool :=
  if env.cacheSetErr key then (c, true)
  else
    (Cache.mk ((key, if expireSeconds > 0 then now + expireSeconds else 0) :: c.entries),
      false)

/-- The `Prometheus` struct. The three metric maps are kept as the list of what
was registered: the gauge names, and for a family its name and label names. -/
structure Prometheus where
  TargetIP : List GoString
  TargetName : List GoString
  TargetEmpty : Bool
  GaugeMetrics : List String
  GaugeVecMetrics : List (String × List String)
  CounterVecMetrics : List (String × List String)
  Cache : Option Cache
  horaclifixPaths : List (List String)
  rtpPaths : List (List String)
  rtcpPaths : List (List String)

/-- The zero value `Prometheus{}` on which `setup` is called. -/
def Prometheus.zero : Prometheus :=
  Prometheus.mk [] [] false [] [] [] none [] [] []

/-- The `sipparser` message fields read by `collect`. -/
structure SIPMsg where
  Method : GoString
  CseqMethod : GoString
  CallID : GoString
  RTPStatVal : GoString

/-- The `decoder.HEP` fields read by `collect`; `SIP` is a pointer and may be nil. -/
structure HEP where
  ProtoType : Nat
  SrcIP : GoString
  DstIP : GoString
  Payload : GoString
  SIP : Option SIPMsg

/-! ## `setup` -/

/-- The deduplication loop of `setup`: `dedup` is the key set of the map,
`unique` the slice appended to. -/
def uniqueLoop : List GoString → List GoString → List GoString → List GoString
  | [], _, unique => unique
  | t :: ts, dedup, unique =>
    if t ∈ dedup then uniqueLoop ts dedup unique
    else uniqueLoop ts (t :: dedup) (unique ++ [t])

/-- The slice `uniqueIP` computed by `setup`. -/
def uniqueIP (env : Env) (cfg : Setting) : List GoString :=
  uniqueLoop (Split (env.cutSpace cfg.PromTargetIP) ',') [] []

/-- The slice `uniqueNames` computed by `setup`. -/
def uniqueNames (env : Env) (cfg : Setting) : List GoString :=
  uniqueLoop (Split (env.cutSpace cfg.PromTargetName) ',') [] []

/-- The condition `p.TargetIP[0] == "" && p.TargetName[0] == ""`, evaluated
left to right with short-circuit; `none` is an index-out-of-range panic. -/
def firstEntriesEmpty (ips names : List GoString) : Option Bool :=
  match ips with
  | [] => none
  | ip0 :: _ =>
    if ip0 = [] then
      match names with
      | [] => none
      | n0 :: _ => some (decide (n0 = []))
    else some false

/-- Label names of every horaclifix gauge family. -/
def sbcLabels : List String := ["sbc_name", "inc_realm", "out_realm"]

/-- Gauges registered unconditionally. -/
def baseGauges : List String :=
  ["heplify_rtcp_fraction_lost", "heplify_rtcp_packets_lost", "heplify_rtcp_jitter",
   "heplify_rtcp_dlsr",
   "heplify_rtcpxr_fraction_lost", "heplify_rtcpxr_fraction_discard",
   "heplify_rtcpxr_burst_density", "heplify_rtcpxr_gap_density",
   "heplify_rtcpxr_burst_duration", "heplify_rtcpxr_gap_duration",
   "heplify_rtcpxr_round_trip_delay", "heplify_rtcpxr_end_system_delay"]

/-- Gauges registered when `RTPAgentStats` is set. -/
def rtpAgentGauges : List String :=
  ["heplify_rtpagent_delta", "heplify_rtpagent_jitter", "heplify_rtpagent_mos",
   "heplify_rtpagent_packets_lost", "heplify_rtpagent_rfactor", "heplify_rtpagent_skew"]

/-- Gauge families registered unconditionally. -/
def baseGaugeVecs : List (String × List String) :=
  [("heplify_packets_size", ["type"]),
   ("heplify_xrtp_cs", ["target_name"]), ("heplify_xrtp_jir", ["target_name"]),
   ("heplify_xrtp_jis", ["target_name"]), ("heplify_xrtp_plr", ["target_name"]),
   ("heplify_xrtp_pls", ["target_name"]), ("heplify_xrtp_dle", ["target_name"]),
   ("heplify_xrtp_mos", ["target_name"])]

/-- Gauge families registered when `HoraclifixStats` is set. -/
def horaclifixGaugeVecs : List (String × List String) :=
  [("horaclifix_inc_rtp_mos", sbcLabels), ("horaclifix_inc_rtp_rval", sbcLabels),
   ("horaclifix_inc_rtp_packets", sbcLabels), ("horaclifix_inc_rtp_lost_packets", sbcLabels),
   ("horaclifix_inc_rtp_avg_jitter", sbcLabels), ("horaclifix_inc_rtp_max_jitter", sbcLabels),
   ("horaclifix_inc_rtcp_packets", sbcLabels), ("horaclifix_inc_rtcp_lost_packets", sbcLabels),
   ("horaclifix_inc_rtcp_avg_jitter", sbcLabels), ("horaclifix_inc_rtcp_max_jitter", sbcLabels),
   ("horaclifix_inc_rtcp_avg_lat", sbcLabels), ("horaclifix_inc_rtcp_max_lat", sbcLabels),
   ("horaclifix_out_rtp_mos", sbcLabels), ("horaclifix_out_rtp_rval", sbcLabels),
   ("horaclifix_out_rtp_packets", sbcLabels), ("horaclifix_out_rtp_lost_packets", sbcLabels),
   ("horaclifix_out_rtp_avg_jitter", sbcLabels), ("horaclifix_out_rtp_max_jitter", sbcLabels),
   ("horaclifix_out_rtcp_packets", sbcLabels), ("horaclifix_out_rtcp_lost_packets", sbcLabels),
   ("horaclifix_out_rtcp_avg_jitter", sbcLabels), ("horaclifix_out_rtcp_max_jitter", sbcLabels),
   ("horaclifix_out_rtcp_avg_lat", sbcLabels), ("horaclifix_out_rtcp_max_lat", sbcLabels)]

/-- Counter families registered unconditionally. -/
def baseCounterVecs : List (String × List String) :=
  [("heplify_method_response", ["target_name", "response", "method"]),
   ("heplify_packets_total", ["type"])]

/-- The value given to `p.rtpPaths` when `RTPAgentStats` is set. -/
def rtpPathsValue : List (List String) :=
  [["DELTA"], ["JITTER"], ["MOS"], ["PACKET_LOSS"], ["RFACTOR"], ["SKEW"]]

/-- The value given to `p.horaclifixPaths` when `HoraclifixStats` is set. -/
def horaclifixPathsValue : List (List String) :=
  [["NAME"], ["INC_REALM"], ["OUT_REALM"],
   ["INC_MOS"], ["INC_RVAL"],
   ["INC_RTP_PK"], ["INC_RTP_PK_LOSS"], ["INC_RTP_AVG_JITTER"], ["INC_RTP_MAX_JITTER"],
   ["INC_RTCP_PK"], ["INC_RTCP_PK_LOSS"], ["INC_RTCP_AVG_JITTER"], ["INC_RTCP_MAX_JITTER"],
   ["INC_RTCP_AVG_LAT"], ["INC_RTCP_MAX_LAT"],
   ["OUT_MOS"], ["OUT_RVAL"],
   ["OUT_RTP_PK"], ["OUT_RTP_PK_LOSS"], ["OUT_RTP_AVG_JITTER"], ["OUT_RTP_MAX_JITTER"],
   ["OUT_RTCP_PK"], ["OUT_RTCP_PK_LOSS"], ["OUT_RTCP_AVG_JITTER"], ["OUT_RTCP_MAX_JITTER"],
   ["OUT_RTCP_AVG_LAT"], ["OUT_RTCP_MAX_LAT"]]

/-- The value given to `p.rtcpPaths`. -/
def rtcpPathsValue : List (List String) :=
  [["report_blocks", "[0]", "fraction_lost"], ["report_blocks", "[0]", "packets_lost"],
   ["report_blocks", "[0]", "ia_jitter"], ["report_blocks", "[0]", "dlsr"],
   ["report_blocks_xr", "fraction_lost"], ["report_blocks_xr", "fraction_discard"],
   ["report_blocks_xr", "burst_density"], ["report_blocks_xr", "gap_density"],
   ["report_blocks_xr", "burst_duration"], ["report_blocks_xr", "gap_duration"],
   ["report_blocks_xr", "round_trip_delay"], ["report_blocks_xr", "end_system_delay"]]

/-- The message of the error returned for mismatched target lists. -/
def targetError : String :=
  "please give every prometheus Target a unique IP address and a unique name"

/-- Go `(*Prometheus).setup`: the receiver afterwards and the returned error
(`none` for nil); an outer `none` is a run-time panic. The HTTP listener is
started in a goroutine of its own and is outside the embedding, so the error
returned past the length check is nil. -/
def setup (env : Env) (cfg : Setting) (p : Prometheus) : Option (Prometheus × Option String) :=
  let p1 : Prometheus :=
    { p with TargetIP := uniqueIP env cfg, TargetName := uniqueNames env cfg }
  if p1.TargetIP.length ≠ p1.TargetName.length then some (p1, some targetError)
  else
    match firstEntriesEmpty p1.TargetIP p1.TargetName with
    | none => none
    | some noTargets =>
      let p2 : Prometheus :=
        if noTargets then { p1 with TargetEmpty := true, Cache := some (Cache.mk []) } else p1
      let p3 : Prometheus :=
        { p2 with
          GaugeMetrics := baseGauges ++ (if cfg.RTPAgentStats then rtpAgentGauges else []),
          GaugeVecMetrics :=
            baseGaugeVecs ++ (if cfg.HoraclifixStats then horaclifixGaugeVecs else []),
          CounterVecMetrics := baseCounterVecs,
          rtpPaths := if cfg.RTPAgentStats then rtpPathsValue else p2.rtpPaths,
          horaclifixPaths :=
            if cfg.HoraclifixStats then horaclifixPathsValue else p2.horaclifixPaths,
          rtcpPaths := rtcpPathsValue }
      some (p3, none)

/-! ## `dissectXRTPStats` -/

/-- The map `m` filled by the first loop of `dissectXRTPStats`, as an
association list with the latest binding first: a segment is entered only when
splitting it on `=` gives exactly two pieces. -/
def statsMap (stats : GoString) : List (GoString × GoString) :=
  (Split stats ';').foldl
    (fun m pair =>
      match Split pair '=' with
      | [k, v] => (k, v) :: m
      | _ => m)
    []

/-- The lookup `m[key]`. -/
def mapGet (m : List (GoString × GoString)) (key : String) : Option GoString :=
  m.lookup key.toList

/-- The integer locals of `dissectXRTPStats` together with the gauge writes made
so far. -/
structure XRTPState where
  cs : Int
  pr : Int
  ps : Int
  plr : Int
  pls : Int
  jir : Int
  jis : Int
  dle : Int
  ops : List MetricOp

/-- The locals as declared: all zero, nothing written. -/
def XRTPState.init : XRTPState := XRTPState.mk 0 0 0 0 0 0 0 0 []

/-- Go `a / b` for a divisor known to be non-zero. -/
def goQuoNZ (a b : Int) : Int := wrap64 (Int.tdiv a b)

/-- The write `p.GaugeVecMetrics[name].WithLabelValues(tn).Set(float64(n))` made
when `err == nil`, nothing otherwise. -/
def setIfParsed (name : String) (tn : GoString) (r : Int × Option NumError) : List MetricOp :=
  if r.2 = none then [MetricOp.gaugeSet name [tn] (r.1 : ℚ)] else []

/-- The block for key `CS`. -/
def xrtpCS (tn : GoString) (m : List (GoString × GoString)) (st : XRTPState) : XRTPState :=
  match mapGet m "CS" with
  | none => st
  | some v =>
    if v.length ≥ 1 then
      { st with
        cs := (Atoi v).1,
        ops := st.ops ++
          (if (Atoi v).2 = none then
            [MetricOp.gaugeSet "heplify_xrtp_cs" [tn] ((goQuoNZ (Atoi v).1 1000 : Int) : ℚ)]
          else []) }
    else st

/-- The block for key `PR`. -/
def xrtpPR (m : List (GoString × GoString)) (st : XRTPState) : XRTPState :=
  match mapGet m "PR" with
  | none => st
  | some v => if v.length ≥ 1 then { st with pr := (Atoi v).1 } else st

/-- The block for key `PS`. -/
def xrtpPS (m : List (GoString × GoString)) (st : XRTPState) : XRTPState :=
  match mapGet m "PS" with
  | none => st
  | some v => if v.length ≥ 1 then { st with ps := (Atoi v).1 } else st

/-- The block for key `PL`. -/
def xrtpPL (tn : GoString) (m : List (GoString × GoString)) (st : XRTPState) : XRTPState :=
  match mapGet m "PL" with
  | none => st
  | some v =>
    if v.length ≥ 1 then
      match Split v ',' with
      | [a, b] =>
        { st with
          plr := (Atoi a).1,
          pls := (Atoi b).1,
          ops := st.ops ++ setIfParsed "heplify_xrtp_plr" tn (Atoi a)
            ++ setIfParsed "heplify_xrtp_pls" tn (Atoi b) }
      | _ => st
    else st

/-- The block for key `JI`. -/
def xrtpJI (tn : GoString) (m : List (GoString × GoString)) (st : XRTPState) : XRTPState :=
  match mapGet m "JI" with
  | none => st
  | some v =>
    if v.length ≥ 1 then
      match Split v ',' with
      | [a, b] =>
        { st with
          jir := (Atoi a).1,
          jis := (Atoi b).1,
          ops := st.ops ++ setIfParsed "heplify_xrtp_jir" tn (Atoi a)
            ++ setIfParsed "heplify_xrtp_jis" tn (Atoi b) }
      | _ => st
    else st

/-- The block for key `DL`. -/
def xrtpDL (tn : GoString) (m : List (GoString × GoString)) (st : XRTPState) : XRTPState :=
  match mapGet m "DL" with
  | none => st
  | some v =>
    if v.length ≥ 1 then
      match Split v ',' with
      | [a, _, _] =>
        { st with
          dle := (Atoi a).1,
          ops := st.ops ++ setIfParsed "heplify_xrtp_dle" tn (Atoi a) }
      | _ => st
    else st

/-- The state of `dissectXRTPStats` when it reaches `if pr == 0 && ps == 0`. -/
def xrtpParse (tn stats : GoString) : XRTPState :=
  let m := statsMap stats
  xrtpDL tn m (xrtpJI tn m (xrtpPL tn m (xrtpPS m (xrtpPR m (xrtpCS tn m XRTPState.init)))))

/-- The values of `pr` and `ps` after `if pr == 0 && ps == 0 { pr, ps = 1, 1 }`. -/
def adjustCounts (pr ps : Int) : Int × Int :=
  if pr = 0 ∧ ps = 0 then (1, 1) else (pr, ps)

/-- The divisor `pr + ps` of the loss division. -/
def lossDivisor (st : XRTPState) : Int :=
  goAdd (adjustCounts st.pr st.ps).1 (adjustCounts st.pr st.ps).2

/-- The local `loss := ((plr + pls) * 100) / (pr + ps)`; `none` when the
division panics. -/
def lossOf (st : XRTPState) : Option Int :=
  goQuo (goMul (goAdd st.plr st.pls) 100) (lossDivisor st)

/-- The local `el := (jir * 2) + (dle + 10)`. -/
def effectiveLatency (st : XRTPState) : Int :=
  goAdd (goMul st.jir 2) (goAdd st.dle 10)

/-- The local `r` after both assignments. -/
def rFactor (el loss : Int) : ℚ :=
  (if el < 160 then 932 / 10 - (el : ℚ) / 40
   else 932 / 10 - ((goSub el 120 : Int) : ℚ) / 10) - (loss : ℚ) * (5 / 2)

/-- The local `mos` as a function of `r`. -/
def mosOf (r : ℚ) : ℚ :=
  1 + (35 / 1000) * r + (7 / 1000000) * r * (r - 60) * (100 - r)

/-- Go `(*Prometheus).dissectXRTPStats(tn, stats)`: the gauge writes it makes,
or `none` when it panics. -/
def dissectXRTPStats (tn stats : GoString) : Option (List MetricOp) :=
  let st := xrtpParse tn stats
  match lossOf st with
  | none => none
  | some loss =>
    some (st.ops ++
      [MetricOp.gaugeSet "heplify_xrtp_mos" [tn] (mosOf (rFactor (effectiveLatency st) loss))])

/-! ## The structured-report decoders -/

/-- The recurring callback body `if f, err := jsonparser.ParseFloat(value);
err == nil { gauge.Set(conv(f)) }`. -/
def setFloat (env : Env) (name : String) (labels : List GoString) (conv : ℚ → ℚ)
    (value : GoString) : List MetricOp :=
  match env.ParseFloat value with
  | some f => [MetricOp.gaugeSet name labels (conv f)]
  | none => []

/-- The callback of `dissectRTCPStats`: the `switch idx`. -/
def rtcpCallback (env : Env) (idx : Nat) (value : GoString) : List MetricOp :=
  match idx with
  | 0 => setFloat env "heplify_rtcp_fraction_lost" [] env.normMax value
  | 1 => setFloat env "heplify_rtcp_packets_lost" [] env.normMax value
  | 2 => setFloat env "heplify_rtcp_jitter" [] env.normMax value
  | 3 => setFloat env "heplify_rtcp_dlsr" [] env.normMax value
  | 4 => setFloat env "heplify_rtcpxr_fraction_lost" [] id value
  | 5 => setFloat env "heplify_rtcpxr_fraction_discard" [] id value
  | 6 => setFloat env "heplify_rtcpxr_burst_density" [] id value
  | 7 => setFloat env "heplify_rtcpxr_gap_density" [] id value
  | 8 => setFloat env "heplify_rtcpxr_burst_duration" [] id value
  | 9 => setFloat env "heplify_rtcpxr_gap_duration" [] id value
  | 10 => setFloat env "heplify_rtcpxr_round_trip_delay" [] id value
  | 11 => setFloat env "heplify_rtcpxr_end_system_delay" [] id value
  | _ => []

/-- Go `(*Prometheus).dissectRTCPStats(data)`: the callback is run on every
pair delivered by `jsonparser.EachKey(data, cb, p.rtcpPaths...)`. -/
def dissectRTCPStats (env : Env) (p : Prometheus) (data : GoString) : List MetricOp :=
  (env.EachKey data p.rtcpPaths).foldl (fun ops c => ops ++ rtcpCallback env c.1 c.2) []

/-- The callback of `dissectRTPStats`: the `switch idx`. -/
def rtpCallback (env : Env) (idx : Nat) (value : GoString) : List MetricOp :=
  match idx with
  | 0 => setFloat env "heplify_rtpagent_delta" [] id value
  | 1 => setFloat env "heplify_rtpagent_jitter" [] id value
  | 2 => setFloat env "heplify_rtpagent_mos" [] id value
  | 3 => setFloat env "heplify_rtpagent_packets_lost" [] id value
  | 4 => setFloat env "heplify_rtpagent_rfactor" [] id value
  | 5 => setFloat env "heplify_rtpagent_skew" [] id value
  | _ => []

/-- Go `(*Prometheus).dissectRTPStats(data)`. -/
def dissectRTPStats (env : Env) (p : Prometheus) (data : GoString) : List MetricOp :=
  (env.EachKey data p.rtpPaths).foldl (fun ops c => ops ++ rtpCallback env c.1 c.2) []

/-- The variables `sbcName, incRealm, outRealm` captured by the callback of
`dissectHoraclifixStats`. -/
structure SbcVars where
  sbcName : GoString
  incRealm : GoString
  outRealm : GoString

/-- The label values `WithLabelValues(sbcName, incRealm, outRealm)`. -/
def sbcLabelValues (st : SbcVars) : List GoString := [st.sbcName, st.incRealm, st.outRealm]

/-- The string assigned by `x, err = jsonparser.ParseString(value)`: the decoded
text, or the empty string when an error is returned. -/
def parsedString (env : Env) (value : GoString) : GoString :=
  match env.ParseString value with
  | some s => s
  | none => []

/-- The callback of `dissectHoraclifixStats`: the captured variables after one
invocation and the writes it made. In cases 0 to 2 a decoding error is logged
and the invocation returns. -/
def horaclifixCallback (env : Env) (st : SbcVars) (idx : Nat) (value : GoString) :
    SbcVars × List MetricOp :=
  match idx with
  | 0 => ({ st with sbcName := parsedString env value }, [])
  | 1 => ({ st with incRealm := parsedString env value }, [])
  | 2 => ({ st with outRealm := parsedString env value }, [])
  | 3 => (st, setFloat env "horaclifix_inc_rtp_mos" (sbcLabelValues st) (fun f => env.normMax (f / 100)) value)
  | 4 => (st, setFloat env "horaclifix_inc_rtp_rval" (sbcLabelValues st) (fun f => env.normMax (f / 100)) value)
  | 5 => (st, setFloat env "horaclifix_inc_rtp_packets" (sbcLabelValues st) env.normMax value)
  | 6 => (st, setFloat env "horaclifix_inc_rtp_lost_packets" (sbcLabelValues st) env.normMax value)
  | 7 => (st, setFloat env "horaclifix_inc_rtp_avg_jitter" (sbcLabelValues st) env.normMax value)
  | 8 => (st, setFloat env "horaclifix_inc_rtp_max_jitter" (sbcLabelValues st) env.normMax value)
  | 9 => (st, setFloat env "horaclifix_inc_rtcp_packets" (sbcLabelValues st) env.normMax value)
  | 10 => (st, setFloat env "horaclifix_inc_rtcp_lost_packets" (sbcLabelValues st) env.normMax value)
  | 11 => (st, setFloat env "horaclifix_inc_rtcp_avg_jitter" (sbcLabelValues st) env.normMax value)
  | 12 => (st, setFloat env "horaclifix_inc_rtcp_max_jitter" (sbcLabelValues st) env.normMax value)
  | 13 => (st, setFloat env "horaclifix_inc_rtcp_avg_lat" (sbcLabelValues st) env.normMax value)
  | 14 => (st, setFloat env "horaclifix_inc_rtcp_max_lat" (sbcLabelValues st) env.normMax value)
  | 15 => (st, setFloat env "horaclifix_out_rtp_mos" (sbcLabelValues st) (fun f => env.normMax (f / 100)) value)
  | 16 => (st, setFloat env "horaclifix_out_rtp_rval" (sbcLabelValues st) (fun f => env.normMax (f / 100)) value)
  | 17 => (st, setFloat env "horaclifix_out_rtp_packets" (sbcLabelValues st) env.normMax value)
  | 18 => (st, setFloat env "horaclifix_out_rtp_lost_packets" (sbcLabelValues st) env.normMax value)
  | 19 => (st, setFloat env "horaclifix_out_rtp_avg_jitter" (sbcLabelValues st) env.normMax value)
  | 20 => (st, setFloat env "horaclifix_out_rtp_max_jitter" (sbcLabelValues st) env.normMax value)
  | 21 => (st, setFloat env "horaclifix_out_rtcp_packets" (sbcLabelValues st) env.normMax value)
  | 22 => (st, setFloat env "horaclifix_out_rtcp_lost_packets" (sbcLabelValues st) env.normMax value)
  | 23 => (st, setFloat env "horaclifix_out_rtcp_avg_jitter" (sbcLabelValues st) env.normMax value)
  | 24 => (st, setFloat env "horaclifix_out_rtcp_max_jitter" (sbcLabelValues st) env.normMax value)
  | 25 => (st, setFloat env "horaclifix_out_rtcp_avg_lat" (sbcLabelValues st) env.normMax value)
  | 26 => (st, setFloat env "horaclifix_out_rtcp_max_lat" (sbcLabelValues st) env.normMax value)
  | _ => (st, [])

/-- The successive invocations of the horaclifix callback on the delivered pairs. -/
def horaclifixLoop (env : Env) : SbcVars → List (Nat × GoString) → List MetricOp
  | _, [] => []
  | st, c :: rest =>
    (horaclifixCallback env st c.1 c.2).2 ++
      horaclifixLoop env (horaclifixCallback env st c.1 c.2).1 rest

/-- Go `(*Prometheus).dissectHoraclifixStats(data)`. -/
def dissectHoraclifixStats (env : Env) (p : Prometheus) (data : GoString) : List MetricOp :=
  horaclifixLoop env (SbcVars.mk [] [] []) (env.EachKey data p.horaclifixPaths)

/-! ## `collect` -/

/-- The label of the first `if ... else if` chain of the loop body, by protocol type. -/
def packetTypeLabel (protoType : Nat) : Option String :=
  if protoType = 1 then some "sip"
  else if protoType = 5 then some "rtcp"
  else if protoType = 38 then some "horaclifix"
  else if protoType = 100 then some "log"
  else none

/-- The writes of the first `if ... else if` chain: packet count and size. -/
def countPacket (pkt : HEP) : List MetricOp :=
  match packetTypeLabel pkt.ProtoType with
  | some l =>
    [MetricOp.counterInc "heplify_packets_total" [l.toList],
     MetricOp.gaugeSet "heplify_packets_size" [l.toList] (pkt.Payload.length : ℚ)]
  | none => []

/-- The statement `if pkt.SIP.RTPStatVal != "" { p.dissectXRTPStats(tn, ...) }`. -/
def xrtpIfPresent (tn : GoString) (sip : SIPMsg) : Option (List MetricOp) :=
  if sip.RTPStatVal ≠ [] then dissectXRTPStats tn sip.RTPStatVal else some []

/-- The loop `for k, tn := range p.TargetName` of target mode, from index `k`
over the remaining names; `p.TargetIP[k]` out of range is a panic. -/
def targetLoop (p : Prometheus) (pkt : HEP) (sip : SIPMsg) :
    Nat → List GoString → Option (List MetricOp)
  | _, [] => some []
  | k, tn :: tns =>
    match p.TargetIP[k]? with
    | none => none
    | some ip =>
      if Contains pkt.SrcIP ip || Contains pkt.DstIP ip then
        match xrtpIfPresent tn sip with
        | none => none
        | some xs =>
          match targetLoop p pkt sip (k + 1) tns with
          | none => none
          | some rest =>
            some (MetricOp.counterInc "heplify_method_response" [tn, sip.Method, sip.CseqMethod]
              :: xs ++ rest)
      else targetLoop p pkt sip (k + 1) tns

/-- The cache key `pkt.SIP.CallID + pkt.SIP.StartLine.Method + pkt.SIP.CseqMethod`. -/
def dedupKey (sip : SIPMsg) : GoString := sip.CallID ++ sip.Method ++ sip.CseqMethod

/-- The anonymous-mode branch of the loop body at time `now`. A nil cache is a
panic; a key found in the cache ends the iteration (`continue`). -/
def anonymousBranch (env : Env) (p : Prometheus) (now : Nat) (sip : SIPMsg) :
    Option (Prometheus × List MetricOp) :=
  match p.Cache with
  | none => none
  | some c =>
    if c.Get now (dedupKey sip) then some (p, [])
    else
      match xrtpIfPresent [] sip with
      | none => none
      | some xs =>
        some ({ p with Cache := some (c.Set env now (dedupKey sip) 600).1 },
          MetricOp.counterInc "heplify_method_response" [[], sip.Method, sip.CseqMethod] :: xs)

/-- The second `if ... else if` chain of the loop body. -/
def dispatchPacket (env : Env) (cfg : Setting) (p : Prometheus) (now : Nat) (pkt : HEP) :
    Option (Prometheus × List MetricOp) :=
  match pkt.SIP, decide (pkt.ProtoType = 1) with
  | some sip, true =>
    if p.TargetEmpty = false then
      match targetLoop p pkt sip 0 p.TargetName with
      | none => none
      | some ops => some (p, ops)
    else anonymousBranch env p now sip
  | _, _ =>
    if pkt.ProtoType = 5 then some (p, dissectRTCPStats env p pkt.Payload)
    else if pkt.ProtoType = 34 ∧ cfg.RTPAgentStats = true then
      some (p, dissectRTPStats env p pkt.Payload)
    else if pkt.ProtoType = 38 ∧ cfg.HoraclifixStats = true then
      some (p, dissectHoraclifixStats env p pkt.Payload)
    else some (p, [])

/-- One iteration of the loop of `collect`, for a packet received at time `now`
(seconds): the receiver afterwards and the writes made, or `none` on a panic. -/
def collectPacket (env : Env) (cfg : Setting) (p : Prometheus) (now : Nat) (pkt : HEP) :
    Option (Prometheus × List MetricOp) :=
  match dispatchPacket env cfg p now pkt with
  | none => none
  | some r => some (r.1, countPacket pkt ++ r.2)

/-- Go `(*Prometheus).collect(hCh)`: the loop over the packets delivered by the
channel until it is closed, each with its time of receipt. -/
def collect (env : Env) (cfg : Setting) :
    Prometheus → List (Nat × HEP) → Option (Prometheus × List MetricOp)
  | p, [] => some (p, [])
  | p, tp :: rest =>
    match collectPacket env cfg p tp.1 tp.2 with
    | none => none
    | some r =>
      match collect env cfg r.1 rest with
      | none => none
      | some r2 => some (r2.1, r.2 ++ r2.2)

/-- The label tuples of the increments of `heplify_method_response` in a trace. -/
def methodResponseIncs : List MetricOp → List (List GoString)
  | [] => []
  | MetricOp.counterInc n l :: ops =>
    if n = "heplify_method_response" then l :: methodResponseIncs ops
    else methodResponseIncs ops
  | MetricOp.gaugeSet _ _ _ :: ops => methodResponseIncs ops

/-- The names of the gauge families written by `dissectXRTPStats`. -/
def xrtpNames : List String :=
  ["heplify_xrtp_cs", "heplify_xrtp_jir", "heplify_xrtp_jis", "heplify_xrtp_plr",
   "heplify_xrtp_pls", "heplify_xrtp_dle", "heplify_xrtp_mos"]

/-! ## A sample environment, for evaluating the embedding on concrete inputs -/

/-- An environment for the examples: `cutSpace` drops blanks, `normMax` zeroes
values above ten million, a value decodes as a string unless it holds a
backslash (the examples use the malformed escape `\x` only) and as a float when
it is an unsigned decimal integer; the extractor delivers nothing and
`Cache.Set` never fails. -/
def sampleEnv : Env where
  cutSpace := fun s => s.filter (fun c => c ≠ Char.ofNat 32)
  normMax := fun v => if v > 10000000 then 0 else v
  EachKey := fun _ _ => []
  ParseFloat := fun v =>
    if v = [] then none
    else
      match parseUintLoop v 0 with
      | (n, none) => some (n : ℚ)
      | _ => none
  ParseString := fun v => if Char.ofNat 92 ∈ v then none else some v
  cacheSetErr := fun _ => false

/-- A receiver in target mode for the examples: two targets, `10.0.0.1` named
`A` and `10.0.0.2` named `B`. -/
def sampleTargets : Prometheus :=
  Prometheus.mk ["10.0.0.1".toList, "10.0.0.2".toList] ["A".toList, "B".toList] false
    [] [] [] none [] [] []

/-- A SIP message for the examples: an INVITE without RTP statistics. -/
def sampleInvite : SIPMsg :=
  SIPMsg.mk "INVITE".toList "INVITE".toList "call-1".toList []

/-- A receiver in anonymous mode for the examples, as `setup` leaves it for empty
target lists: `TargetEmpty` set, an empty cache. -/
def sampleAnonymous : Prometheus :=
  Prometheus.mk [[]] [[]] true [] [] [] (some (Cache.mk [])) [] [] []

/-- A SIP message of another call, for the examples. -/
def sampleBye : SIPMsg :=
  SIPMsg.mk "BYE".toList "BYE".toList "call-2".toList []

/-- The stats string of the worked example of the specification. -/
def sampleStats : GoString := "CS=5000;PR=100;PS=100;PL=2,3;JI=10,20;DL=30,0,0".toList

/-! ## Vocabulary for the statements about `dissectXRTPStats` -/

/-- The integer values that `dissectXRTPStats` reads from the stats string: call
setup time, packets received and sent, the two halves of `PL` and of `JI`, and
the first part of `DL`. -/
inductive XRTPField where
  | CS
  | PR
  | PS
  | PLr
  | PLs
  | JIr
  | JIs
  | DLe
  deriving DecidableEq, Repr

/-- The value of a key when the key is in the map with a non-empty value (`if v,
ok := m[key]; ok { if len(v) >= 1 {`). -/
def presentValue (m : List (GoString × GoString)) (key : String) : Option GoString :=
  match mapGet m key with
  | some v => if v.length ≥ 1 then some v else none
  | none => none

/-- The text that `dissectXRTPStats` passes to `strconv.Atoi` for a field, when
it does so: the whole value for `CS`, `PR`, `PS`; a half of the value for `PL`
and `JI` when it has exactly two parts; the first part of the value for `DL`
when it has exactly three. -/
def xrtpText (m : List (GoString × GoString)) : XRTPField → Option GoString
  | XRTPField.CS => presentValue m "CS"
  | XRTPField.PR => presentValue m "PR"
  | XRTPField.PS => presentValue m "PS"
  | XRTPField.PLr =>
    match (presentValue m "PL").map (fun v => Split v ',') with
    | some [a, _] => some a
    | _ => none
  | XRTPField.PLs =>
    match (presentValue m "PL").map (fun v => Split v ',') with
    | some [_, b] => some b
    | _ => none
  | XRTPField.JIr =>
    match (presentValue m "JI").map (fun v => Split v ',') with
    | some [a, _] => some a
    | _ => none
  | XRTPField.JIs =>
    match (presentValue m "JI").map (fun v => Split v ',') with
    | some [_, b] => some b
    | _ => none
  | XRTPField.DLe =>
    match (presentValue m "DL").map (fun v => Split v ',') with
    | some [a, _, _] => some a
    | _ => none

/-- The local variable a field is parsed into. -/
def xrtpVar (st : XRTPState) : XRTPField → Int
  | XRTPField.CS => st.cs
  | XRTPField.PR => st.pr
  | XRTPField.PS => st.ps
  | XRTPField.PLr => st.plr
  | XRTPField.PLs => st.pls
  | XRTPField.JIr => st.jir
  | XRTPField.JIs => st.jis
  | XRTPField.DLe => st.dle

/-- The gauge family a field is published to; `PR` and `PS` have none. -/
def xrtpGauge : XRTPField → Option String
  | XRTPField.CS => some "heplify_xrtp_cs"
  | XRTPField.PR => none
  | XRTPField.PS => none
  | XRTPField.PLr => some "heplify_xrtp_plr"
  | XRTPField.PLs => some "heplify_xrtp_pls"
  | XRTPField.JIr => some "heplify_xrtp_jir"
  | XRTPField.JIs => some "heplify_xrtp_jis"
  | XRTPField.DLe => some "heplify_xrtp_dle"

/-- The gauge value published for a parsed field: `float64(cs / 1000)` for `CS`,
`float64(n)` for the others. -/
def xrtpPublished : XRTPField → Int → ℚ
  | XRTPField.CS, n => ((goQuoNZ n 1000 : Int) : ℚ)
  | _, n => (n : ℚ)

/-- The callback invocations for the SBC-aggregate payload
`{"NAME":"\x","INC_REALM":"core","OUT_REALM":"access","INC_MOS":420}`, whose
`NAME` holds a malformed escape: indices 0 to 3 with their raw values. -/
def sampleSbcCalls : List (Nat × GoString) :=
  [(0, [Char.ofNat 92, 'x']), (1, "core".toList), (2, "access".toList), (3, "420".toList)]

/-- The conversion applied by `dissectRTCPStats` to the float at a path index:
`normMax` for the four RTCP fields, none for the RTCP-XR fields. -/
def rtcpConv (env : Env) (idx : Nat) (f : ℚ) : ℚ :=
  if idx < 4 then env.normMax f else f

/-- The sample environment with a cache that refuses every key. -/
def sampleEnvCacheFull : Env :=
  Env.mk sampleEnv.cutSpace sampleEnv.normMax sampleEnv.EachKey sampleEnv.ParseFloat
    sampleEnv.ParseString (fun _ => true)

/-- A SIP message for the examples: a BYE carrying the RTP statistics of the
worked example. -/
def sampleByeStats : SIPMsg :=
  SIPMsg.mk "BYE".toList "BYE".toList "call-3".toList sampleStats

/-- The names of the series written by the decoders that the second chain of
the loop body of `collect` dispatches to. -/
def decoderNames : List String :=
  "heplify_method_response" :: xrtpNames ++ baseGauges ++ rtpAgentGauges ++
    horaclifixGaugeVecs.map Prod.fst

/-- A receiver in anonymous mode whose cache holds the key of `sampleInvite`
until second 600. -/
def sampleAnonymousSeen : Prometheus :=
  Prometheus.mk [[]] [[]] true [] [] [] (some (Cache.mk [(dedupKey sampleInvite, 600)])) [] [] []

/-- The writes of a trace that go to the series `name`, in order. -/
def writesTo (name : String) (ops : List MetricOp) : List MetricOp :=
  ops.filter (fun o => decide (o.name = name))

/-- A stats string holding only the three comma-separated values. -/
def sampleCommaStats : GoString := "PL=2,3;JI=10,20;DL=30,0,0".toList

/-- The stats string with one packet each way and one packet lost each way. -/
def sampleHighLoss : GoString := "PR=1;PS=1;PL=1,1".toList

/-- A SIP message for the examples: the response 200 to an INVITE of call
`call-1`. -/
def sampleOkCall1 : SIPMsg :=
  SIPMsg.mk "200".toList "INVITE".toList "call-1".toList []

/-- A SIP message for the examples, of call `call-12`, whose start line gives
`00`: with the one before it shares the concatenation `call-1200INVITE`. -/
def sampleOddCall12 : SIPMsg :=
  SIPMsg.mk "00".toList "INVITE".toList "call-12".toList []

/-- A receiver in anonymous mode whose cache holds the key of `sampleOkCall1`
until second 600. -/
def sampleAnonymousOk : Prometheus :=
  Prometheus.mk [[]] [[]] true [] [] [] (some (Cache.mk [(dedupKey sampleOkCall1, 600)])) [] [] []

/-- The conversion applied by `dissectHoraclifixStats` to the float at a path
index: `normMax(f / 100)` for the four MOS and R-value fields, `normMax(f)` for
the others. -/
def sbcConv (env : Env) (idx : Nat) (f : ℚ) : ℚ :=
  if idx = 3 ∨ idx = 4 ∨ idx = 15 ∨ idx = 16 then env.normMax (f / 100) else env.normMax f

/-! ## What the specification states, to compare the code with -/

/-- Deduplication as the specification words it: the list with every later
repeat removed. The head is kept, its repeats are dropped from what the rest
gives. -/
def removeLaterRepeats : List GoString → List GoString
  | [] => []
  | x :: xs => x :: (removeLaterRepeats xs).filter (fun y => decide (y ≠ x))

/-- The counter families listed by the specification, with their label names. -/
def specCounterVecs : List (String × List String) :=
  [("heplify_method_response", ["target_name", "response", "method"]),
   ("heplify_packets_total", ["type"])]

/-- The always-present labelled gauges listed by the specification:
`heplify_packets_size{type}` and `heplify_xrtp_cs|jir|jis|plr|pls|dle|mos{target_name}`. -/
def specGaugeVecs : List (String × List String) :=
  ("heplify_packets_size", ["type"]) ::
    ["cs", "jir", "jis", "plr", "pls", "dle", "mos"].map
      (fun s => ("heplify_xrtp_" ++ s, ["target_name"]))

/-- The always-present unlabelled gauges listed by the specification:
`heplify_rtcp_...` and `heplify_rtcpxr_...`. -/
def specGauges : List String :=
  ["fraction_lost", "packets_lost", "jitter", "dlsr"].map (fun s => "heplify_rtcp_" ++ s) ++
    ["fraction_lost", "fraction_discard", "burst_density", "gap_density", "burst_duration",
      "gap_duration", "round_trip_delay", "end_system_delay"].map
      (fun s => "heplify_rtcpxr_" ++ s)

/-- The agent-report gauges listed by the specification. -/
def specAgentGauges : List String :=
  ["delta", "jitter", "mos", "packets_lost", "rfactor", "skew"].map
    (fun s => "heplify_rtpagent_" ++ s)

/-- The twelve field names of the SBC-aggregate gauges listed by the specification. -/
def specSbcFields : List String :=
  ["rtp_mos", "rtp_rval", "rtp_packets", "rtp_lost_packets", "rtp_avg_jitter",
   "rtp_max_jitter", "rtcp_packets", "rtcp_lost_packets", "rtcp_avg_jitter",
   "rtcp_max_jitter", "rtcp_avg_lat", "rtcp_max_lat"]

/-- The SBC-aggregate gauges listed by the specification:
`horaclifix_{inc,out}_<field>{sbc_name, inc_realm, out_realm}`. -/
def specSbcGaugeVecs : List (String × List String) :=
  specSbcFields.map (fun s => ("horaclifix_inc_" ++ s, ["sbc_name", "inc_realm", "out_realm"])) ++
    specSbcFields.map (fun s => ("horaclifix_out_" ++ s, ["sbc_name", "inc_realm", "out_realm"]))

/-! ## What the path names mean, to compare the callbacks with -/

/-- The gauge that a path of the RTCP list stands for, read off its words:
`report_blocks[0].<f>` is the RTCP field `<f>` (the interarrival jitter
`ia_jitter` is the jitter), `report_blocks_xr.<f>` the RTCP-XR field `<f>`. -/
def rtcpGaugeOfPath : List String → Option String
  | ["report_blocks", "[0]", f] =>
    some ("heplify_rtcp_" ++ (if f = "ia_jitter" then "jitter" else f))
  | ["report_blocks_xr", f] => some ("heplify_rtcpxr_" ++ f)
  | _ => none

/-- The gauge that a path of the agent list stands for: the field name in lower
case, `PACKET_LOSS` being the packets lost. -/
def rtpGaugeOfPath : List String → Option String
  | [f] =>
    some ("heplify_rtpagent_" ++
      (if f = "PACKET_LOSS" then "packets_lost" else String.mk (f.toList.map Char.toLower)))
  | _ => none

/-- The words of an SBC-aggregate field name (without its direction) that are
not simply put in lower case: the bare `MOS` and `RVAL` are those of the RTP
stream, `PK` counts packets and `PK_LOSS` lost packets. -/
def sbcFieldWords : List (GoString × String) :=
  [("MOS".toList, "rtp_mos"), ("RVAL".toList, "rtp_rval"),
   ("RTP_PK".toList, "rtp_packets"), ("RTP_PK_LOSS".toList, "rtp_lost_packets"),
   ("RTCP_PK".toList, "rtcp_packets"), ("RTCP_PK_LOSS".toList, "rtcp_lost_packets")]

/-- The gauge field that an SBC-aggregate field name (without its direction)
stands for. -/
def sbcFieldGauge (f : GoString) : String :=
  match sbcFieldWords.lookup f with
  | some w => w
  | none => String.mk (f.map Char.toLower)

/-- The gauge that a path of the SBC-aggregate list stands for: `INC_<F>` is the
incoming and `OUT_<F>` the outgoing gauge of field `<F>`; the three identity
fields `NAME`, `INC_REALM`, `OUT_REALM` stand for no gauge. -/
def sbcGaugeOfPath : List String → Option String
  | [f] =>
    if f = "NAME" ∨ f = "INC_REALM" ∨ f = "OUT_REALM" then none
    else if hasPrefixB f.toList "INC_".toList then
      some ("horaclifix_inc_" ++ sbcFieldGauge (f.toList.drop 4))
    else if hasPrefixB f.toList "OUT_".toList then
      some ("horaclifix_out_" ++ sbcFieldGauge (f.toList.drop 4))
    else none
  | _ => none

/-! # Theorems -/

/-! ## `setup` -/

theorem splitAux_ne_nil (sep : Char) (s cur : List Char) : splitAux sep s cur ≠ [] := by
  induction s generalizing cur with
  | nil => simp [splitAux]
  | cons c cs ih =>
    unfold splitAux
    split
    · simp
    · exact ih _

theorem Split_ne_nil (s : GoString) (sep : Char) : Split s sep ≠ [] :=
  splitAux_ne_nil sep s []

theorem uniqueLoop_append (ts dedup unique : List GoString) :
    uniqueLoop ts dedup unique = unique ++ uniqueLoop ts dedup [] := by
  induction ts generalizing dedup unique with
  | nil => simp [uniqueLoop]
  | cons t ts ih =>
    unfold uniqueLoop
    split
    · exact ih _ _
    · rw [ih, ih (t :: dedup) ([] ++ [t])]; simp

theorem uniqueLoop_cons_nil (t : GoString) (ts : List GoString) :
    uniqueLoop (t :: ts) [] [] = t :: uniqueLoop ts [t] [] := by
  have h : uniqueLoop (t :: ts) [] [] = uniqueLoop ts [t] ([] ++ [t]) := by
    simp [uniqueLoop]
  rw [h, uniqueLoop_append]; simp

theorem uniqueLoop_ne_nil (l : List GoString) (h : l ≠ []) : uniqueLoop l [] [] ≠ [] := by
  cases l with
  | nil => exact absurd rfl h
  | cons t ts => rw [uniqueLoop_cons_nil]; simp

theorem uniqueIP_ne_nil (env : Env) (cfg : Setting) : uniqueIP env cfg ≠ [] :=
  uniqueLoop_ne_nil _ (Split_ne_nil _ _)

theorem uniqueNames_ne_nil (env : Env) (cfg : Setting) : uniqueNames env cfg ≠ [] :=
  uniqueLoop_ne_nil _ (Split_ne_nil _ _)

theorem firstEntriesEmpty_isSome (ips names : List GoString) (hi : ips ≠ []) (hn : names ≠ []) :
    ∃ b, firstEntriesEmpty ips names = some b ∧
      (b = true ↔ ips.head? = some [] ∧ names.head? = some []) := by
  cases ips with
  | nil => exact absurd rfl hi
  | cons ip0 ips =>
    cases names with
    | nil => exact absurd rfl hn
    | cons n0 names =>
      by_cases h : ip0 = []
      · exact ⟨decide (n0 = []), by simp [firstEntriesEmpty, h], by simp [h]⟩
      · exact ⟨false, by simp [firstEntriesEmpty, h], by simp [h]⟩

/-- C4: `setup` never panics; it leaves the two deduplicated lists in `TargetIP`
and `TargetName`, returns the configuration error exactly when their lengths
differ and no error exactly when they agree, so that past the check the stored
lists have equal length. -/
theorem setup_error_iff_lengths_differ (env : Env) (cfg : Setting) (p : Prometheus) :
    ∃ p' err, setup env cfg p = some (p', err) ∧
      p'.TargetIP = uniqueIP env cfg ∧ p'.TargetName = uniqueNames env cfg ∧
      (err = some targetError ↔ (uniqueIP env cfg).length ≠ (uniqueNames env cfg).length) ∧
      (err = none ↔ (uniqueIP env cfg).length = (uniqueNames env cfg).length) ∧
      (err = none ↔ p'.TargetIP.length = p'.TargetName.length) := by
  obtain ⟨b, hb, -⟩ :=
    firstEntriesEmpty_isSome _ _ (uniqueIP_ne_nil env cfg) (uniqueNames_ne_nil env cfg)
  by_cases hlen : (uniqueIP env cfg).length = (uniqueNames env cfg).length
  · simp only [setup, hlen, hb, ne_eq, not_true_eq_false, if_false]
    refine ⟨_, _, rfl, ?_⟩
    cases b <;> simp [hlen]
  · simp only [setup, hlen, ne_eq, not_false_eq_true, if_true]
    refine ⟨_, _, rfl, ?_⟩
    simp [hlen]

/-- C5 (code at the failing input, and what the code tests in general): with
addresses `,10.0.0.1` and names `,A` the deduplicated lists have two entries
each, yet `setup` sets `TargetEmpty` and allocates the cache; in general, when
`setup` on a fresh receiver returns no error, `TargetEmpty` is set exactly when
the FIRST entry of each deduplicated list is empty, whatever follows it. -/
theorem setup_leading_empty_entry_sets_TargetEmpty :
    (∃ p', setup sampleEnv (Setting.mk ",10.0.0.1".toList ",A".toList false false)
        Prometheus.zero = some (p', none) ∧
      p'.TargetIP = ["".toList, "10.0.0.1".toList] ∧ p'.TargetName = ["".toList, "A".toList] ∧
      p'.TargetEmpty = true ∧ p'.Cache = some (Cache.mk [])) ∧
    (∀ (env : Env) (cfg : Setting) (p' : Prometheus),
      setup env cfg Prometheus.zero = some (p', none) →
      (p'.TargetEmpty = true ↔
        (uniqueIP env cfg).head? = some [] ∧ (uniqueNames env cfg).head? = some [])) := by
  refine ⟨⟨_, rfl, rfl, rfl, rfl, rfl⟩, ?_⟩
  intro env cfg p' h
  obtain ⟨b, hb, hiff⟩ :=
    firstEntriesEmpty_isSome _ _ (uniqueIP_ne_nil env cfg) (uniqueNames_ne_nil env cfg)
  by_cases hlen : (uniqueIP env cfg).length = (uniqueNames env cfg).length
  · cases b
    · simp [setup, hlen, hb] at h
      subst h
      simpa [Prometheus.zero] using hiff
    · simp [setup, hlen, hb] at h
      subst h
      simpa [Prometheus.zero] using hiff
  · simp [setup, hlen] at h

/-! ## `dissectXRTPStats`: the loss division -/

/-- C1 (code at the failing input): for the stats string `PR=-1;PS=1` both
counts parse, they are not both zero, so the guard leaves them as they are and
the divisor `pr + ps` is 0: `dissectXRTPStats` panics for every target name, and
so does the loop body of `collect` on an anonymous-mode SIP packet carrying it. -/
theorem dissectXRTPStats_divides_by_zero :
    (xrtpParse [] "PR=-1;PS=1".toList).pr = -1 ∧
    (xrtpParse [] "PR=-1;PS=1".toList).ps = 1 ∧
    lossDivisor (xrtpParse [] "PR=-1;PS=1".toList) = 0 ∧
    (∀ tn : GoString, dissectXRTPStats tn "PR=-1;PS=1".toList = none) ∧
    (∀ (env : Env) (cfg : Setting) (now : Nat),
      collectPacket env cfg
        (Prometheus.mk [[]] [[]] true [] [] [] (some (Cache.mk [])) [] [] []) now
        (HEP.mk 1 "10.0.0.1".toList "10.0.0.2".toList []
          (some (SIPMsg.mk "BYE".toList "BYE".toList "c1".toList "PR=-1;PS=1".toList)))
        = none) :=
  ⟨by decide, by decide, by decide, fun _ => rfl, fun _ _ _ => rfl⟩

/-! ## Target mode of `collect` -/

theorem hasPrefixB_iff (s p : GoString) : hasPrefixB s p = true ↔ p <+: s := by
  induction p generalizing s with
  | nil => cases s <;> simp [hasPrefixB]
  | cons d p ih =>
    cases s with
    | nil => simp [hasPrefixB]
    | cons c s =>
      simp only [hasPrefixB, Bool.and_eq_true, decide_eq_true_eq, ih, List.cons_prefix_cons]
      constructor
      · rintro ⟨h1, h2⟩; exact ⟨h1.symm, h2⟩
      · rintro ⟨h1, h2⟩; exact ⟨h1.symm, h2⟩

theorem Contains_iff (s a : GoString) : Contains s a = true ↔ a <:+: s := by
  induction s with
  | nil =>
    simp only [Contains, hasPrefixB_iff, List.prefix_nil, List.infix_nil]
  | cons c s ih =>
    simp only [Contains, Bool.or_eq_true, hasPrefixB_iff, ih, List.infix_cons_iff]

theorem setIfParsed_names (name : String) (tn : GoString) (r : Int × Option NumError) :
    ∀ o ∈ setIfParsed name tn r, o.name = name := by
  intro o ho
  unfold setIfParsed at ho
  split at ho
  · simp at ho; subst ho; rfl
  · simp at ho

theorem xrtpCS_names (tn : GoString) (m : List (GoString × GoString)) (st : XRTPState)
    (h : ∀ o ∈ st.ops, o.name ∈ xrtpNames) : ∀ o ∈ (xrtpCS tn m st).ops, o.name ∈ xrtpNames := by
  intro o ho
  unfold xrtpCS at ho
  split at ho
  · exact h o ho
  · split at ho
    · simp only [List.mem_append] at ho
      rcases ho with ho | ho
      · exact h o ho
      · split at ho
        · simp at ho; subst ho; simp [MetricOp.name, xrtpNames]
        · simp at ho
    · exact h o ho

theorem xrtpPR_ops (m : List (GoString × GoString)) (st : XRTPState) :
    (xrtpPR m st).ops = st.ops := by
  unfold xrtpPR
  split
  · rfl
  · split <;> rfl

theorem xrtpPS_ops (m : List (GoString × GoString)) (st : XRTPState) :
    (xrtpPS m st).ops = st.ops := by
  unfold xrtpPS
  split
  · rfl
  · split <;> rfl

theorem xrtpPL_names (tn : GoString) (m : List (GoString × GoString)) (st : XRTPState)
    (h : ∀ o ∈ st.ops, o.name ∈ xrtpNames) : ∀ o ∈ (xrtpPL tn m st).ops, o.name ∈ xrtpNames := by
  intro o ho
  unfold xrtpPL at ho
  split at ho
  · exact h o ho
  · split at ho
    · split at ho
      · simp only [List.mem_append] at ho
        rcases ho with (ho | ho) | ho
        · exact h o ho
        · rw [setIfParsed_names _ _ _ o ho]; simp [xrtpNames]
        · rw [setIfParsed_names _ _ _ o ho]; simp [xrtpNames]
      · exact h o ho
    · exact h o ho

theorem xrtpJI_names (tn : GoString) (m : List (GoString × GoString)) (st : XRTPState)
    (h : ∀ o ∈ st.ops, o.name ∈ xrtpNames) : ∀ o ∈ (xrtpJI tn m st).ops, o.name ∈ xrtpNames := by
  intro o ho
  unfold xrtpJI at ho
  split at ho
  · exact h o ho
  · split at ho
    · split at ho
      · simp only [List.mem_append] at ho
        rcases ho with (ho | ho) | ho
        · exact h o ho
        · rw [setIfParsed_names _ _ _ o ho]; simp [xrtpNames]
        · rw [setIfParsed_names _ _ _ o ho]; simp [xrtpNames]
      · exact h o ho
    · exact h o ho

theorem xrtpDL_names (tn : GoString) (m : List (GoString × GoString)) (st : XRTPState)
    (h : ∀ o ∈ st.ops, o.name ∈ xrtpNames) : ∀ o ∈ (xrtpDL tn m st).ops, o.name ∈ xrtpNames := by
  intro o ho
  unfold xrtpDL at ho
  split at ho
  · exact h o ho
  · split at ho
    · split at ho
      · simp only [List.mem_append] at ho
        rcases ho with ho | ho
        · exact h o ho
        · rw [setIfParsed_names _ _ _ o ho]; simp [xrtpNames]
      · exact h o ho
    · exact h o ho

theorem xrtpParse_names (tn stats : GoString) :
    ∀ o ∈ (xrtpParse tn stats).ops, o.name ∈ xrtpNames := by
  unfold xrtpParse
  apply xrtpDL_names
  apply xrtpJI_names
  apply xrtpPL_names
  rw [xrtpPS_ops, xrtpPR_ops]
  apply xrtpCS_names
  intro o ho
  simp [XRTPState.init] at ho

theorem dissectXRTPStats_names (tn stats : GoString) (ops : List MetricOp)
    (h : dissectXRTPStats tn stats = some ops) : ∀ o ∈ ops, o.name ∈ xrtpNames := by
  cases hl : lossOf (xrtpParse tn stats) with
  | none => simp [dissectXRTPStats, hl] at h
  | some loss =>
    simp only [dissectXRTPStats, hl, Option.some.injEq] at h
    subst h
    intro o ho
    simp only [List.mem_append, List.mem_singleton] at ho
    rcases ho with ho | ho
    · exact xrtpParse_names tn stats o ho
    · subst ho; simp [MetricOp.name, xrtpNames]

theorem xrtpIfPresent_names (tn : GoString) (sip : SIPMsg) (ops : List MetricOp)
    (h : xrtpIfPresent tn sip = some ops) : ∀ o ∈ ops, o.name ∈ xrtpNames := by
  unfold xrtpIfPresent at h
  split at h
  · exact dissectXRTPStats_names _ _ _ h
  · simp only [Option.some.injEq] at h
    subst h
    simp

theorem methodResponseIncs_append (a b : List MetricOp) :
    methodResponseIncs (a ++ b) = methodResponseIncs a ++ methodResponseIncs b := by
  induction a with
  | nil => rfl
  | cons o a ih =>
    cases o with
    | counterInc n l =>
      by_cases hn : n = "heplify_method_response" <;> simp [methodResponseIncs, hn, ih]
    | gaugeSet n l v => simp [methodResponseIncs, ih]

theorem methodResponseIncs_xrtp (ops : List MetricOp) (h : ∀ o ∈ ops, o.name ∈ xrtpNames) :
    methodResponseIncs ops = [] := by
  induction ops with
  | nil => rfl
  | cons o ops ih =>
    have ih2 := ih (fun o ho => h o (List.mem_cons_of_mem _ ho))
    cases o with
    | counterInc n l =>
      have hn : n ∈ xrtpNames := h _ (List.mem_cons_self _ _)
      have hne : n ≠ "heplify_method_response" := by
        intro he; subst he; revert hn; decide
      simp [methodResponseIncs, hne, ih2]
    | gaugeSet n l v => simp [methodResponseIncs, ih2]

theorem methodResponseIncs_countPacket (pkt : HEP) : methodResponseIncs (countPacket pkt) = [] := by
  unfold countPacket
  split <;> simp [methodResponseIncs]

theorem targetLoop_incs (p : Prometheus) (pkt : HEP) (sip : SIPMsg) (names : List GoString) :
    ∀ (k : Nat) (ops : List MetricOp), targetLoop p pkt sip k names = some ops →
      methodResponseIncs ops =
        ((names.zip (p.TargetIP.drop k)).filter
          (fun e => Contains pkt.SrcIP e.2 || Contains pkt.DstIP e.2)).map
          (fun e => [e.1, sip.Method, sip.CseqMethod]) := by
  induction names with
  | nil =>
    intro k ops h
    simp only [targetLoop, Option.some.injEq] at h
    subst h
    simp [methodResponseIncs]
  | cons tn tns ih =>
    intro k ops h
    unfold targetLoop at h
    split at h
    · simp at h
    · rename_i ip hip
      obtain ⟨hk, hget⟩ := List.getElem?_eq_some.mp hip
      rw [List.drop_eq_getElem_cons hk, hget, List.zip_cons_cons, List.filter_cons]
      split at h
      · rename_i hmatch
        split at h
        · simp at h
        · rename_i xs hxs
          split at h
          · simp at h
          · rename_i rest hrest
            simp only [Option.some.injEq] at h
            subst h
            have hx := methodResponseIncs_xrtp xs (xrtpIfPresent_names _ _ _ hxs)
            simp only [hmatch, if_true, List.map_cons]
            rw [← ih (k + 1) rest hrest]
            simp [methodResponseIncs, methodResponseIncs_append, hx]
      · rename_i hmatch
        simp only [hmatch, if_false]
        exact ih (k + 1) ops h

theorem targetLoop_isSome (p : Prometheus) (pkt : HEP) (sip : SIPMsg)
    (hx : ∀ tn, xrtpIfPresent tn sip ≠ none) (names : List GoString) :
    ∀ k : Nat, k + names.length ≤ p.TargetIP.length →
      ∃ ops, targetLoop p pkt sip k names = some ops := by
  induction names with
  | nil => intro k _; exact ⟨[], rfl⟩
  | cons tn tns ih =>
    intro k hk
    simp only [List.length_cons] at hk
    have hk1 : k < p.TargetIP.length := by omega
    obtain ⟨rest, hrest⟩ := ih (k + 1) (by omega)
    obtain ⟨xs, hxs⟩ := Option.ne_none_iff_exists'.mp (hx tn)
    unfold targetLoop
    rw [List.getElem?_eq_getElem hk1]
    simp only [hxs, hrest]
    split
    · exact ⟨_, rfl⟩
    · exact ⟨_, rfl⟩

theorem collectPacket_target_mode (env : Env) (cfg : Setting) (p : Prometheus) (now : Nat)
    (pkt : HEP) (sip : SIPMsg) (hmode : p.TargetEmpty = false) (hsip : pkt.SIP = some sip)
    (hproto : pkt.ProtoType = 1) :
    collectPacket env cfg p now pkt =
      (targetLoop p pkt sip 0 p.TargetName).map (fun ops => (p, countPacket pkt ++ ops)) := by
  unfold collectPacket dispatchPacket
  simp only [hsip, hproto, hmode, decide_True, if_true]
  cases targetLoop p pkt sip 0 p.TargetName <;> rfl

/-- C2 (as stated, refuted): with targets `10.0.0.1` named `A` and `10.0.0.2`
named `B`, one INVITE from `10.0.0.1` to `10.0.0.2` matches both entries and
`collect` increments `heplify_method_response` twice, once under `A` and once
under `B`. -/
theorem collect_counts_packet_under_two_targets :
    (collectPacket sampleEnv (Setting.mk [] [] false false) sampleTargets 0
        (HEP.mk 1 "10.0.0.1".toList "10.0.0.2".toList [] (some sampleInvite))).map
      (fun r => methodResponseIncs r.2) =
      some [["A".toList, "INVITE".toList, "INVITE".toList],
            ["B".toList, "INVITE".toList, "INVITE".toList]] := by
  decide

/-- C2 (amended): in target mode, for a SIP packet of protocol type 1, the loop
body of `collect` returns whenever the XRTP decoder does and the address list
is as long as the name list, and whenever it returns it has incremented
`heplify_method_response` once for EVERY configured entry whose address is a
substring of the source or destination address, in configuration order, each
under that entry's name (so not at all when no entry matches). -/
theorem collect_target_mode_increments (env : Env) (cfg : Setting) (p : Prometheus) (now : Nat)
    (pkt : HEP) (sip : SIPMsg) (hmode : p.TargetEmpty = false) (hsip : pkt.SIP = some sip)
    (hproto : pkt.ProtoType = 1) :
    ((∀ tn, xrtpIfPresent tn sip ≠ none) → p.TargetName.length ≤ p.TargetIP.length →
      ∃ ops, collectPacket env cfg p now pkt = some (p, ops)) ∧
    (∀ p' ops, collectPacket env cfg p now pkt = some (p', ops) →
      methodResponseIncs ops =
        ((p.TargetName.zip p.TargetIP).filter
          (fun e => Contains pkt.SrcIP e.2 || Contains pkt.DstIP e.2)).map
          (fun e => [e.1, sip.Method, sip.CseqMethod])) := by
  rw [collectPacket_target_mode env cfg p now pkt sip hmode hsip hproto]
  constructor
  · intro hx hlen
    obtain ⟨ops, hops⟩ := targetLoop_isSome p pkt sip hx p.TargetName 0 (by omega)
    exact ⟨_, by rw [hops]; rfl⟩
  · intro p' ops h
    cases hl : targetLoop p pkt sip 0 p.TargetName with
    | none => simp [hl] at h
    | some tops =>
      simp only [hl, Option.map_some', Option.some.injEq, Prod.mk.injEq] at h
      obtain ⟨-, rfl⟩ := h
      rw [methodResponseIncs_append, methodResponseIncs_countPacket, List.nil_append,
        targetLoop_incs p pkt sip p.TargetName 0 tops hl, List.drop_zero]

/-- C2 (amended), at a concrete input: the INVITE from `10.0.0.1` to `10.0.0.2`
is processed and counted under both `A` and `B`. -/
theorem collect_target_mode_increments_witness :
    (∃ ops, collectPacket sampleEnv (Setting.mk [] [] false false) sampleTargets 0
        (HEP.mk 1 "10.0.0.1".toList "10.0.0.2".toList [] (some sampleInvite))
        = some (sampleTargets, ops)) ∧
    (∀ p' ops, collectPacket sampleEnv (Setting.mk [] [] false false) sampleTargets 0
        (HEP.mk 1 "10.0.0.1".toList "10.0.0.2".toList [] (some sampleInvite)) = some (p', ops) →
      methodResponseIncs ops =
        [["A".toList, "INVITE".toList, "INVITE".toList],
         ["B".toList, "INVITE".toList, "INVITE".toList]]) :=
  ⟨(collect_target_mode_increments sampleEnv (Setting.mk [] [] false false) sampleTargets 0
      (HEP.mk 1 "10.0.0.1".toList "10.0.0.2".toList [] (some sampleInvite)) sampleInvite
      rfl rfl rfl).1 (fun _ => by simp [xrtpIfPresent, sampleInvite]) (by decide),
   fun p' ops h =>
    (collect_target_mode_increments sampleEnv (Setting.mk [] [] false false) sampleTargets 0
      (HEP.mk 1 "10.0.0.1".toList "10.0.0.2".toList [] (some sampleInvite)) sampleInvite
      rfl rfl rfl).2 p' ops h⟩

/-- C3: in target mode, for a SIP packet of protocol type 1 that the loop body
of `collect` processes, `heplify_method_response` is incremented under a name
`n` exactly when some configured entry with name `n` has an address that is a
substring (a contiguous infix, not necessarily the whole) of the packet's source
address or of its destination address. -/
theorem target_match_iff_substring (env : Env) (cfg : Setting) (p p' : Prometheus) (now : Nat)
    (pkt : HEP) (sip : SIPMsg) (ops : List MetricOp) (n : GoString)
    (hmode : p.TargetEmpty = false) (hsip : pkt.SIP = some sip) (hproto : pkt.ProtoType = 1)
    (hrun : collectPacket env cfg p now pkt = some (p', ops)) :
    [n, sip.Method, sip.CseqMethod] ∈ methodResponseIncs ops ↔
      ∃ (k : Nat) (a : GoString), p.TargetName[k]? = some n ∧ p.TargetIP[k]? = some a ∧
        (a <:+: pkt.SrcIP ∨ a <:+: pkt.DstIP) := by
  rw [collectPacket_target_mode env cfg p now pkt sip hmode hsip hproto] at hrun
  cases hl : targetLoop p pkt sip 0 p.TargetName with
  | none => simp [hl] at hrun
  | some tops =>
    simp only [hl, Option.map_some', Option.some.injEq, Prod.mk.injEq] at hrun
    obtain ⟨-, rfl⟩ := hrun
    rw [methodResponseIncs_append, methodResponseIncs_countPacket, List.nil_append,
      targetLoop_incs p pkt sip p.TargetName 0 tops hl, List.drop_zero]
    simp only [List.mem_map, List.mem_filter, Bool.or_eq_true, Contains_iff]
    constructor
    · rintro ⟨e, ⟨he, hm⟩, heq⟩
      obtain ⟨k, hk⟩ := List.mem_iff_getElem?.mp he
      obtain ⟨h1, h2⟩ := List.getElem?_zip_eq_some.mp hk
      have hn : e.1 = n := by simpa using heq
      exact ⟨k, e.2, by rw [h1, hn], h2, hm⟩
    · rintro ⟨k, a, h1, h2, hm⟩
      refine ⟨(n, a), ⟨?_, hm⟩, rfl⟩
      exact List.mem_iff_getElem?.mpr ⟨k, List.getElem?_zip_eq_some.mpr ⟨h1, h2⟩⟩

/-- C3, at the input of the claim: with addresses `10.0.0.1`, `10.0.0.2` named
`A`, `B`, a SIP packet from `10.0.0.1x` (to `192.168.0.9`) is processed, counted
under `A` and not counted under `B`. -/
theorem target_match_iff_substring_witness :
    ∃ ops, collectPacket sampleEnv (Setting.mk [] [] false false) sampleTargets 0
        (HEP.mk 1 "10.0.0.1x".toList "192.168.0.9".toList [] (some sampleInvite))
        = some (sampleTargets, ops) ∧
      ["A".toList, "INVITE".toList, "INVITE".toList] ∈ methodResponseIncs ops ∧
      ¬ (["B".toList, "INVITE".toList, "INVITE".toList] ∈ methodResponseIncs ops) :=
  ⟨_, rfl,
   (target_match_iff_substring sampleEnv (Setting.mk [] [] false false) sampleTargets
      sampleTargets 0
      (HEP.mk 1 "10.0.0.1x".toList "192.168.0.9".toList [] (some sampleInvite)) sampleInvite _
      "A".toList rfl rfl rfl rfl).mpr
      ⟨0, "10.0.0.1".toList, rfl, rfl, Or.inl (by decide)⟩,
   fun h => by
    obtain ⟨k, a, h1, h2, hm⟩ :=
      (target_match_iff_substring sampleEnv (Setting.mk [] [] false false) sampleTargets
        sampleTargets 0
        (HEP.mk 1 "10.0.0.1x".toList "192.168.0.9".toList [] (some sampleInvite)) sampleInvite _
        "B".toList rfl rfl rfl rfl).mp h
    match k, h1, h2 with
    | 0, h1, _ => exact absurd h1 (by decide)
    | 1, _, h2 =>
      have ha : a = "10.0.0.2".toList := by
        have : some "10.0.0.2".toList = some a := h2
        exact (Option.some.inj this).symm
      subst ha
      revert hm
      decide
    | k + 2, h1, _ => exact absurd h1 (by simp [sampleTargets])⟩

/-! ## Anonymous mode of `collect`: the dedup cache -/

theorem collectPacket_anonymous (env : Env) (cfg : Setting) (p : Prometheus) (now : Nat)
    (pkt : HEP) (sip : SIPMsg) (hmode : p.TargetEmpty = true) (hsip : pkt.SIP = some sip)
    (hproto : pkt.ProtoType = 1) :
    collectPacket env cfg p now pkt =
      (anonymousBranch env p now sip).map (fun r => (r.1, countPacket pkt ++ r.2)) := by
  unfold collectPacket dispatchPacket
  simp only [hsip, hproto, hmode, decide_True]
  cases anonymousBranch env p now sip <;> rfl

theorem anonymousBranch_duplicate (env : Env) (p : Prometheus) (c : Cache) (now : Nat)
    (sip : SIPMsg) (hc : p.Cache = some c) (hget : c.Get now (dedupKey sip) = true) :
    anonymousBranch env p now sip = some (p, []) := by
  simp [anonymousBranch, hc, hget]

theorem anonymousBranch_fresh (env : Env) (p : Prometheus) (c : Cache) (now : Nat)
    (sip : SIPMsg) (xs : List MetricOp) (hc : p.Cache = some c)
    (hget : c.Get now (dedupKey sip) = false) (hx : xrtpIfPresent [] sip = some xs) :
    anonymousBranch env p now sip =
      some ({ p with Cache := some (c.Set env now (dedupKey sip) 600).1 },
        MetricOp.counterInc "heplify_method_response" [[], sip.Method, sip.CseqMethod] :: xs) := by
  simp [anonymousBranch, hc, hget, hx]

theorem Cache_Get_of_lookup (c : Cache) (now e : Nat) (key : GoString)
    (hl : c.entries.lookup key = some e) : c.Get now key = decide (e = 0 ∨ now < e) := by
  simp [Cache.Get, hl]

theorem anonymousBranch_keeps_entry (env : Env) (p p' : Prometheus) (c : Cache) (now e : Nat)
    (sip : SIPMsg) (ops : List MetricOp) (key : GoString)
    (hmode : p.TargetEmpty = true) (hc : p.Cache = some c)
    (hl : c.entries.lookup key = some e) (hnow : now < e)
    (hrun : anonymousBranch env p now sip = some (p', ops)) :
    p'.TargetEmpty = true ∧ ∃ c', p'.Cache = some c' ∧ c'.entries.lookup key = some e := by
  unfold anonymousBranch at hrun
  simp only [hc] at hrun
  split at hrun
  · simp only [Option.some.injEq, Prod.mk.injEq] at hrun
    obtain ⟨rfl, -⟩ := hrun
    exact ⟨hmode, c, hc, hl⟩
  · rename_i hget
    split at hrun
    · simp at hrun
    · simp only [Option.some.injEq, Prod.mk.injEq] at hrun
      obtain ⟨rfl, -⟩ := hrun
      refine ⟨hmode, _, rfl, ?_⟩
      unfold Cache.Set
      split
      · exact hl
      · have hne : key ≠ dedupKey sip := by
          intro heq
          apply hget
          rw [← heq, Cache_Get_of_lookup c now e key hl]
          simpa using Or.inr hnow
        simp only [List.lookup_cons]
        have : (key == dedupKey sip) = false := by simpa using hne
        rw [this]
        exact hl

theorem collectPacket_keeps_entry (env : Env) (cfg : Setting) (p p' : Prometheus) (c : Cache)
    (now e : Nat) (pkt : HEP) (ops : List MetricOp) (key : GoString)
    (hmode : p.TargetEmpty = true) (hc : p.Cache = some c)
    (hl : c.entries.lookup key = some e) (hnow : now < e)
    (hrun : collectPacket env cfg p now pkt = some (p', ops)) :
    p'.TargetEmpty = true ∧ ∃ c', p'.Cache = some c' ∧ c'.entries.lookup key = some e := by
  unfold collectPacket at hrun
  cases hd : dispatchPacket env cfg p now pkt with
  | none => simp [hd] at hrun
  | some r =>
    simp only [hd, Option.some.injEq, Prod.mk.injEq] at hrun
    obtain ⟨rfl, -⟩ := hrun
    unfold dispatchPacket at hd
    split at hd
    · simp only [hmode] at hd
      exact anonymousBranch_keeps_entry env p r.1 c now e _ r.2 key hmode hc hl hnow hd
    · split at hd
      · simp only [Option.some.injEq] at hd
        subst hd
        exact ⟨hmode, c, hc, hl⟩
      · split at hd
        · simp only [Option.some.injEq] at hd
          subst hd
          exact ⟨hmode, c, hc, hl⟩
        · split at hd
          · simp only [Option.some.injEq] at hd
            subst hd
            exact ⟨hmode, c, hc, hl⟩
          · simp only [Option.some.injEq] at hd
            subst hd
            exact ⟨hmode, c, hc, hl⟩

theorem collect_keeps_entry (env : Env) (cfg : Setting) (e : Nat) (key : GoString)
    (pkts : List (Nat × HEP)) :
    ∀ (p p' : Prometheus) (c : Cache) (ops : List MetricOp),
      p.TargetEmpty = true → p.Cache = some c → c.entries.lookup key = some e →
      (∀ tp ∈ pkts, tp.1 < e) → collect env cfg p pkts = some (p', ops) →
      p'.TargetEmpty = true ∧ ∃ c', p'.Cache = some c' ∧ c'.entries.lookup key = some e := by
  induction pkts with
  | nil =>
    intro p p' c ops hmode hc hl _ hrun
    simp only [collect, Option.some.injEq, Prod.mk.injEq] at hrun
    obtain ⟨rfl, -⟩ := hrun
    exact ⟨hmode, c, hc, hl⟩
  | cons tp rest ih =>
    intro p p' c ops hmode hc hl ht hrun
    unfold collect at hrun
    cases h1 : collectPacket env cfg p tp.1 tp.2 with
    | none => simp [h1] at hrun
    | some r =>
      simp only [h1] at hrun
      cases h2 : collect env cfg r.1 rest with
      | none => simp [h2] at hrun
      | some r2 =>
        simp only [h2, Option.some.injEq, Prod.mk.injEq] at hrun
        obtain ⟨rfl, -⟩ := hrun
        obtain ⟨hm1, c1, hc1, hl1⟩ :=
          collectPacket_keeps_entry env cfg p r.1 c tp.1 e tp.2 r.2 key hmode hc hl
            (ht tp (List.mem_cons_self _ _)) h1
        exact ih r.1 r2.1 c1 r2.2 hm1 hc1 hl1
          (fun tp' htp' => ht tp' (List.mem_cons_of_mem _ htp')) h2

/-- C6: in anonymous mode, with the cache a map from key to expiry second in
which recording the key succeeds: a SIP observation at second `t1` whose key has
no live entry is published (one increment of `heplify_method_response` under
the empty target name, then its XRTP gauges) and recorded; after any further
packets received before second `t1 + 600`, an observation with the same key at
`t2 < t1 + 600` writes nothing but the packet count and size and leaves the
receiver unchanged, while one at `t2 >= t1 + 600` is published again. -/
theorem anonymous_dedup_window (env : Env) (cfg : Setting) (p pm : Prometheus) (c : Cache)
    (t1 t2 : Nat) (pkt1 pkt2 : HEP) (sip1 sip2 : SIPMsg) (mid : List (Nat × HEP))
    (xs1 opsm : List MetricOp)
    (hmode : p.TargetEmpty = true) (hc : p.Cache = some c)
    (hsip1 : pkt1.SIP = some sip1) (hproto1 : pkt1.ProtoType = 1)
    (hsip2 : pkt2.SIP = some sip2) (hproto2 : pkt2.ProtoType = 1)
    (hkey : dedupKey sip2 = dedupKey sip1)
    (hfresh : c.Get t1 (dedupKey sip1) = false)
    (hset : env.cacheSetErr (dedupKey sip1) = false)
    (hx1 : xrtpIfPresent [] sip1 = some xs1)
    (hmid : collect env cfg
      { p with Cache := some (Cache.mk ((dedupKey sip1, t1 + 600) :: c.entries)) } mid
        = some (pm, opsm))
    (htimes : ∀ tp ∈ mid, tp.1 < t1 + 600) :
    collectPacket env cfg p t1 pkt1 =
      some ({ p with Cache := some (Cache.mk ((dedupKey sip1, t1 + 600) :: c.entries)) },
        countPacket pkt1 ++
          MetricOp.counterInc "heplify_method_response" [[], sip1.Method, sip1.CseqMethod]
            :: xs1) ∧
    methodResponseIncs (countPacket pkt1 ++
        MetricOp.counterInc "heplify_method_response" [[], sip1.Method, sip1.CseqMethod] :: xs1)
      = [[[], sip1.Method, sip1.CseqMethod]] ∧
    (t2 < t1 + 600 →
      collectPacket env cfg pm t2 pkt2 = some (pm, countPacket pkt2) ∧
      methodResponseIncs (countPacket pkt2) = [] ∧
      ∀ o ∈ countPacket pkt2, o.name ∉ xrtpNames) ∧
    (t1 + 600 ≤ t2 → ∀ xs2, xrtpIfPresent [] sip2 = some xs2 →
      ∃ p2, collectPacket env cfg pm t2 pkt2 =
        some (p2, countPacket pkt2 ++
          MetricOp.counterInc "heplify_method_response" [[], sip2.Method, sip2.CseqMethod]
            :: xs2)) := by
  have hstep : collectPacket env cfg p t1 pkt1 =
      some ({ p with Cache := some (Cache.mk ((dedupKey sip1, t1 + 600) :: c.entries)) },
        countPacket pkt1 ++
          MetricOp.counterInc "heplify_method_response" [[], sip1.Method, sip1.CseqMethod]
            :: xs1) := by
    rw [collectPacket_anonymous env cfg p t1 pkt1 sip1 hmode hsip1 hproto1,
      anonymousBranch_fresh env p c t1 sip1 xs1 hc hfresh hx1]
    simp [Cache.Set, hset]
  have hlive : pm.TargetEmpty = true ∧
      ∃ c', pm.Cache = some c' ∧ c'.entries.lookup (dedupKey sip1) = some (t1 + 600) :=
    collect_keeps_entry env cfg (t1 + 600) (dedupKey sip1) mid
      { p with Cache := some (Cache.mk ((dedupKey sip1, t1 + 600) :: c.entries)) } pm
      (Cache.mk ((dedupKey sip1, t1 + 600) :: c.entries)) opsm hmode rfl
      (by simp [List.lookup_cons]) htimes hmid
  obtain ⟨hmodem, cm, hcm, hlm⟩ := hlive
  refine ⟨hstep, ?_, ?_, ?_⟩
  · rw [methodResponseIncs_append, methodResponseIncs_countPacket]
    have hx := methodResponseIncs_xrtp xs1 (xrtpIfPresent_names _ _ _ hx1)
    simp [methodResponseIncs, hx]
  · intro ht2
    refine ⟨?_, methodResponseIncs_countPacket pkt2, ?_⟩
    · rw [collectPacket_anonymous env cfg pm t2 pkt2 sip2 hmodem hsip2 hproto2,
        anonymousBranch_duplicate env pm cm t2 sip2 hcm
          (by rw [hkey, Cache_Get_of_lookup cm t2 _ _ hlm]; simpa using ht2)]
      simp
    · intro o ho
      unfold countPacket at ho
      split at ho
      · simp only [List.mem_cons, List.mem_singleton, List.not_mem_nil, or_false] at ho
        rcases ho with rfl | rfl <;> simp [MetricOp.name, xrtpNames]
      · simp at ho
  · intro ht2 xs2 hx2
    rw [collectPacket_anonymous env cfg pm t2 pkt2 sip2 hmodem hsip2 hproto2,
      anonymousBranch_fresh env pm cm t2 sip2 xs2 hcm
        (by rw [hkey, Cache_Get_of_lookup cm t2 _ _ hlm]; simpa using ht2) hx2]
    exact ⟨_, rfl⟩

/-- C6, at a concrete input: an INVITE of call `call-1` at second 0, a BYE of
another call at second 100, then the same INVITE again: at second 599 it is
discarded, at second 600 it is published again. -/
theorem anonymous_dedup_window_witness :
    ∃ pm opsm,
      collect sampleEnv (Setting.mk [] [] false false)
        { sampleAnonymous with
          Cache := some (Cache.mk [(dedupKey sampleInvite, 0 + 600)]) }
        [(100, HEP.mk 1 [] [] [] (some sampleBye))] = some (pm, opsm) ∧
      collectPacket sampleEnv (Setting.mk [] [] false false) sampleAnonymous 0
        (HEP.mk 1 [] [] [] (some sampleInvite)) =
        some ({ sampleAnonymous with
            Cache := some (Cache.mk [(dedupKey sampleInvite, 0 + 600)]) },
          countPacket (HEP.mk 1 [] [] [] (some sampleInvite)) ++
            [MetricOp.counterInc "heplify_method_response"
              [[], "INVITE".toList, "INVITE".toList]]) ∧
      collectPacket sampleEnv (Setting.mk [] [] false false) pm 599
        (HEP.mk 1 [] [] [] (some sampleInvite)) =
        some (pm, countPacket (HEP.mk 1 [] [] [] (some sampleInvite))) ∧
      ∃ p2, collectPacket sampleEnv (Setting.mk [] [] false false) pm 600
        (HEP.mk 1 [] [] [] (some sampleInvite)) =
        some (p2, countPacket (HEP.mk 1 [] [] [] (some sampleInvite)) ++
          [MetricOp.counterInc "heplify_method_response"
            [[], "INVITE".toList, "INVITE".toList]]) :=
  ⟨_, _, rfl,
    (anonymous_dedup_window sampleEnv (Setting.mk [] [] false false) sampleAnonymous _
      (Cache.mk []) 0 599 (HEP.mk 1 [] [] [] (some sampleInvite))
      (HEP.mk 1 [] [] [] (some sampleInvite)) sampleInvite sampleInvite
      [(100, HEP.mk 1 [] [] [] (some sampleBye))] [] _ rfl rfl rfl rfl rfl rfl rfl rfl rfl rfl
      rfl (by decide)).1,
    ((anonymous_dedup_window sampleEnv (Setting.mk [] [] false false) sampleAnonymous _
      (Cache.mk []) 0 599 (HEP.mk 1 [] [] [] (some sampleInvite))
      (HEP.mk 1 [] [] [] (some sampleInvite)) sampleInvite sampleInvite
      [(100, HEP.mk 1 [] [] [] (some sampleBye))] [] _ rfl rfl rfl rfl rfl rfl rfl rfl rfl rfl
      rfl (by decide)).2.2.1 (by decide)).1,
    (anonymous_dedup_window sampleEnv (Setting.mk [] [] false false) sampleAnonymous _
      (Cache.mk []) 0 600 (HEP.mk 1 [] [] [] (some sampleInvite))
      (HEP.mk 1 [] [] [] (some sampleInvite)) sampleInvite sampleInvite
      [(100, HEP.mk 1 [] [] [] (some sampleBye))] [] _ rfl rfl rfl rfl rfl rfl rfl rfl rfl rfl
      rfl (by decide)).2.2.2 (by decide) [] rfl⟩

/-! ## Machine integers -/

theorem wrap64_of_inRange (x : Int) (h1 : minInt64 ≤ x) (h2 : x ≤ maxInt64) : wrap64 x = x := by
  unfold minInt64 at h1
  unfold maxInt64 at h2
  unfold wrap64
  omega

theorem wrap64_inRange (x : Int) : minInt64 ≤ wrap64 x ∧ wrap64 x ≤ maxInt64 := by
  unfold minInt64 maxInt64 wrap64
  omega

theorem tdiv_natAbs_le (a b : Int) : (Int.tdiv a b).natAbs ≤ a.natAbs := by
  rw [Int.natAbs_tdiv]
  exact Nat.div_le_self _ _

theorem tdiv_inRange (a b : Int) (h1 : minInt64 < a) (h2 : a ≤ maxInt64) :
    minInt64 ≤ Int.tdiv a b ∧ Int.tdiv a b ≤ maxInt64 := by
  have h := tdiv_natAbs_le a b
  unfold minInt64 at *
  unfold maxInt64 at *
  omega

/-! ## `dissectXRTPStats`: every key is decoded on its own -/

theorem xrtpCS_frame (tn : GoString) (m : List (GoString × GoString)) (st : XRTPState) :
    (xrtpCS tn m st).pr = st.pr ∧ (xrtpCS tn m st).ps = st.ps ∧
    (xrtpCS tn m st).plr = st.plr ∧ (xrtpCS tn m st).pls = st.pls ∧
    (xrtpCS tn m st).jir = st.jir ∧ (xrtpCS tn m st).jis = st.jis ∧
    (xrtpCS tn m st).dle = st.dle ∧
    (xrtpCS tn m st).ops = st.ops ++ (xrtpCS tn m XRTPState.init).ops ∧
    (st.cs = 0 → (xrtpCS tn m st).cs = (xrtpCS tn m XRTPState.init).cs) := by
  unfold xrtpCS
  split
  · simp [XRTPState.init]
  · split <;> simp [XRTPState.init]

theorem xrtpPR_frame (m : List (GoString × GoString)) (st : XRTPState) :
    (xrtpPR m st).cs = st.cs ∧ (xrtpPR m st).ps = st.ps ∧
    (xrtpPR m st).plr = st.plr ∧ (xrtpPR m st).pls = st.pls ∧
    (xrtpPR m st).jir = st.jir ∧ (xrtpPR m st).jis = st.jis ∧
    (xrtpPR m st).dle = st.dle ∧
    (xrtpPR m st).ops = st.ops ∧
    (st.pr = 0 → (xrtpPR m st).pr = (xrtpPR m XRTPState.init).pr) := by
  unfold xrtpPR
  split
  · simp [XRTPState.init]
  · split <;> simp [XRTPState.init]

theorem xrtpPS_frame (m : List (GoString × GoString)) (st : XRTPState) :
    (xrtpPS m st).cs = st.cs ∧ (xrtpPS m st).pr = st.pr ∧
    (xrtpPS m st).plr = st.plr ∧ (xrtpPS m st).pls = st.pls ∧
    (xrtpPS m st).jir = st.jir ∧ (xrtpPS m st).jis = st.jis ∧
    (xrtpPS m st).dle = st.dle ∧
    (xrtpPS m st).ops = st.ops ∧
    (st.ps = 0 → (xrtpPS m st).ps = (xrtpPS m XRTPState.init).ps) := by
  unfold xrtpPS
  split
  · simp [XRTPState.init]
  · split <;> simp [XRTPState.init]

theorem xrtpPL_frame (tn : GoString) (m : List (GoString × GoString)) (st : XRTPState) :
    (xrtpPL tn m st).cs = st.cs ∧ (xrtpPL tn m st).pr = st.pr ∧ (xrtpPL tn m st).ps = st.ps ∧
    (xrtpPL tn m st).jir = st.jir ∧ (xrtpPL tn m st).jis = st.jis ∧
    (xrtpPL tn m st).dle = st.dle ∧
    (xrtpPL tn m st).ops = st.ops ++ (xrtpPL tn m XRTPState.init).ops ∧
    (st.plr = 0 → (xrtpPL tn m st).plr = (xrtpPL tn m XRTPState.init).plr) ∧
    (st.pls = 0 → (xrtpPL tn m st).pls = (xrtpPL tn m XRTPState.init).pls) := by
  unfold xrtpPL
  split
  · simp [XRTPState.init]
  · split
    · split <;> simp [XRTPState.init]
    · simp [XRTPState.init]

theorem xrtpJI_frame (tn : GoString) (m : List (GoString × GoString)) (st : XRTPState) :
    (xrtpJI tn m st).cs = st.cs ∧ (xrtpJI tn m st).pr = st.pr ∧ (xrtpJI tn m st).ps = st.ps ∧
    (xrtpJI tn m st).plr = st.plr ∧ (xrtpJI tn m st).pls = st.pls ∧
    (xrtpJI tn m st).dle = st.dle ∧
    (xrtpJI tn m st).ops = st.ops ++ (xrtpJI tn m XRTPState.init).ops ∧
    (st.jir = 0 → (xrtpJI tn m st).jir = (xrtpJI tn m XRTPState.init).jir) ∧
    (st.jis = 0 → (xrtpJI tn m st).jis = (xrtpJI tn m XRTPState.init).jis) := by
  unfold xrtpJI
  split
  · simp [XRTPState.init]
  · split
    · split <;> simp [XRTPState.init]
    · simp [XRTPState.init]

theorem xrtpDL_frame (tn : GoString) (m : List (GoString × GoString)) (st : XRTPState) :
    (xrtpDL tn m st).cs = st.cs ∧ (xrtpDL tn m st).pr = st.pr ∧ (xrtpDL tn m st).ps = st.ps ∧
    (xrtpDL tn m st).plr = st.plr ∧ (xrtpDL tn m st).pls = st.pls ∧
    (xrtpDL tn m st).jir = st.jir ∧ (xrtpDL tn m st).jis = st.jis ∧
    (xrtpDL tn m st).ops = st.ops ++ (xrtpDL tn m XRTPState.init).ops ∧
    (st.dle = 0 → (xrtpDL tn m st).dle = (xrtpDL tn m XRTPState.init).dle) := by
  unfold xrtpDL
  split
  · simp [XRTPState.init]
  · split
    · split <;> simp [XRTPState.init]
    · simp [XRTPState.init]

/-- Every local of `dissectXRTPStats` and every gauge write is determined by the
block of its own key alone. -/
theorem xrtpParse_fields (tn stats : GoString) :
    (xrtpParse tn stats).cs = (xrtpCS tn (statsMap stats) XRTPState.init).cs ∧
    (xrtpParse tn stats).pr = (xrtpPR (statsMap stats) XRTPState.init).pr ∧
    (xrtpParse tn stats).ps = (xrtpPS (statsMap stats) XRTPState.init).ps ∧
    (xrtpParse tn stats).plr = (xrtpPL tn (statsMap stats) XRTPState.init).plr ∧
    (xrtpParse tn stats).pls = (xrtpPL tn (statsMap stats) XRTPState.init).pls ∧
    (xrtpParse tn stats).jir = (xrtpJI tn (statsMap stats) XRTPState.init).jir ∧
    (xrtpParse tn stats).jis = (xrtpJI tn (statsMap stats) XRTPState.init).jis ∧
    (xrtpParse tn stats).dle = (xrtpDL tn (statsMap stats) XRTPState.init).dle ∧
    (xrtpParse tn stats).ops =
      (xrtpCS tn (statsMap stats) XRTPState.init).ops ++
      (xrtpPL tn (statsMap stats) XRTPState.init).ops ++
      (xrtpJI tn (statsMap stats) XRTPState.init).ops ++
      (xrtpDL tn (statsMap stats) XRTPState.init).ops := by
  have hz : XRTPState.init.pr = 0 ∧ XRTPState.init.ps = 0 ∧ XRTPState.init.plr = 0 ∧
      XRTPState.init.pls = 0 ∧ XRTPState.init.jir = 0 ∧ XRTPState.init.jis = 0 ∧
      XRTPState.init.dle = 0 ∧ XRTPState.init.ops = [] := ⟨rfl, rfl, rfl, rfl, rfl, rfl, rfl, rfl⟩
  obtain ⟨z1, z2, z3, z4, z5, z6, z7, z8⟩ := hz
  generalize hm : statsMap stats = m
  simp only [xrtpParse, hm]
  obtain ⟨a1, a2, a3, a4, a5, a6, a7, a8, -⟩ := xrtpCS_frame tn m XRTPState.init
  obtain ⟨b1, b2, b3, b4, b5, b6, b7, b8, b9⟩ := xrtpPR_frame m (xrtpCS tn m XRTPState.init)
  obtain ⟨c1, c2, c3, c4, c5, c6, c7, c8, c9⟩ :=
    xrtpPS_frame m (xrtpPR m (xrtpCS tn m XRTPState.init))
  obtain ⟨d1, d2, d3, d4, d5, d6, d7, d8, d9⟩ :=
    xrtpPL_frame tn m (xrtpPS m (xrtpPR m (xrtpCS tn m XRTPState.init)))
  obtain ⟨e1, e2, e3, e4, e5, e6, e7, e8, e9⟩ :=
    xrtpJI_frame tn m (xrtpPL tn m (xrtpPS m (xrtpPR m (xrtpCS tn m XRTPState.init))))
  obtain ⟨f1, f2, f3, f4, f5, f6, f7, f8, f9⟩ :=
    xrtpDL_frame tn m
      (xrtpJI tn m (xrtpPL tn m (xrtpPS m (xrtpPR m (xrtpCS tn m XRTPState.init)))))
  refine ⟨?_, ?_, ?_, ?_, ?_, ?_, ?_, ?_, ?_⟩
  · rw [f1, e1, d1, c1, b1]
  · rw [f2, e2, d2, c2, b9 (by rw [a1, z1])]
  · rw [f3, e3, d3, c9 (by rw [b2, a2, z2])]
  · rw [f4, e4, d8 (by rw [c3, b3, a3, z3])]
  · rw [f5, e5, d9 (by rw [c4, b4, a4, z4])]
  · rw [f6, e8 (by rw [d4, c5, b5, a5, z5])]
  · rw [f7, e9 (by rw [d5, c6, b6, a6, z6])]
  · rw [f9 (by rw [e6, d6, c7, b7, a7, z7])]
  · rw [f8, e7, d7, c8, b8]

/-! ## `dissectXRTPStats`: loss and effective latency -/

theorem xrtpPR_absent (m : List (GoString × GoString)) (st : XRTPState)
    (h : mapGet m "PR" = none) : xrtpPR m st = st := by
  simp [xrtpPR, h]

theorem xrtpPS_absent (m : List (GoString × GoString)) (st : XRTPState)
    (h : mapGet m "PS" = none) : xrtpPS m st = st := by
  simp [xrtpPS, h]

/-- C7: the integer intermediates of `dissectXRTPStats`. With `pr`, `ps`, `plr`,
`pls`, `jir`, `dle` the locals after parsing: the counts used by the division
are 1 and 1 when `pr` and `ps` are both 0 and `pr`, `ps` otherwise; a string
without the keys `PR` and `PS` has divisor 2; `loss` is the truncated quotient
of `(plr + pls) * 100` by the sum of the two counts and `el` is
`jir * 2 + dle + 10`, in Go `int` arithmetic, which is exact integer arithmetic
whenever the divisor is not 0 and no intermediate leaves the `int` range. -/
theorem xrtp_integer_intermediates (tn stats : GoString) :
    (((xrtpParse tn stats).pr = 0 ∧ (xrtpParse tn stats).ps = 0) →
      adjustCounts (xrtpParse tn stats).pr (xrtpParse tn stats).ps = (1, 1)) ∧
    (¬ ((xrtpParse tn stats).pr = 0 ∧ (xrtpParse tn stats).ps = 0) →
      adjustCounts (xrtpParse tn stats).pr (xrtpParse tn stats).ps =
        ((xrtpParse tn stats).pr, (xrtpParse tn stats).ps)) ∧
    (mapGet (statsMap stats) "PR" = none → mapGet (statsMap stats) "PS" = none →
      lossDivisor (xrtpParse tn stats) = 2) ∧
    lossOf (xrtpParse tn stats) =
      goQuo (goMul (goAdd (xrtpParse tn stats).plr (xrtpParse tn stats).pls) 100)
        (goAdd (adjustCounts (xrtpParse tn stats).pr (xrtpParse tn stats).ps).1
          (adjustCounts (xrtpParse tn stats).pr (xrtpParse tn stats).ps).2) ∧
    effectiveLatency (xrtpParse tn stats) =
      goAdd (goMul (xrtpParse tn stats).jir 2) (goAdd (xrtpParse tn stats).dle 10) ∧
    (∀ pr' ps' : Int,
      adjustCounts (xrtpParse tn stats).pr (xrtpParse tn stats).ps = (pr', ps') →
      pr' + ps' ≠ 0 → minInt64 ≤ pr' + ps' → pr' + ps' ≤ maxInt64 →
      minInt64 < ((xrtpParse tn stats).plr + (xrtpParse tn stats).pls) * 100 →
      ((xrtpParse tn stats).plr + (xrtpParse tn stats).pls) * 100 ≤ maxInt64 →
      lossOf (xrtpParse tn stats) =
        some (Int.tdiv (((xrtpParse tn stats).plr + (xrtpParse tn stats).pls) * 100)
          (pr' + ps'))) ∧
    (minInt64 ≤ (xrtpParse tn stats).jir * 2 → (xrtpParse tn stats).jir * 2 ≤ maxInt64 →
      minInt64 ≤ (xrtpParse tn stats).dle + 10 → (xrtpParse tn stats).dle + 10 ≤ maxInt64 →
      minInt64 ≤ (xrtpParse tn stats).jir * 2 + (xrtpParse tn stats).dle + 10 →
      (xrtpParse tn stats).jir * 2 + (xrtpParse tn stats).dle + 10 ≤ maxInt64 →
      effectiveLatency (xrtpParse tn stats) =
        (xrtpParse tn stats).jir * 2 + (xrtpParse tn stats).dle + 10) := by
  refine ⟨?_, ?_, ?_, rfl, rfl, ?_, ?_⟩
  · intro h
    simp [adjustCounts, h]
  · intro h
    simp [adjustCounts, h]
  · intro hpr hps
    obtain ⟨-, h2, h3, -⟩ := xrtpParse_fields tn stats
    rw [xrtpPR_absent _ _ hpr] at h2
    rw [xrtpPS_absent _ _ hps] at h3
    unfold lossDivisor
    rw [h2, h3]
    decide
  · intro pr' ps' hadj hne h1 h2 h3 h4
    unfold lossOf lossDivisor
    rw [hadj]
    simp only
    have ha : goAdd pr' ps' = pr' + ps' := wrap64_of_inRange _ h1 h2
    have hs : goAdd (xrtpParse tn stats).plr (xrtpParse tn stats).pls =
        (xrtpParse tn stats).plr + (xrtpParse tn stats).pls := by
      apply wrap64_of_inRange
      · unfold minInt64 at *; omega
      · unfold maxInt64 at *; omega
    have hm : goMul ((xrtpParse tn stats).plr + (xrtpParse tn stats).pls) 100 =
        ((xrtpParse tn stats).plr + (xrtpParse tn stats).pls) * 100 :=
      wrap64_of_inRange _ (le_of_lt h3) h4
    rw [ha, hs, hm]
    unfold goQuo
    rw [if_neg hne]
    obtain ⟨q1, q2⟩ := tdiv_inRange _ (pr' + ps') h3 h4
    rw [wrap64_of_inRange _ q1 q2]
  · intro h1 h2 h3 h4 h5 h6
    unfold effectiveLatency
    have hm : goMul (xrtpParse tn stats).jir 2 = (xrtpParse tn stats).jir * 2 :=
      wrap64_of_inRange _ h1 h2
    have ha : goAdd (xrtpParse tn stats).dle 10 = (xrtpParse tn stats).dle + 10 :=
      wrap64_of_inRange _ h3 h4
    rw [hm, ha]
    unfold goAdd
    rw [← add_assoc]
    exact wrap64_of_inRange _ h5 h6

/-- C7, at the inputs of the claim: for the worked example the counts are 100
and 100, `loss` is `(2 + 3) * 100 / 200 = 2` and `el` is `10 * 2 + 30 + 10 = 60`;
for the string `CS=5000`, which has neither `PR` nor `PS`, the divisor is 2. -/
theorem xrtp_integer_intermediates_witness :
    adjustCounts (xrtpParse [] sampleStats).pr (xrtpParse [] sampleStats).ps = (100, 100) ∧
    lossOf (xrtpParse [] sampleStats) = some (Int.tdiv ((2 + 3) * 100) (100 + 100)) ∧
    lossOf (xrtpParse [] sampleStats) = some 2 ∧
    effectiveLatency (xrtpParse [] sampleStats) = 10 * 2 + 30 + 10 ∧
    effectiveLatency (xrtpParse [] sampleStats) = 60 ∧
    lossDivisor (xrtpParse [] "CS=5000".toList) = 2 :=
  ⟨(xrtp_integer_intermediates [] sampleStats).2.1 (by decide),
   (xrtp_integer_intermediates [] sampleStats).2.2.2.2.2.1 100 100 (by decide) (by decide)
     (by decide) (by decide) (by decide) (by decide),
   by decide,
   (xrtp_integer_intermediates [] sampleStats).2.2.2.2.2.2 (by decide) (by decide) (by decide)
     (by decide) (by decide) (by decide),
   by decide,
   (xrtp_integer_intermediates [] "CS=5000".toList).2.2.1 (by decide) (by decide)⟩

/-! ## `dissectXRTPStats`: R-factor and MOS -/

theorem effectiveLatency_inRange (st : XRTPState) :
    minInt64 ≤ effectiveLatency st ∧ effectiveLatency st ≤ maxInt64 :=
  wrap64_inRange _

theorem goSub_120 (el : Int) (h1 : 160 ≤ el) (h2 : el ≤ maxInt64) : goSub el 120 = el - 120 := by
  apply wrap64_of_inRange
  · unfold minInt64; omega
  · omega

/-- C8: whenever the loss division of `dissectXRTPStats` succeeds with quotient
`loss`, with `el` the effective latency the function ends by setting
`heplify_xrtp_mos` under the given target name to
`1 + 0.035 R + 0.000007 R (R - 60) (100 - R)`, where
`R = 93.2 - el / 40 - 2.5 loss` when `el < 160` and
`R = 93.2 - (el - 120) / 10 - 2.5 loss` when `el >= 160`, all over the rationals. -/
theorem xrtp_mos_formula (tn stats : GoString) (loss : Int)
    (hloss : lossOf (xrtpParse tn stats) = some loss) :
    ∃ R : ℚ,
      (effectiveLatency (xrtpParse tn stats) < 160 →
        R = 932 / 10 - (effectiveLatency (xrtpParse tn stats) : ℚ) / 40 - (5 / 2) * (loss : ℚ)) ∧
      (160 ≤ effectiveLatency (xrtpParse tn stats) →
        R = 932 / 10 - ((effectiveLatency (xrtpParse tn stats) : ℚ) - 120) / 10
          - (5 / 2) * (loss : ℚ)) ∧
      dissectXRTPStats tn stats =
        some ((xrtpParse tn stats).ops ++
          [MetricOp.gaugeSet "heplify_xrtp_mos" [tn]
            (1 + (35 / 1000) * R + (7 / 1000000) * R * (R - 60) * (100 - R))]) := by
  refine ⟨rFactor (effectiveLatency (xrtpParse tn stats)) loss, ?_, ?_, ?_⟩
  · intro h
    unfold rFactor
    rw [if_pos h]
    ring
  · intro h
    unfold rFactor
    rw [if_neg (not_lt.mpr h), goSub_120 _ h (effectiveLatency_inRange _).2]
    push_cast
    ring
  · simp only [dissectXRTPStats, hloss, mosOf]

/-- C8, at the input of the claim: for the worked example `R = 86.7` and the
value set on `heplify_xrtp_mos` lies between 1 and 4.5. -/
theorem xrtp_mos_formula_witness :
    ∃ R : ℚ, R = 867 / 10 ∧
      dissectXRTPStats [] sampleStats =
        some ((xrtpParse [] sampleStats).ops ++
          [MetricOp.gaugeSet "heplify_xrtp_mos" [[]]
            (1 + (35 / 1000) * R + (7 / 1000000) * R * (R - 60) * (100 - R))]) ∧
      1 ≤ 1 + (35 / 1000) * R + (7 / 1000000) * R * (R - 60) * (100 - R) ∧
      1 + (35 / 1000) * R + (7 / 1000000) * R * (R - 60) * (100 - R) ≤ 45 / 10 := by
  obtain ⟨R, h1, -, h3⟩ := xrtp_mos_formula [] sampleStats 2 (by decide)
  have hel : effectiveLatency (xrtpParse [] sampleStats) = 60 := by decide
  have hR : R = 867 / 10 := by
    rw [h1 (by decide), hel]
    norm_num
  refine ⟨R, hR, h3, ?_, ?_⟩ <;> rw [hR] <;> norm_num

/-! ## `dissectXRTPStats`: parse failures -/

theorem parseUintLoop_cases (s : List Char) (n : Nat) :
    (parseUintLoop s n).2 = none ∨
    (parseUintLoop s n = (0, some NumError.ErrSyntax)) ∨
    (parseUintLoop s n = (2 ^ 64 - 1, some NumError.ErrRange)) := by
  induction s generalizing n with
  | nil => left; rfl
  | cons c cs ih =>
    unfold parseUintLoop
    split
    · split
      · right; right; rfl
      · exact ih _
    · right; left; rfl

theorem Atoi_cases (s : GoString) :
    Atoi s = (0, some NumError.ErrSyntax) ∨ Atoi s = (maxInt64, some NumError.ErrRange) ∨
    Atoi s = (minInt64, some NumError.ErrRange) ∨ (Atoi s).2 = none := by
  unfold Atoi ParseInt
  simp only
  generalize (if s.head? = some '+' ∨ s.head? = some '-' then s.tail else s) = rest
  generalize decide (s.head? = some '-') = neg
  by_cases hr : rest = []
  · left; rw [if_pos hr]
  · rw [if_neg hr]
    rcases hp : parseUintLoop rest 0 with ⟨un, e⟩
    cases e with
    | none =>
      simp only
      split_ifs <;> simp
    | some e =>
      cases e with
      | ErrSyntax => left; rfl
      | ErrRange =>
        simp only
        split_ifs <;> simp

theorem Atoi_syntax (s : GoString) (h : (Atoi s).2 = some NumError.ErrSyntax) :
    (Atoi s).1 = 0 := by
  rcases Atoi_cases s with h1 | h1 | h1 | h1
  · rw [h1]
  · rw [h1] at h; simp at h
  · rw [h1] at h; simp at h
  · rw [h1] at h; simp at h

theorem Atoi_range (s : GoString) (h : (Atoi s).2 = some NumError.ErrRange) :
    (Atoi s).1 = maxInt64 ∨ (Atoi s).1 = minInt64 := by
  rcases Atoi_cases s with h1 | h1 | h1 | h1
  · rw [h1] at h; simp at h
  · left; rw [h1]
  · right; rw [h1]
  · rw [h1] at h; simp at h

theorem presentValue_eq_some (m : List (GoString × GoString)) (key : String) (v : GoString) :
    presentValue m key = some v ↔ mapGet m key = some v ∧ v.length ≥ 1 := by
  unfold presentValue
  cases hm : mapGet m key with
  | none => simp
  | some w =>
    simp only [Option.some.injEq]
    constructor
    · intro h
      split at h
      · simp only [Option.some.injEq] at h
        subst h
        exact ⟨rfl, by assumption⟩
      · simp at h
    · rintro ⟨rfl, h⟩
      rw [if_pos h]

theorem xrtpCS_at (tn : GoString) (m : List (GoString × GoString)) (v : GoString)
    (h : presentValue m "CS" = some v) :
    (xrtpCS tn m XRTPState.init).cs = (Atoi v).1 ∧
    (xrtpCS tn m XRTPState.init).ops =
      if (Atoi v).2 = none then
        [MetricOp.gaugeSet "heplify_xrtp_cs" [tn] ((goQuoNZ (Atoi v).1 1000 : Int) : ℚ)]
      else [] := by
  obtain ⟨h1, h2⟩ := (presentValue_eq_some _ _ _).mp h
  simp [xrtpCS, h1, h2, XRTPState.init]

theorem xrtpPR_at (m : List (GoString × GoString)) (v : GoString)
    (h : presentValue m "PR" = some v) : (xrtpPR m XRTPState.init).pr = (Atoi v).1 := by
  obtain ⟨h1, h2⟩ := (presentValue_eq_some _ _ _).mp h
  simp [xrtpPR, h1, h2, XRTPState.init]

theorem xrtpPS_at (m : List (GoString × GoString)) (v : GoString)
    (h : presentValue m "PS" = some v) : (xrtpPS m XRTPState.init).ps = (Atoi v).1 := by
  obtain ⟨h1, h2⟩ := (presentValue_eq_some _ _ _).mp h
  simp [xrtpPS, h1, h2, XRTPState.init]

theorem xrtpPL_at (tn : GoString) (m : List (GoString × GoString)) (v a b : GoString)
    (h : presentValue m "PL" = some v) (hs : Split v ',' = [a, b]) :
    (xrtpPL tn m XRTPState.init).plr = (Atoi a).1 ∧
    (xrtpPL tn m XRTPState.init).pls = (Atoi b).1 ∧
    (xrtpPL tn m XRTPState.init).ops =
      setIfParsed "heplify_xrtp_plr" tn (Atoi a) ++ setIfParsed "heplify_xrtp_pls" tn (Atoi b) := by
  obtain ⟨h1, h2⟩ := (presentValue_eq_some _ _ _).mp h
  simp [xrtpPL, h1, h2, hs, XRTPState.init]

theorem xrtpJI_at (tn : GoString) (m : List (GoString × GoString)) (v a b : GoString)
    (h : presentValue m "JI" = some v) (hs : Split v ',' = [a, b]) :
    (xrtpJI tn m XRTPState.init).jir = (Atoi a).1 ∧
    (xrtpJI tn m XRTPState.init).jis = (Atoi b).1 ∧
    (xrtpJI tn m XRTPState.init).ops =
      setIfParsed "heplify_xrtp_jir" tn (Atoi a) ++ setIfParsed "heplify_xrtp_jis" tn (Atoi b) := by
  obtain ⟨h1, h2⟩ := (presentValue_eq_some _ _ _).mp h
  simp [xrtpJI, h1, h2, hs, XRTPState.init]

theorem xrtpDL_at (tn : GoString) (m : List (GoString × GoString)) (v a b c : GoString)
    (h : presentValue m "DL" = some v) (hs : Split v ',' = [a, b, c]) :
    (xrtpDL tn m XRTPState.init).dle = (Atoi a).1 ∧
    (xrtpDL tn m XRTPState.init).ops = setIfParsed "heplify_xrtp_dle" tn (Atoi a) := by
  obtain ⟨h1, h2⟩ := (presentValue_eq_some _ _ _).mp h
  simp [xrtpDL, h1, h2, hs, XRTPState.init]

theorem xrtpCS_init_names (tn : GoString) (m : List (GoString × GoString)) :
    ∀ o ∈ (xrtpCS tn m XRTPState.init).ops, o.name = "heplify_xrtp_cs" := by
  intro o ho
  unfold xrtpCS at ho
  split at ho
  · simp [XRTPState.init] at ho
  · split at ho
    · simp only [XRTPState.init, List.nil_append] at ho
      split at ho
      · simp at ho; subst ho; rfl
      · simp at ho
    · simp [XRTPState.init] at ho

theorem xrtpPL_init_names (tn : GoString) (m : List (GoString × GoString)) :
    ∀ o ∈ (xrtpPL tn m XRTPState.init).ops,
      o.name = "heplify_xrtp_plr" ∨ o.name = "heplify_xrtp_pls" := by
  intro o ho
  unfold xrtpPL at ho
  split at ho
  · simp [XRTPState.init] at ho
  · split at ho
    · split at ho
      · simp only [XRTPState.init, List.nil_append, List.mem_append] at ho
        rcases ho with ho | ho
        · left; exact setIfParsed_names _ _ _ o ho
        · right; exact setIfParsed_names _ _ _ o ho
      · simp [XRTPState.init] at ho
    · simp [XRTPState.init] at ho

theorem xrtpJI_init_names (tn : GoString) (m : List (GoString × GoString)) :
    ∀ o ∈ (xrtpJI tn m XRTPState.init).ops,
      o.name = "heplify_xrtp_jir" ∨ o.name = "heplify_xrtp_jis" := by
  intro o ho
  unfold xrtpJI at ho
  split at ho
  · simp [XRTPState.init] at ho
  · split at ho
    · split at ho
      · simp only [XRTPState.init, List.nil_append, List.mem_append] at ho
        rcases ho with ho | ho
        · left; exact setIfParsed_names _ _ _ o ho
        · right; exact setIfParsed_names _ _ _ o ho
      · simp [XRTPState.init] at ho
    · simp [XRTPState.init] at ho

theorem xrtpDL_init_names (tn : GoString) (m : List (GoString × GoString)) :
    ∀ o ∈ (xrtpDL tn m XRTPState.init).ops, o.name = "heplify_xrtp_dle" := by
  intro o ho
  unfold xrtpDL at ho
  split at ho
  · simp [XRTPState.init] at ho
  · split at ho
    · split at ho
      · simp only [XRTPState.init, List.nil_append] at ho
        exact setIfParsed_names _ _ _ o ho
      · simp [XRTPState.init] at ho
    · simp [XRTPState.init] at ho

theorem setIfParsed_ok (name : String) (tn : GoString) (r : Int × Option NumError)
    (h : r.2 = none) : setIfParsed name tn r = [MetricOp.gaugeSet name [tn] (r.1 : ℚ)] := by
  simp [setIfParsed, h]

theorem setIfParsed_err (name : String) (tn : GoString) (r : Int × Option NumError)
    (h : r.2 ≠ none) : setIfParsed name tn r = [] := by
  simp [setIfParsed, h]

theorem pair_first_of_match (o : Option (List GoString)) (text : GoString)
    (h : (match o with
      | some [a, _] => some a
      | _ => none) = some text) : ∃ b, o = some [text, b] := by
  split at h
  · simp only [Option.some.injEq] at h
    subst h
    exact ⟨_, rfl⟩
  · simp at h

theorem pair_second_of_match (o : Option (List GoString)) (text : GoString)
    (h : (match o with
      | some [_, b] => some b
      | _ => none) = some text) : ∃ a, o = some [a, text] := by
  split at h
  · simp only [Option.some.injEq] at h
    subst h
    exact ⟨_, rfl⟩
  · simp at h

theorem triple_first_of_match (o : Option (List GoString)) (text : GoString)
    (h : (match o with
      | some [a, _, _] => some a
      | _ => none) = some text) : ∃ b c, o = some [text, b, c] := by
  split at h
  · simp only [Option.some.injEq] at h
    subst h
    exact ⟨_, _, rfl⟩
  · simp at h

theorem xrtpText_PLr (m : List (GoString × GoString)) (text : GoString)
    (h : xrtpText m XRTPField.PLr = some text) :
    ∃ v b, presentValue m "PL" = some v ∧ Split v ',' = [text, b] := by
  obtain ⟨b, hb⟩ := pair_first_of_match _ _ h
  obtain ⟨v, hv, hs⟩ := Option.map_eq_some'.mp hb
  exact ⟨v, b, hv, hs⟩

theorem xrtpText_PLs (m : List (GoString × GoString)) (text : GoString)
    (h : xrtpText m XRTPField.PLs = some text) :
    ∃ v a, presentValue m "PL" = some v ∧ Split v ',' = [a, text] := by
  obtain ⟨a, ha⟩ := pair_second_of_match _ _ h
  obtain ⟨v, hv, hs⟩ := Option.map_eq_some'.mp ha
  exact ⟨v, a, hv, hs⟩

theorem xrtpText_JIr (m : List (GoString × GoString)) (text : GoString)
    (h : xrtpText m XRTPField.JIr = some text) :
    ∃ v b, presentValue m "JI" = some v ∧ Split v ',' = [text, b] := by
  obtain ⟨b, hb⟩ := pair_first_of_match _ _ h
  obtain ⟨v, hv, hs⟩ := Option.map_eq_some'.mp hb
  exact ⟨v, b, hv, hs⟩

theorem xrtpText_JIs (m : List (GoString × GoString)) (text : GoString)
    (h : xrtpText m XRTPField.JIs = some text) :
    ∃ v a, presentValue m "JI" = some v ∧ Split v ',' = [a, text] := by
  obtain ⟨a, ha⟩ := pair_second_of_match _ _ h
  obtain ⟨v, hv, hs⟩ := Option.map_eq_some'.mp ha
  exact ⟨v, a, hv, hs⟩

theorem xrtpText_DLe (m : List (GoString × GoString)) (text : GoString)
    (h : xrtpText m XRTPField.DLe = some text) :
    ∃ v b c, presentValue m "DL" = some v ∧ Split v ',' = [text, b, c] := by
  obtain ⟨b, c, hb⟩ := triple_first_of_match _ _ h
  obtain ⟨v, hv, hs⟩ := Option.map_eq_some'.mp hb
  exact ⟨v, b, c, hv, hs⟩

theorem xrtpText_var (tn stats : GoString) (f : XRTPField) (text : GoString)
    (htext : xrtpText (statsMap stats) f = some text) :
    xrtpVar (xrtpParse tn stats) f = (Atoi text).1 := by
  obtain ⟨h1, h2, h3, h4, h5, h6, h7, h8, -⟩ := xrtpParse_fields tn stats
  cases f with
  | CS => exact h1.trans (xrtpCS_at tn _ _ htext).1
  | PR => exact h2.trans (xrtpPR_at _ _ htext)
  | PS => exact h3.trans (xrtpPS_at _ _ htext)
  | PLr =>
    obtain ⟨v, b, hv, hs⟩ := xrtpText_PLr _ _ htext
    exact h4.trans (xrtpPL_at tn _ v _ b hv hs).1
  | PLs =>
    obtain ⟨v, a, hv, hs⟩ := xrtpText_PLs _ _ htext
    exact h5.trans (xrtpPL_at tn _ v a _ hv hs).2.1
  | JIr =>
    obtain ⟨v, b, hv, hs⟩ := xrtpText_JIr _ _ htext
    exact h6.trans (xrtpJI_at tn _ v _ b hv hs).1
  | JIs =>
    obtain ⟨v, a, hv, hs⟩ := xrtpText_JIs _ _ htext
    exact h7.trans (xrtpJI_at tn _ v a _ hv hs).2.1
  | DLe =>
    obtain ⟨v, b, c, hv, hs⟩ := xrtpText_DLe _ _ htext
    exact h8.trans (xrtpDL_at tn _ v _ b c hv hs).1

theorem xrtpText_published (tn stats : GoString) (f : XRTPField) (text : GoString) (g : String)
    (htext : xrtpText (statsMap stats) f = some text) (hg : xrtpGauge f = some g)
    (hok : (Atoi text).2 = none) :
    MetricOp.gaugeSet g [tn] (xrtpPublished f (Atoi text).1) ∈ (xrtpParse tn stats).ops := by
  obtain ⟨-, -, -, -, -, -, -, -, hops⟩ := xrtpParse_fields tn stats
  rw [hops]
  simp only [List.mem_append]
  cases f with
  | CS =>
    obtain rfl : "heplify_xrtp_cs" = g := Option.some.inj hg
    left; left; left
    rw [(xrtpCS_at tn _ _ htext).2, if_pos hok]
    simp [xrtpPublished]
  | PR => simp [xrtpGauge] at hg
  | PS => simp [xrtpGauge] at hg
  | PLr =>
    obtain rfl : "heplify_xrtp_plr" = g := Option.some.inj hg
    obtain ⟨v, b, hv, hs⟩ := xrtpText_PLr _ _ htext
    left; left; right
    rw [(xrtpPL_at tn _ v _ b hv hs).2.2, setIfParsed_ok _ _ _ hok]
    simp [xrtpPublished]
  | PLs =>
    obtain rfl : "heplify_xrtp_pls" = g := Option.some.inj hg
    obtain ⟨v, a, hv, hs⟩ := xrtpText_PLs _ _ htext
    left; left; right
    rw [(xrtpPL_at tn _ v a _ hv hs).2.2, setIfParsed_ok _ _ (Atoi text) hok]
    simp [xrtpPublished]
  | JIr =>
    obtain rfl : "heplify_xrtp_jir" = g := Option.some.inj hg
    obtain ⟨v, b, hv, hs⟩ := xrtpText_JIr _ _ htext
    left; right
    rw [(xrtpJI_at tn _ v _ b hv hs).2.2, setIfParsed_ok _ _ _ hok]
    simp [xrtpPublished]
  | JIs =>
    obtain rfl : "heplify_xrtp_jis" = g := Option.some.inj hg
    obtain ⟨v, a, hv, hs⟩ := xrtpText_JIs _ _ htext
    left; right
    rw [(xrtpJI_at tn _ v a _ hv hs).2.2, setIfParsed_ok _ _ (Atoi text) hok]
    simp [xrtpPublished]
  | DLe =>
    obtain rfl : "heplify_xrtp_dle" = g := Option.some.inj hg
    obtain ⟨v, b, c, hv, hs⟩ := xrtpText_DLe _ _ htext
    right
    rw [(xrtpDL_at tn _ v _ b c hv hs).2, setIfParsed_ok _ _ _ hok]
    simp [xrtpPublished]

theorem xrtpText_not_published (tn stats : GoString) (f : XRTPField) (text : GoString)
    (g : String) (htext : xrtpText (statsMap stats) f = some text) (hg : xrtpGauge f = some g)
    (herr : (Atoi text).2 ≠ none) :
    ∀ o ∈ (xrtpParse tn stats).ops, o.name ≠ g := by
  obtain ⟨-, -, -, -, -, -, -, -, hops⟩ := xrtpParse_fields tn stats
  rw [hops]
  intro o ho
  simp only [List.mem_append] at ho
  have hcs := xrtpCS_init_names tn (statsMap stats) o
  have hpl := xrtpPL_init_names tn (statsMap stats) o
  have hji := xrtpJI_init_names tn (statsMap stats) o
  have hdl := xrtpDL_init_names tn (statsMap stats) o
  cases f with
  | CS =>
    obtain rfl : "heplify_xrtp_cs" = g := Option.some.inj hg
    rcases ho with ((ho | ho) | ho) | ho
    · rw [(xrtpCS_at tn _ _ htext).2, if_neg herr] at ho
      simp at ho
    · rcases hpl ho with h | h <;> rw [h] <;> decide
    · rcases hji ho with h | h <;> rw [h] <;> decide
    · rw [hdl ho]; decide
  | PR => simp [xrtpGauge] at hg
  | PS => simp [xrtpGauge] at hg
  | PLr =>
    obtain rfl : "heplify_xrtp_plr" = g := Option.some.inj hg
    obtain ⟨v, b, hv, hs⟩ := xrtpText_PLr _ _ htext
    rcases ho with ((ho | ho) | ho) | ho
    · rw [hcs ho]; decide
    · rw [(xrtpPL_at tn _ v _ b hv hs).2.2, setIfParsed_err _ _ _ herr, List.nil_append] at ho
      rw [setIfParsed_names _ _ _ o ho]; decide
    · rcases hji ho with h | h <;> rw [h] <;> decide
    · rw [hdl ho]; decide
  | PLs =>
    obtain rfl : "heplify_xrtp_pls" = g := Option.some.inj hg
    obtain ⟨v, a, hv, hs⟩ := xrtpText_PLs _ _ htext
    rcases ho with ((ho | ho) | ho) | ho
    · rw [hcs ho]; decide
    · rw [(xrtpPL_at tn _ v a _ hv hs).2.2, setIfParsed_err _ _ (Atoi text) herr,
        List.append_nil] at ho
      rw [setIfParsed_names _ _ _ o ho]; decide
    · rcases hji ho with h | h <;> rw [h] <;> decide
    · rw [hdl ho]; decide
  | JIr =>
    obtain rfl : "heplify_xrtp_jir" = g := Option.some.inj hg
    obtain ⟨v, b, hv, hs⟩ := xrtpText_JIr _ _ htext
    rcases ho with ((ho | ho) | ho) | ho
    · rw [hcs ho]; decide
    · rcases hpl ho with h | h <;> rw [h] <;> decide
    · rw [(xrtpJI_at tn _ v _ b hv hs).2.2, setIfParsed_err _ _ _ herr, List.nil_append] at ho
      rw [setIfParsed_names _ _ _ o ho]; decide
    · rw [hdl ho]; decide
  | JIs =>
    obtain rfl : "heplify_xrtp_jis" = g := Option.some.inj hg
    obtain ⟨v, a, hv, hs⟩ := xrtpText_JIs _ _ htext
    rcases ho with ((ho | ho) | ho) | ho
    · rw [hcs ho]; decide
    · rcases hpl ho with h | h <;> rw [h] <;> decide
    · rw [(xrtpJI_at tn _ v a _ hv hs).2.2, setIfParsed_err _ _ (Atoi text) herr,
        List.append_nil] at ho
      rw [setIfParsed_names _ _ _ o ho]; decide
    · rw [hdl ho]; decide
  | DLe =>
    obtain rfl : "heplify_xrtp_dle" = g := Option.some.inj hg
    obtain ⟨v, b, c, hv, hs⟩ := xrtpText_DLe _ _ htext
    rcases ho with ((ho | ho) | ho) | ho
    · rw [hcs ho]; decide
    · rcases hpl ho with h | h <;> rw [h] <;> decide
    · rcases hji ho with h | h <;> rw [h] <;> decide
    · rw [(xrtpDL_at tn _ v _ b c hv hs).2, setIfParsed_err _ _ _ herr] at ho
      simp at ho

/-- C9 (code at the failing input): in `PL=99999999999999999999,0` the
received-side half is a decimal number outside the `int` range; `strconv.Atoi`
returns a range error together with the largest `int`, which is what `plr` then
holds, not 0, and the loss computed from it is `-50` instead of 0. -/
theorem xrtp_range_error_leaves_bound :
    xrtpText (statsMap "PL=99999999999999999999,0".toList) XRTPField.PLr =
      some "99999999999999999999".toList ∧
    (Atoi "99999999999999999999".toList).2 = some NumError.ErrRange ∧
    xrtpVar (xrtpParse [] "PL=99999999999999999999,0".toList) XRTPField.PLr = 2 ^ 63 - 1 ∧
    xrtpVar (xrtpParse [] "PL=99999999999999999999,0".toList) XRTPField.PLr ≠ 0 ∧
    lossOf (xrtpParse [] "PL=99999999999999999999,0".toList) = some (-50) := by
  decide

/-- What `dissectXRTPStats` does with each value that it passes to
`strconv.Atoi`, whatever the other keys hold: its variable receives the integer
that `Atoi` returns; when `Atoi` returns no error its gauge (if it has one) is
set; when `Atoi` returns an error its gauge is not set by this call, and the
variable is 0 if the text is not a decimal integer (syntax error) and the
largest or smallest `int` if it is a decimal number out of range (range error);
decoding goes on, and a call that completes has made exactly the writes of the
parsed fields followed by the write of `heplify_xrtp_mos`. -/
theorem xrtp_parse_failure (tn stats : GoString) (f : XRTPField) (text : GoString)
    (htext : xrtpText (statsMap stats) f = some text) :
    xrtpVar (xrtpParse tn stats) f = (Atoi text).1 ∧
    ((Atoi text).2 = none → ∀ g, xrtpGauge f = some g →
      MetricOp.gaugeSet g [tn] (xrtpPublished f (Atoi text).1) ∈ (xrtpParse tn stats).ops) ∧
    ((Atoi text).2 ≠ none → ∀ g, xrtpGauge f = some g →
      ∀ o ∈ (xrtpParse tn stats).ops, o.name ≠ g) ∧
    ((Atoi text).2 = some NumError.ErrSyntax → xrtpVar (xrtpParse tn stats) f = 0) ∧
    ((Atoi text).2 = some NumError.ErrRange →
      xrtpVar (xrtpParse tn stats) f = maxInt64 ∨ xrtpVar (xrtpParse tn stats) f = minInt64) ∧
    (∀ ops, dissectXRTPStats tn stats = some ops →
      ∃ mos, ops = (xrtpParse tn stats).ops ++
        [MetricOp.gaugeSet "heplify_xrtp_mos" [tn] mos]) := by
  have hvar := xrtpText_var tn stats f text htext
  refine ⟨hvar, ?_, ?_, ?_, ?_, ?_⟩
  · intro hok g hg
    exact xrtpText_published tn stats f text g htext hg hok
  · intro herr g hg
    exact xrtpText_not_published tn stats f text g htext hg herr
  · intro h
    rw [hvar]
    exact Atoi_syntax text h
  · intro h
    rw [hvar]
    exact Atoi_range text h
  · intro ops h
    cases hl : lossOf (xrtpParse tn stats) with
    | none => simp [dissectXRTPStats, hl] at h
    | some loss =>
      simp only [dissectXRTPStats, hl, Option.some.injEq] at h
      exact ⟨_, h.symm⟩

/-- The previous theorem at a concrete input: in `PR=100;PS=100;PL=x,3` the
received-side half of `PL` is not a number: `plr` is 0 and `heplify_xrtp_plr` is
not set, while the sent-side half is still parsed and published as 3 and the
call completes. -/
theorem xrtp_parse_failure_witness :
    xrtpVar (xrtpParse "A".toList "PR=100;PS=100;PL=x,3".toList) XRTPField.PLr = 0 ∧
    (∀ o ∈ (xrtpParse "A".toList "PR=100;PS=100;PL=x,3".toList).ops,
      o.name ≠ "heplify_xrtp_plr") ∧
    MetricOp.gaugeSet "heplify_xrtp_pls" ["A".toList] 3 ∈
      (xrtpParse "A".toList "PR=100;PS=100;PL=x,3".toList).ops ∧
    (dissectXRTPStats "A".toList "PR=100;PS=100;PL=x,3".toList).isSome = true :=
  ⟨(xrtp_parse_failure "A".toList "PR=100;PS=100;PL=x,3".toList XRTPField.PLr "x".toList
      (by decide)).2.2.2.1 (by decide),
   (xrtp_parse_failure "A".toList "PR=100;PS=100;PL=x,3".toList XRTPField.PLr "x".toList
      (by decide)).2.2.1 (by decide) "heplify_xrtp_plr" rfl,
   by
    have h := (xrtp_parse_failure "A".toList "PR=100;PS=100;PL=x,3".toList XRTPField.PLs
      "3".toList (by decide)).2.1 (by decide) "heplify_xrtp_pls" rfl
    have hv : xrtpPublished XRTPField.PLs (Atoi "3".toList).1 = 3 := by
      have h3 : (Atoi "3".toList).1 = 3 := by decide
      rw [h3]
      simp [xrtpPublished]
    rw [hv] at h
    exact h,
   by rfl⟩

/-! ## `dissectHoraclifixStats`: the identity fields -/

theorem horaclifixCallback_length (env : Env) (st : SbcVars) (idx : Nat) (value : GoString) :
    (horaclifixCallback env st idx value).2.length =
      if 3 ≤ idx ∧ idx ≤ 26 ∧ (env.ParseFloat value).isSome = true then 1 else 0 := by
  by_cases hle : idx ≤ 26
  · interval_cases idx <;> simp only [horaclifixCallback, setFloat] <;>
      cases env.ParseFloat value <;> simp
  · obtain ⟨k, rfl⟩ : ∃ k, idx = k + 27 := ⟨idx - 27, by omega⟩
    rw [if_neg (by omega)]
    rfl

theorem horaclifixLoop_length (env : Env) (calls : List (Nat × GoString)) :
    ∀ st : SbcVars, (horaclifixLoop env st calls).length =
      (calls.filter
        (fun c => decide (3 ≤ c.1 ∧ c.1 ≤ 26) && (env.ParseFloat c.2).isSome)).length := by
  induction calls with
  | nil => intro st; rfl
  | cons c rest ih =>
    intro st
    simp only [horaclifixLoop, List.length_append, ih, horaclifixCallback_length,
      List.filter_cons]
    by_cases h1 : 3 ≤ c.1 ∧ c.1 ≤ 26
    · cases h2 : (env.ParseFloat c.2).isSome
      · simp [h1, h2]
      · simp [h1, h2]; omega
    · have h3 : ¬ (3 ≤ c.1 ∧ c.1 ≤ 26 ∧ (env.ParseFloat c.2).isSome = true) :=
        fun h => h1 ⟨h.1, h.2.1⟩
      simp [h1, h3]

/-- C10 (code at the failing input, and in general): for the report
`{"NAME":"\x","INC_REALM":"core","OUT_REALM":"access","INC_MOS":420}` the name
fails to decode as a string, the callback invocation for index 0 returns, and
the invocation for index 3 still sets `horaclifix_inc_rtp_mos`, under an empty
`sbc_name`. In general the number of gauges set by a report is the number of
delivered fields of index 3 to 26 whose value parses as a float, whatever
happens to the identity fields and in whatever order the fields are delivered. -/
theorem horaclifix_publishes_after_identity_failure :
    sampleEnv.ParseString [Char.ofNat 92, 'x'] = none ∧
    horaclifixLoop sampleEnv (SbcVars.mk [] [] []) sampleSbcCalls =
      [MetricOp.gaugeSet "horaclifix_inc_rtp_mos" [[], "core".toList, "access".toList]
        (420 / 100)] ∧
    (∀ (env : Env) (p : Prometheus) (data : GoString),
      env.EachKey data p.horaclifixPaths = sampleSbcCalls →
      env.ParseString [Char.ofNat 92, 'x'] = none →
      env.ParseString "core".toList = some "core".toList →
      env.ParseString "access".toList = some "access".toList →
      env.ParseFloat "420".toList = some 420 →
      dissectHoraclifixStats env p data =
        [MetricOp.gaugeSet "horaclifix_inc_rtp_mos" [[], "core".toList, "access".toList]
          (env.normMax (420 / 100))]) ∧
    (∀ (env : Env) (st : SbcVars) (calls : List (Nat × GoString)),
      (horaclifixLoop env st calls).length =
        (calls.filter
          (fun c => decide (3 ≤ c.1 ∧ c.1 ≤ 26) && (env.ParseFloat c.2).isSome)).length) := by
  refine ⟨by decide, ?_, ?_, fun env st calls => horaclifixLoop_length env calls st⟩
  · simp [horaclifixLoop, sampleSbcCalls, horaclifixCallback, setFloat, parsedString,
      sampleEnv, parseUintLoop, sbcLabelValues]
    norm_num
  · intro env p data h0 h1 h2 h3 h4
    unfold dissectHoraclifixStats
    rw [h0]
    simp only [horaclifixLoop, sampleSbcCalls, horaclifixCallback, setFloat, parsedString,
      sbcLabelValues, h1, h2, h3, h4, List.nil_append, List.append_nil]

/-- C10, at a concrete environment: when the extractor delivers the four fields
of the sample report, `dissectHoraclifixStats` sets `horaclifix_inc_rtp_mos`
although `NAME` did not decode. -/
theorem horaclifix_publishes_after_identity_failure_witness :
    dissectHoraclifixStats
      (Env.mk sampleEnv.cutSpace sampleEnv.normMax (fun _ _ => sampleSbcCalls)
        sampleEnv.ParseFloat sampleEnv.ParseString sampleEnv.cacheSetErr)
      sampleAnonymous [] =
      [MetricOp.gaugeSet "horaclifix_inc_rtp_mos" [[], "core".toList, "access".toList]
        (sampleEnv.normMax (420 / 100))] :=
  horaclifix_publishes_after_identity_failure.2.2.1
    (Env.mk sampleEnv.cutSpace sampleEnv.normMax (fun _ _ => sampleSbcCalls)
      sampleEnv.ParseFloat sampleEnv.ParseString sampleEnv.cacheSetErr)
    sampleAnonymous [] rfl (by decide) (by decide) (by decide)
    (by simp [sampleEnv, parseUintLoop])

/-! ## `dissectRTCPStats` and `dissectRTPStats`: every field on its own -/

theorem foldl_append_mem {α β : Type} (f : α → List β) (l : List α) :
    ∀ (init : List β) (o : β),
      o ∈ l.foldl (fun ops c => ops ++ f c) init ↔ o ∈ init ∨ ∃ c ∈ l, o ∈ f c := by
  induction l with
  | nil => intro init o; simp
  | cons c rest ih =>
    intro init o
    simp only [List.foldl_cons, ih, List.mem_append, List.mem_cons, exists_eq_or_imp]
    tauto

theorem rtcpCallback_mem (env : Env) (idx : Nat) (value : GoString) (o : MetricOp) :
    o ∈ rtcpCallback env idx value ↔
      ∃ name f, baseGauges[idx]? = some name ∧ env.ParseFloat value = some f ∧
        o = MetricOp.gaugeSet name [] (rtcpConv env idx f) := by
  by_cases hle : idx ≤ 11
  · interval_cases idx <;> simp only [rtcpCallback, setFloat, baseGauges, rtcpConv] <;>
      cases env.ParseFloat value <;> simp
  · obtain ⟨k, rfl⟩ : ∃ k, idx = k + 12 := ⟨idx - 12, by omega⟩
    have h1 : rtcpCallback env (k + 12) value = [] := rfl
    have h2 : baseGauges[k + 12]? = none := by simp [baseGauges]
    simp [h1, h2]

theorem rtpCallback_mem (env : Env) (idx : Nat) (value : GoString) (o : MetricOp) :
    o ∈ rtpCallback env idx value ↔
      ∃ name f, rtpAgentGauges[idx]? = some name ∧ env.ParseFloat value = some f ∧
        o = MetricOp.gaugeSet name [] f := by
  by_cases hle : idx ≤ 5
  · interval_cases idx <;> simp only [rtpCallback, setFloat, rtpAgentGauges] <;>
      cases env.ParseFloat value <;> simp
  · obtain ⟨k, rfl⟩ : ∃ k, idx = k + 6 := ⟨idx - 6, by omega⟩
    have h1 : rtpCallback env (k + 6) value = [] := rfl
    have h2 : rtpAgentGauges[k + 6]? = none := by simp [rtpAgentGauges]
    simp [h1, h2]

theorem getElem?_nodup_inj (l : List String) (hl : l.Nodup) (i j : Nat) (a : String)
    (hi : l[i]? = some a) (hj : l[j]? = some a) : i = j := by
  obtain ⟨hi1, -⟩ := List.getElem?_eq_some.mp hi
  exact List.getElem?_inj hi1 hl (hi.trans hj.symm)

theorem dissectRTCPStats_mem (env : Env) (p : Prometheus) (data : GoString) (o : MetricOp) :
    o ∈ dissectRTCPStats env p data ↔
      ∃ idx value name f, (idx, value) ∈ env.EachKey data p.rtcpPaths ∧
        baseGauges[idx]? = some name ∧ env.ParseFloat value = some f ∧
        o = MetricOp.gaugeSet name [] (rtcpConv env idx f) := by
  unfold dissectRTCPStats
  rw [foldl_append_mem (fun c : Nat × GoString => rtcpCallback env c.1 c.2)]
  simp only [List.not_mem_nil, false_or, rtcpCallback_mem]
  constructor
  · rintro ⟨c, hc, name, f, h1, h2, h3⟩
    exact ⟨c.1, c.2, name, f, hc, h1, h2, h3⟩
  · rintro ⟨idx, value, name, f, hc, h1, h2, h3⟩
    exact ⟨(idx, value), hc, name, f, h1, h2, h3⟩

theorem dissectRTPStats_mem (env : Env) (p : Prometheus) (data : GoString) (o : MetricOp) :
    o ∈ dissectRTPStats env p data ↔
      ∃ idx value name f, (idx, value) ∈ env.EachKey data p.rtpPaths ∧
        rtpAgentGauges[idx]? = some name ∧ env.ParseFloat value = some f ∧
        o = MetricOp.gaugeSet name [] f := by
  unfold dissectRTPStats
  rw [foldl_append_mem (fun c : Nat × GoString => rtpCallback env c.1 c.2)]
  simp only [List.not_mem_nil, false_or, rtpCallback_mem]
  constructor
  · rintro ⟨c, hc, name, f, h1, h2, h3⟩
    exact ⟨c.1, c.2, name, f, hc, h1, h2, h3⟩
  · rintro ⟨idx, value, name, f, hc, h1, h2, h3⟩
    exact ⟨(idx, value), hc, name, f, h1, h2, h3⟩

/-- C11: with the extractor given as the list of `(path index, raw value)` pairs
it delivers, `dissectRTCPStats` and `dissectRTPStats` make exactly these writes:
one `Set` of the gauge of index `idx`, to the (converted) float, for every
delivered pair `(idx, value)` whose value parses as a float. So a gauge whose
index is not delivered, or is delivered only with values that do not parse, is
not written, and whether a field is written depends on that field alone. -/
theorem structured_fields_independent (env : Env) (p : Prometheus) (data : GoString) :
    (∀ o, o ∈ dissectRTCPStats env p data ↔
      ∃ idx value name f, (idx, value) ∈ env.EachKey data p.rtcpPaths ∧
        baseGauges[idx]? = some name ∧ env.ParseFloat value = some f ∧
        o = MetricOp.gaugeSet name [] (rtcpConv env idx f)) ∧
    (∀ idx name, baseGauges[idx]? = some name →
      (∀ value, (idx, value) ∈ env.EachKey data p.rtcpPaths → env.ParseFloat value = none) →
      ∀ o ∈ dissectRTCPStats env p data, o.name ≠ name) ∧
    (∀ o, o ∈ dissectRTPStats env p data ↔
      ∃ idx value name f, (idx, value) ∈ env.EachKey data p.rtpPaths ∧
        rtpAgentGauges[idx]? = some name ∧ env.ParseFloat value = some f ∧
        o = MetricOp.gaugeSet name [] f) ∧
    (∀ idx name, rtpAgentGauges[idx]? = some name →
      (∀ value, (idx, value) ∈ env.EachKey data p.rtpPaths → env.ParseFloat value = none) →
      ∀ o ∈ dissectRTPStats env p data, o.name ≠ name) := by
  refine ⟨dissectRTCPStats_mem env p data, ?_, dissectRTPStats_mem env p data, ?_⟩
  · intro idx name hname hnone o ho hn
    obtain ⟨idx', value, name', f, hc, h1, h2, rfl⟩ := (dissectRTCPStats_mem env p data o).mp ho
    have hname' : name' = name := hn
    subst hname'
    have hidx : idx' = idx := getElem?_nodup_inj baseGauges (by decide) idx' idx name' h1 hname
    subst hidx
    rw [hnone value hc] at h2
    exact absurd h2 (by simp)
  · intro idx name hname hnone o ho hn
    obtain ⟨idx', value, name', f, hc, h1, h2, rfl⟩ := (dissectRTPStats_mem env p data o).mp ho
    have hname' : name' = name := hn
    subst hname'
    have hidx : idx' = idx :=
      getElem?_nodup_inj rtpAgentGauges (by decide) idx' idx name' h1 hname
    subst hidx
    rw [hnone value hc] at h2
    exact absurd h2 (by simp)

/-- C11, at a concrete input: when the extractor delivers the jitter (index 2)
as `7` and the packets lost (index 1) as the text `n/a`, `dissectRTCPStats` sets
`heplify_rtcp_jitter` and leaves `heplify_rtcp_packets_lost` and the gauge of the
absent index 0 unwritten. -/
theorem structured_fields_independent_witness :
    MetricOp.gaugeSet "heplify_rtcp_jitter" [] (sampleEnv.normMax 7) ∈
      dissectRTCPStats
        (Env.mk sampleEnv.cutSpace sampleEnv.normMax
          (fun _ _ => [(1, "n/a".toList), (2, "7".toList)])
          sampleEnv.ParseFloat sampleEnv.ParseString sampleEnv.cacheSetErr)
        sampleTargets [] ∧
    (∀ o ∈ dissectRTCPStats
        (Env.mk sampleEnv.cutSpace sampleEnv.normMax
          (fun _ _ => [(1, "n/a".toList), (2, "7".toList)])
          sampleEnv.ParseFloat sampleEnv.ParseString sampleEnv.cacheSetErr)
        sampleTargets [], o.name ≠ "heplify_rtcp_packets_lost") ∧
    (∀ o ∈ dissectRTCPStats
        (Env.mk sampleEnv.cutSpace sampleEnv.normMax
          (fun _ _ => [(1, "n/a".toList), (2, "7".toList)])
          sampleEnv.ParseFloat sampleEnv.ParseString sampleEnv.cacheSetErr)
        sampleTargets [], o.name ≠ "heplify_rtcp_fraction_lost") :=
  ⟨((structured_fields_independent _ sampleTargets []).1 _).mpr
      ⟨2, "7".toList, "heplify_rtcp_jitter", 7, by simp, by decide,
        by simp [sampleEnv, parseUintLoop], by simp [rtcpConv]⟩,
   (structured_fields_independent _ sampleTargets []).2.1 1 "heplify_rtcp_packets_lost"
      (by decide) (fun value hv => by
        have hv' : value = "n/a".toList := by simpa using hv
        subst hv'
        simp [sampleEnv, parseUintLoop]),
   (structured_fields_independent _ sampleTargets []).2.1 0 "heplify_rtcp_fraction_lost"
      (by decide) (fun value hv => by simp at hv)⟩

/-! ## `dissectXRTPStats`: call setup time -/

theorem Atoi_inRange (s : GoString) : minInt64 ≤ (Atoi s).1 ∧ (Atoi s).1 ≤ maxInt64 := by
  unfold Atoi ParseInt
  simp only
  generalize (if s.head? = some '+' ∨ s.head? = some '-' then s.tail else s) = rest
  generalize decide (s.head? = some '-') = neg
  by_cases hr : rest = []
  · rw [if_pos hr]; simp [minInt64, maxInt64]
  · rw [if_neg hr]
    rcases hp : parseUintLoop rest 0 with ⟨un, e⟩
    have key : minInt64 ≤ (if neg = false ∧ (un : Int) ≥ 2 ^ 63 then
          (maxInt64, some NumError.ErrRange)
        else if neg = true ∧ (un : Int) > 2 ^ 63 then (minInt64, some NumError.ErrRange)
        else (if neg = true then -(un : Int) else (un : Int), none)).1 ∧
        (if neg = false ∧ (un : Int) ≥ 2 ^ 63 then (maxInt64, some NumError.ErrRange)
        else if neg = true ∧ (un : Int) > 2 ^ 63 then (minInt64, some NumError.ErrRange)
        else (if neg = true then -(un : Int) else (un : Int), none)).1 ≤ maxInt64 := by
      unfold minInt64 maxInt64
      cases neg <;> simp <;> split_ifs <;> simp <;> omega
    cases e with
    | none => exact key
    | some e =>
      cases e with
      | ErrSyntax => simp [minInt64, maxInt64]
      | ErrRange => exact key

theorem goQuoNZ_1000 (n : Int) (h1 : minInt64 ≤ n) (h2 : n ≤ maxInt64) :
    goQuoNZ n 1000 = Int.tdiv n 1000 := by
  unfold goQuoNZ
  have h : (Int.tdiv n 1000).natAbs = n.natAbs / 1000 := Int.natAbs_tdiv n 1000
  apply wrap64_of_inRange
  · unfold minInt64 at *; unfold maxInt64 at *; omega
  · unfold minInt64 at *; unfold maxInt64 at *; omega

theorem xrtpParse_cs_ops (tn stats : GoString) (o : MetricOp)
    (ho : o ∈ (xrtpParse tn stats).ops) (hn : o.name = "heplify_xrtp_cs") :
    o ∈ (xrtpCS tn (statsMap stats) XRTPState.init).ops := by
  obtain ⟨-, -, -, -, -, -, -, -, hops⟩ := xrtpParse_fields tn stats
  rw [hops] at ho
  simp only [List.mem_append] at ho
  rcases ho with ((ho | ho) | ho) | ho
  · exact ho
  · rcases xrtpPL_init_names tn _ o ho with h | h <;>
      exact absurd (h.symm.trans hn) (by decide)
  · rcases xrtpJI_init_names tn _ o ho with h | h <;>
      exact absurd (h.symm.trans hn) (by decide)
  · exact absurd ((xrtpDL_init_names tn _ o ho).symm.trans hn) (by decide)

/-- C12 (as stated, refuted): for `CS=1500` the value set on `heplify_xrtp_cs`
is 1, not 1.5: the division by 1000 is an integer division made before the
conversion to a float. -/
theorem xrtp_cs_1500_gives_1 :
    ∃ ops, dissectXRTPStats [] "CS=1500".toList = some ops ∧
      MetricOp.gaugeSet "heplify_xrtp_cs" [[]] 1 ∈ ops ∧
      MetricOp.gaugeSet "heplify_xrtp_cs" [[]] (1500 / 1000) ∉ ops := by
  refine ⟨_, rfl, ?_, ?_⟩
  · have h : ((goQuoNZ (Atoi "1500".toList).1 1000 : Int) : ℚ) = 1 := by
      have h1 : goQuoNZ (Atoi "1500".toList).1 1000 = 1 := by decide
      rw [h1]; norm_num
    rw [← h]
    exact List.mem_append_left _ (List.mem_singleton.mpr rfl)
  · intro hmem
    have hmem' : MetricOp.gaugeSet "heplify_xrtp_cs" [[]] (1500 / 1000) ∈
        (xrtpParse [] "CS=1500".toList).ops ++
          [MetricOp.gaugeSet "heplify_xrtp_mos" [[]]
            (mosOf (rFactor (effectiveLatency (xrtpParse [] "CS=1500".toList)) 0))] := hmem
    rcases List.mem_append.mp hmem' with h | h
    · have h2 := xrtpParse_cs_ops [] "CS=1500".toList _ h rfl
      have h3 : (xrtpCS [] (statsMap "CS=1500".toList) XRTPState.init).ops =
          [MetricOp.gaugeSet "heplify_xrtp_cs" [[]]
            ((goQuoNZ (Atoi "1500".toList).1 1000 : Int) : ℚ)] := rfl
      rw [h3] at h2
      have h1 : goQuoNZ (Atoi "1500".toList).1 1000 = 1 := by decide
      rw [h1] at h2
      simp at h2
      norm_num at h2
    · simp at h

/-- C12 (amended): for every `CS` value that parses as an integer `n`, the value
set on `heplify_xrtp_cs` is the truncated integer quotient of `n` by 1000, the
call setup time in whole seconds, and no other value is set on that gauge. -/
theorem xrtp_cs_whole_seconds (tn stats v : GoString)
    (hv : presentValue (statsMap stats) "CS" = some v) (hok : (Atoi v).2 = none) :
    MetricOp.gaugeSet "heplify_xrtp_cs" [tn] ((Int.tdiv (Atoi v).1 1000 : Int) : ℚ) ∈
      (xrtpParse tn stats).ops ∧
    (∀ o ∈ (xrtpParse tn stats).ops, o.name = "heplify_xrtp_cs" →
      o = MetricOp.gaugeSet "heplify_xrtp_cs" [tn] ((Int.tdiv (Atoi v).1 1000 : Int) : ℚ)) ∧
    (∀ ops, dissectXRTPStats tn stats = some ops →
      MetricOp.gaugeSet "heplify_xrtp_cs" [tn] ((Int.tdiv (Atoi v).1 1000 : Int) : ℚ) ∈ ops ∧
      ∀ o ∈ ops, o.name = "heplify_xrtp_cs" →
        o = MetricOp.gaugeSet "heplify_xrtp_cs" [tn] ((Int.tdiv (Atoi v).1 1000 : Int) : ℚ)) := by
  have hq := goQuoNZ_1000 (Atoi v).1 (Atoi_inRange v).1 (Atoi_inRange v).2
  have hcs : (xrtpCS tn (statsMap stats) XRTPState.init).ops =
      [MetricOp.gaugeSet "heplify_xrtp_cs" [tn] ((Int.tdiv (Atoi v).1 1000 : Int) : ℚ)] := by
    rw [(xrtpCS_at tn _ _ hv).2, if_pos hok, hq]
  have hmem : MetricOp.gaugeSet "heplify_xrtp_cs" [tn] ((Int.tdiv (Atoi v).1 1000 : Int) : ℚ) ∈
      (xrtpParse tn stats).ops := by
    obtain ⟨-, -, -, -, -, -, -, -, hops⟩ := xrtpParse_fields tn stats
    rw [hops, hcs]
    simp
  have honly : ∀ o ∈ (xrtpParse tn stats).ops, o.name = "heplify_xrtp_cs" →
      o = MetricOp.gaugeSet "heplify_xrtp_cs" [tn] ((Int.tdiv (Atoi v).1 1000 : Int) : ℚ) := by
    intro o ho hn
    have h := xrtpParse_cs_ops tn stats o ho hn
    rw [hcs] at h
    exact List.mem_singleton.mp h
  refine ⟨hmem, honly, ?_⟩
  intro ops hops
  cases hl : lossOf (xrtpParse tn stats) with
  | none => simp [dissectXRTPStats, hl] at hops
  | some loss =>
    simp only [dissectXRTPStats, hl, Option.some.injEq] at hops
    subst hops
    refine ⟨List.mem_append_left _ hmem, ?_⟩
    intro o ho hn
    rcases List.mem_append.mp ho with h | h
    · exact honly o h hn
    · rw [List.mem_singleton.mp h] at hn
      have hn' : "heplify_xrtp_mos" = "heplify_xrtp_cs" := hn
      exact absurd hn' (by decide)

/-- C12 (amended), at the inputs of the claim: `CS=5000` gives 5 and `CS=1500`
gives 1. -/
theorem xrtp_cs_whole_seconds_witness :
    MetricOp.gaugeSet "heplify_xrtp_cs" ["A".toList] 5 ∈
      (xrtpParse "A".toList "CS=5000".toList).ops ∧
    MetricOp.gaugeSet "heplify_xrtp_cs" ["A".toList] 1 ∈
      (xrtpParse "A".toList "CS=1500".toList).ops := by
  have h5 := (xrtp_cs_whole_seconds "A".toList "CS=5000".toList "5000".toList
    (by decide) (by decide)).1
  have h1 := (xrtp_cs_whole_seconds "A".toList "CS=1500".toList "1500".toList
    (by decide) (by decide)).1
  have e5 : Int.tdiv (Atoi "5000".toList).1 1000 = 5 := by decide
  have e1 : Int.tdiv (Atoi "1500".toList).1 1000 = 1 := by decide
  rw [e5] at h5
  rw [e1] at h1
  norm_num at h5 h1
  exact ⟨h5, h1⟩

/-! ## `dissectXRTPStats`: the key-value map -/

theorem splitAux_no_sep (sep : Char) (s : List Char) (hs : sep ∉ s) :
    ∀ cur, splitAux sep s cur = [cur.reverse ++ s] := by
  induction s with
  | nil => intro cur; simp [splitAux]
  | cons c cs ih =>
    intro cur
    have hc : c ≠ sep := fun h => hs (h ▸ List.mem_cons_self _ _)
    have hcs : sep ∉ cs := fun h => hs (List.mem_cons_of_mem _ h)
    unfold splitAux
    rw [if_neg hc, ih hcs]
    simp

theorem splitAux_at_sep (sep : Char) (a rest : List Char) (ha : sep ∉ a) :
    ∀ cur, splitAux sep (a ++ sep :: rest) cur = (cur.reverse ++ a) :: splitAux sep rest [] := by
  induction a with
  | nil => intro cur; simp [splitAux]
  | cons c cs ih =>
    intro cur
    have hc : c ≠ sep := fun h => ha (h ▸ List.mem_cons_self _ _)
    have hcs : sep ∉ cs := fun h => ha (List.mem_cons_of_mem _ h)
    have hstep : splitAux sep (c :: cs ++ sep :: rest) cur =
        splitAux sep (cs ++ sep :: rest) (c :: cur) := by
      simp [splitAux, hc]
    rw [hstep, ih hcs]
    simp

theorem first_sep (sep : Char) (s : List Char) :
    sep ∉ s ∨ ∃ a rest, s = a ++ sep :: rest ∧ sep ∉ a := by
  induction s with
  | nil => left; simp
  | cons c cs ih =>
    by_cases hc : c = sep
    · right; exact ⟨[], cs, by simp [hc], by simp⟩
    · rcases ih with h | ⟨a, rest, h1, h2⟩
      · left
        simp only [List.mem_cons, not_or]
        exact ⟨fun h' => hc h'.symm, h⟩
      · right
        refine ⟨c :: a, rest, by simp [h1], ?_⟩
        simp only [List.mem_cons, not_or]
        exact ⟨fun h' => hc h'.symm, h2⟩

theorem first_sep_unique (sep : Char) (a : List Char) :
    ∀ (k rest v : List Char), sep ∉ a → sep ∉ k → a ++ sep :: rest = k ++ sep :: v →
      a = k ∧ rest = v := by
  induction a with
  | nil =>
    intro k rest v _ hk h
    cases k with
    | nil => simpa using h
    | cons d k =>
      simp only [List.nil_append, List.cons_append, List.cons.injEq] at h
      exact absurd (h.1 ▸ List.mem_cons_self _ _) hk
  | cons c cs ih =>
    intro k rest v ha hk h
    cases k with
    | nil =>
      simp only [List.nil_append, List.cons_append, List.cons.injEq] at h
      exact absurd (h.1 ▸ List.mem_cons_self _ _) ha
    | cons d k =>
      simp only [List.cons_append, List.cons.injEq] at h
      obtain ⟨h1, h2⟩ := ih k rest v (fun h' => ha (List.mem_cons_of_mem _ h'))
        (fun h' => hk (List.mem_cons_of_mem _ h')) h.2
      exact ⟨by rw [h.1, h1], h2⟩

theorem Split_no_sep (sep : Char) (s : List Char) (hs : sep ∉ s) : Split s sep = [s] := by
  unfold Split
  rw [splitAux_no_sep sep s hs]
  simp

theorem Split_at_sep (sep : Char) (a rest : List Char) (ha : sep ∉ a) :
    Split (a ++ sep :: rest) sep = a :: Split rest sep := by
  unfold Split
  rw [splitAux_at_sep sep a rest ha]
  simp

theorem Split_eq_singleton_iff (sep : Char) (s x : List Char) :
    Split s sep = [x] ↔ sep ∉ s ∧ x = s := by
  rcases first_sep sep s with h | ⟨a, rest, h1, h2⟩
  · rw [Split_no_sep sep s h]
    simp [h, eq_comm]
  · subst h1
    rw [Split_at_sep sep a rest h2]
    have hne := Split_ne_nil rest sep
    constructor
    · intro h
      simp only [List.cons.injEq] at h
      exact absurd h.2 hne
    · rintro ⟨h, -⟩
      exact absurd (List.mem_append_right _ (List.mem_cons_self _ _)) h

theorem Split_eq_pair_iff (sep : Char) (s k v : List Char) :
    Split s sep = [k, v] ↔ s = k ++ sep :: v ∧ sep ∉ k ∧ sep ∉ v := by
  rcases first_sep sep s with h | ⟨a, rest, h1, h2⟩
  · rw [Split_no_sep sep s h]
    constructor
    · intro h'; simp at h'
    · rintro ⟨h', -, -⟩
      subst h'
      exact absurd (List.mem_append_right _ (List.mem_cons_self _ _)) h
  · subst h1
    rw [Split_at_sep sep a rest h2]
    simp only [List.cons.injEq, Split_eq_singleton_iff]
    constructor
    · rintro ⟨rfl, h3, rfl⟩
      exact ⟨rfl, h2, h3⟩
    · rintro ⟨h3, h4, h5⟩
      obtain ⟨hk1, hk2⟩ := first_sep_unique sep a k rest v h2 h4 h3
      exact ⟨hk1, hk2 ▸ h5, hk2.symm⟩

theorem lookup_cons_pair (key k0 v0 : GoString) (m : List (GoString × GoString)) :
    List.lookup key ((k0, v0) :: m) = if key = k0 then some v0 else List.lookup key m := by
  rw [List.lookup_cons]
  by_cases h : key = k0
  · simp [h]
  · have hb : (key == k0) = false := by simpa using h
    simp [hb, h]

theorem statsFold_lookup (key v : GoString) (segs : List GoString) :
    ∀ m0 : List (GoString × GoString),
      List.lookup key
        (segs.foldl
          (fun m pair =>
            match Split pair '=' with
            | [k, v] => (k, v) :: m
            | _ => m)
          m0) = some v ↔
      (∃ pre seg post, segs = pre ++ seg :: post ∧ Split seg '=' = [key, v] ∧
        ∀ s ∈ post, ∀ v', Split s '=' ≠ [key, v']) ∨
      ((∀ s ∈ segs, ∀ v', Split s '=' ≠ [key, v']) ∧ List.lookup key m0 = some v) := by
  induction segs with
  | nil =>
    intro m0
    simp
  | cons seg rest ih =>
    intro m0
    rw [List.foldl_cons, ih]
    constructor
    · rintro (⟨pre, seg', post, h1, h2, h3⟩ | ⟨h1, h2⟩)
      · left
        exact ⟨seg :: pre, seg', post, by rw [h1]; rfl, h2, h3⟩
      · split at h2
        · rename_i k0 v0 hsplit
          rw [lookup_cons_pair] at h2
          by_cases hk : key = k0
          · rw [if_pos hk] at h2
            left
            refine ⟨[], seg, rest, rfl, ?_, h1⟩
            rw [hsplit, hk, Option.some.inj h2]
          · rw [if_neg hk] at h2
            right
            refine ⟨?_, h2⟩
            intro s hs v' hsv
            rcases List.mem_cons.mp hs with rfl | hs'
            · rw [hsplit] at hsv
              simp only [List.cons.injEq, and_true] at hsv
              exact hk hsv.1.symm
            · exact h1 s hs' v' hsv
        · rename_i hnot
          right
          refine ⟨?_, h2⟩
          intro s hs v' hsv
          rcases List.mem_cons.mp hs with rfl | hs'
          · exact hnot key v' hsv
          · exact h1 s hs' v' hsv
    · rintro (⟨pre, seg', post, h1, h2, h3⟩ | ⟨h1, h2⟩)
      · cases pre with
        | nil =>
          simp only [List.nil_append, List.cons.injEq] at h1
          obtain ⟨rfl, rfl⟩ := h1
          right
          refine ⟨h3, ?_⟩
          rw [h2]
          simp [lookup_cons_pair]
        | cons x pre =>
          simp only [List.cons_append, List.cons.injEq] at h1
          obtain ⟨rfl, rfl⟩ := h1
          left
          exact ⟨pre, seg', post, rfl, h2, h3⟩
      · right
        refine ⟨fun s hs => h1 s (List.mem_cons_of_mem _ hs), ?_⟩
        split
        · rename_i k0 v0 hsplit
          rw [lookup_cons_pair]
          have hk : key ≠ k0 := by
            intro hk
            exact h1 seg (List.mem_cons_self _ _) v0 (by rw [hsplit, hk])
          rw [if_neg hk]
          exact h2
        · exact h2

theorem statsMap_lookup (stats key v : GoString) :
    List.lookup key (statsMap stats) = some v ↔
      ∃ pre seg post, Split stats ';' = pre ++ seg :: post ∧ Split seg '=' = [key, v] ∧
        ∀ s ∈ post, ∀ v', Split s '=' ≠ [key, v'] := by
  have h := statsFold_lookup key v (Split stats ';') []
  have h0 : ¬ ((∀ s ∈ Split stats ';', ∀ v', Split s '=' ≠ [key, v']) ∧
      List.lookup key ([] : List (GoString × GoString)) = some v) := by
    simp
  exact h.trans (or_iff_left h0)

theorem Split_pieces (sep : Char) (n : Nat) :
    ∀ s : List Char, s.length ≤ n →
      List.intercalate [sep] (Split s sep) = s ∧ ∀ x ∈ Split s sep, sep ∉ x := by
  induction n with
  | zero =>
    intro s hs
    have hnil : s = [] := List.length_eq_zero.mp (Nat.le_zero.mp hs)
    subst hnil
    simp [Split, splitAux, List.intercalate]
  | succ n ih =>
    intro s hs
    rcases first_sep sep s with h | ⟨a, rest, h1, h2⟩
    · rw [Split_no_sep sep s h]
      simp [List.intercalate, h]
    · subst h1
      rw [Split_at_sep sep a rest h2]
      have hlen : rest.length ≤ n := by
        simp only [List.length_append, List.length_cons] at hs
        omega
      obtain ⟨ih1, ih2⟩ := ih rest hlen
      constructor
      · rcases hsp : Split rest sep with _ | ⟨y, ys⟩
        · exact absurd hsp (Split_ne_nil rest sep)
        · rw [hsp] at ih1
          simp only [List.intercalate, List.intersperse, List.flatten_cons] at ih1 ⊢
          rw [ih1]
          simp
      · intro x hx
        rcases List.mem_cons.mp hx with rfl | hx'
        · exact h2
        · exact ih2 x hx'

/-- C13 (as stated, refuted): the segment `K=a=b` splits on `=` into three
pieces, so nothing is entered in the map for it; in particular `K` is not mapped
to `a=b`. -/
theorem statsMap_drops_value_with_equals :
    Split "K=a=b".toList '=' = ["K".toList, "a".toList, "b".toList] ∧
    statsMap "K=a=b".toList = [] ∧
    mapGet (statsMap "K=a=b".toList) "K" = none ∧
    mapGet (statsMap "K=a=b".toList) "K" ≠ some "a=b".toList := by
  decide

/-- C13 (amended): the segments are the pieces of the stats string between
`;`s, and the map built by `dissectXRTPStats` sends `key` to `v` exactly when
some segment is `key=v` with a single `=` (none in `key`, none in `v`) and no
later segment is of that form for the same key. So a segment without `=` and a
segment with two or more `=` (such as `K=a=b`) enter nothing, and of several
segments for one key the last counts. -/
theorem statsMap_single_equals (stats key v : GoString) :
    (List.intercalate [';'] (Split stats ';') = stats ∧
      ∀ seg ∈ Split stats ';', ';' ∉ seg) ∧
    (List.lookup key (statsMap stats) = some v ↔
      ∃ pre seg post, Split stats ';' = pre ++ seg :: post ∧
        seg = key ++ '=' :: v ∧ '=' ∉ key ∧ '=' ∉ v ∧
        ∀ s ∈ post, ∀ v', ¬ (s = key ++ '=' :: v' ∧ '=' ∉ v')) := by
  refine ⟨Split_pieces ';' stats.length stats (Nat.le_refl _), ?_⟩
  rw [statsMap_lookup]
  constructor
  · rintro ⟨pre, seg, post, h1, h2, h3⟩
    obtain ⟨h4, h5, h6⟩ := (Split_eq_pair_iff '=' seg key v).mp h2
    refine ⟨pre, seg, post, h1, h4, h5, h6, ?_⟩
    rintro s hs v' ⟨h7, h8⟩
    exact h3 s hs v' ((Split_eq_pair_iff '=' s key v').mpr ⟨h7, h5, h8⟩)
  · rintro ⟨pre, seg, post, h1, h4, h5, h6, h3⟩
    refine ⟨pre, seg, post, h1, (Split_eq_pair_iff '=' seg key v).mpr ⟨h4, h5, h6⟩, ?_⟩
    intro s hs v' h7
    obtain ⟨h8, -, h9⟩ := (Split_eq_pair_iff '=' s key v').mp h7
    exact h3 s hs v' ⟨h8, h9⟩

/-- C13 (amended), at a concrete input: in `CS=5000;K=a=b;PR=1;PR=2;junk` the
key `PR` is mapped to `2`, its last segment. -/
theorem statsMap_single_equals_witness :
    mapGet (statsMap "CS=5000;K=a=b;PR=1;PR=2;junk".toList) "PR" = some "2".toList :=
  (statsMap_single_equals "CS=5000;K=a=b;PR=1;PR=2;junk".toList "PR".toList "2".toList).2.mpr
    ⟨["CS=5000".toList, "K=a=b".toList, "PR=1".toList], "PR=2".toList, ["junk".toList],
      by decide, by decide, by decide, by decide, by
        intro s hs v' h
        have hs' : s = "junk".toList := by simpa using hs
        subst hs'
        have hmem : '=' ∈ "junk".toList := by
          rw [h.1]
          exact List.mem_append_right _ (List.mem_cons_self _ _)
        revert hmem
        decide⟩

/-! ## Anonymous mode of `collect`: a failing `Cache.Set` -/

/-- C14: in anonymous mode, for a SIP packet whose key has no live cache entry
and for which `Cache.Set` returns an error, the loop body of `collect` leaves
the receiver (and its cache) as it was and goes on as if the key had been
recorded: after the packet count and size it increments
`heplify_method_response` once under the empty target name and, when the RTP
statistics string is not empty, runs `dissectXRTPStats` on it under the empty
target name (it completes exactly when that call does). -/
theorem anonymous_publishes_when_cache_set_fails (env : Env) (cfg : Setting) (p : Prometheus)
    (c : Cache) (now : Nat) (pkt : HEP) (sip : SIPMsg)
    (hmode : p.TargetEmpty = true) (hc : p.Cache = some c)
    (hsip : pkt.SIP = some sip) (hproto : pkt.ProtoType = 1)
    (hfresh : c.Get now (dedupKey sip) = false)
    (hset : env.cacheSetErr (dedupKey sip) = true) :
    (c.Set env now (dedupKey sip) 600 = (c, true)) ∧
    (sip.RTPStatVal = [] →
      collectPacket env cfg p now pkt =
        some (p, countPacket pkt ++
          [MetricOp.counterInc "heplify_method_response" [[], sip.Method, sip.CseqMethod]])) ∧
    (sip.RTPStatVal ≠ [] →
      collectPacket env cfg p now pkt =
        (dissectXRTPStats [] sip.RTPStatVal).map (fun xs =>
          (p, countPacket pkt ++
            MetricOp.counterInc "heplify_method_response" [[], sip.Method, sip.CseqMethod]
              :: xs))) := by
  have hS : c.Set env now (dedupKey sip) 600 = (c, true) := by simp [Cache.Set, hset]
  have hp : ({ p with Cache := some (c.Set env now (dedupKey sip) 600).1 } : Prometheus) = p := by
    rw [hS]
    cases p
    simp only [Prometheus.mk.injEq, true_and, and_true] at hc ⊢
    exact hc.symm
  have hgen : ∀ xs, xrtpIfPresent [] sip = some xs →
      collectPacket env cfg p now pkt =
        some (p, countPacket pkt ++
          MetricOp.counterInc "heplify_method_response" [[], sip.Method, sip.CseqMethod]
            :: xs) := by
    intro xs hx
    rw [collectPacket_anonymous env cfg p now pkt sip hmode hsip hproto,
      anonymousBranch_fresh env p c now sip xs hc hfresh hx, hp]
    rfl
  refine ⟨hS, ?_, ?_⟩
  · intro he
    exact hgen [] (by simp [xrtpIfPresent, he])
  · intro hne
    cases hd : dissectXRTPStats [] sip.RTPStatVal with
    | none =>
      rw [collectPacket_anonymous env cfg p now pkt sip hmode hsip hproto]
      simp [anonymousBranch, hc, hfresh, xrtpIfPresent, hne, hd]
    | some xs =>
      rw [hgen xs (by simp [xrtpIfPresent, hne, hd])]
      rfl

/-- C14, at a concrete input: with a cache that refuses every key, a BYE with
the statistics of the worked example is counted under the empty target name and
its statistics are decoded, twice in a row since nothing is recorded. -/
theorem anonymous_publishes_when_cache_set_fails_witness :
    (collectPacket sampleEnvCacheFull (Setting.mk [] [] false false) sampleAnonymous 0
      (HEP.mk 1 [] [] [] (some sampleByeStats))).map (fun r => methodResponseIncs r.2) =
      some [[[], "BYE".toList, "BYE".toList]] ∧
    collectPacket sampleEnvCacheFull (Setting.mk [] [] false false) sampleAnonymous 0
      (HEP.mk 1 [] [] [] (some sampleByeStats)) =
      (dissectXRTPStats [] sampleStats).map (fun xs =>
        (sampleAnonymous, countPacket (HEP.mk 1 [] [] [] (some sampleByeStats)) ++
          MetricOp.counterInc "heplify_method_response" [[], "BYE".toList, "BYE".toList]
            :: xs)) ∧
    (dissectXRTPStats [] sampleStats).isSome = true := by
  have h := (anonymous_publishes_when_cache_set_fails sampleEnvCacheFull
    (Setting.mk [] [] false false) sampleAnonymous (Cache.mk []) 0
    (HEP.mk 1 [] [] [] (some sampleByeStats)) sampleByeStats rfl rfl rfl rfl rfl rfl).2.2
    (by decide)
  refine ⟨?_, h, rfl⟩
  rw [h]
  rfl

/-! ## `collect`: the series each branch writes -/

theorem horaclifixCallback_names (env : Env) (st : SbcVars) (idx : Nat) (value : GoString) :
    ∀ o ∈ (horaclifixCallback env st idx value).2,
      o.name ∈ horaclifixGaugeVecs.map Prod.fst := by
  by_cases hle : idx ≤ 26
  · interval_cases idx <;> simp only [horaclifixCallback, setFloat] <;>
      cases env.ParseFloat value <;> simp [MetricOp.name, horaclifixGaugeVecs]
  · obtain ⟨k, rfl⟩ : ∃ k, idx = k + 27 := ⟨idx - 27, by omega⟩
    have h1 : (horaclifixCallback env st (k + 27) value).2 = [] := rfl
    rw [h1]
    simp

theorem horaclifixLoop_names (env : Env) (calls : List (Nat × GoString)) :
    ∀ st : SbcVars, ∀ o ∈ horaclifixLoop env st calls,
      o.name ∈ horaclifixGaugeVecs.map Prod.fst := by
  induction calls with
  | nil => intro st o ho; simp [horaclifixLoop] at ho
  | cons c rest ih =>
    intro st o ho
    simp only [horaclifixLoop, List.mem_append] at ho
    rcases ho with ho | ho
    · exact horaclifixCallback_names env st c.1 c.2 o ho
    · exact ih _ o ho

theorem dissectRTCPStats_names (env : Env) (p : Prometheus) (data : GoString) :
    ∀ o ∈ dissectRTCPStats env p data, o.name ∈ baseGauges := by
  intro o ho
  obtain ⟨idx, value, name, f, -, h1, -, rfl⟩ := (dissectRTCPStats_mem env p data o).mp ho
  exact List.mem_iff_getElem?.mpr ⟨idx, h1⟩

theorem dissectRTPStats_names (env : Env) (p : Prometheus) (data : GoString) :
    ∀ o ∈ dissectRTPStats env p data, o.name ∈ rtpAgentGauges := by
  intro o ho
  obtain ⟨idx, value, name, f, -, h1, -, rfl⟩ := (dissectRTPStats_mem env p data o).mp ho
  exact List.mem_iff_getElem?.mpr ⟨idx, h1⟩

theorem targetLoop_names (p : Prometheus) (pkt : HEP) (sip : SIPMsg) (names : List GoString) :
    ∀ (k : Nat) (ops : List MetricOp), targetLoop p pkt sip k names = some ops →
      ∀ o ∈ ops, o.name = "heplify_method_response" ∨ o.name ∈ xrtpNames := by
  induction names with
  | nil =>
    intro k ops h o ho
    simp only [targetLoop, Option.some.injEq] at h
    subst h
    simp at ho
  | cons tn tns ih =>
    intro k ops h o ho
    unfold targetLoop at h
    split at h
    · simp at h
    · split at h
      · split at h
        · simp at h
        · rename_i xs hxs
          split at h
          · simp at h
          · rename_i rest hrest
            simp only [Option.some.injEq] at h
            subst h
            simp only [List.mem_cons, List.mem_append] at ho
            rcases ho with (rfl | ho) | ho
            · left; rfl
            · right; exact xrtpIfPresent_names _ _ _ hxs o ho
            · exact ih (k + 1) rest hrest o ho
      · exact ih (k + 1) ops h o ho

theorem anonymousBranch_names (env : Env) (p p' : Prometheus) (now : Nat) (sip : SIPMsg)
    (ops : List MetricOp) (h : anonymousBranch env p now sip = some (p', ops)) :
    ∀ o ∈ ops, o.name = "heplify_method_response" ∨ o.name ∈ xrtpNames := by
  unfold anonymousBranch at h
  split at h
  · simp at h
  · split at h
    · simp only [Option.some.injEq, Prod.mk.injEq] at h
      obtain ⟨-, rfl⟩ := h
      simp
    · split at h
      · simp at h
      · rename_i xs hxs
        simp only [Option.some.injEq, Prod.mk.injEq] at h
        obtain ⟨-, rfl⟩ := h
        intro o ho
        rcases List.mem_cons.mp ho with rfl | ho
        · left; rfl
        · right; exact xrtpIfPresent_names _ _ _ hxs o ho

theorem dispatchPacket_names (env : Env) (cfg : Setting) (p p' : Prometheus) (now : Nat)
    (pkt : HEP) (ops : List MetricOp) (h : dispatchPacket env cfg p now pkt = some (p', ops)) :
    ∀ o ∈ ops, o.name ∈ decoderNames := by
  have hsub1 : ∀ n, n = "heplify_method_response" ∨ n ∈ xrtpNames → n ∈ decoderNames := by
    intro n hn
    unfold decoderNames
    simp only [List.cons_append, List.mem_cons, List.mem_append]
    tauto
  have hsub2 : ∀ n, n ∈ baseGauges → n ∈ decoderNames := by
    intro n hn
    unfold decoderNames
    simp only [List.cons_append, List.mem_cons, List.mem_append]
    tauto
  have hsub3 : ∀ n, n ∈ rtpAgentGauges → n ∈ decoderNames := by
    intro n hn
    unfold decoderNames
    simp only [List.cons_append, List.mem_cons, List.mem_append]
    tauto
  have hsub4 : ∀ n, n ∈ horaclifixGaugeVecs.map Prod.fst → n ∈ decoderNames := by
    intro n hn
    unfold decoderNames
    simp only [List.cons_append, List.mem_cons, List.mem_append]
    tauto
  unfold dispatchPacket at h
  split at h
  · rename_i sip _ _
    split at h
    · cases hl : targetLoop p pkt sip 0 p.TargetName with
      | none => simp [hl] at h
      | some tops =>
        simp only [hl, Option.some.injEq, Prod.mk.injEq] at h
        obtain ⟨-, rfl⟩ := h
        intro o ho
        exact hsub1 _ (targetLoop_names p pkt sip _ 0 tops hl o ho)
    · intro o ho
      exact hsub1 _ (anonymousBranch_names env p p' now sip ops h o ho)
  · split at h
    · simp only [Option.some.injEq, Prod.mk.injEq] at h
      obtain ⟨-, rfl⟩ := h
      intro o ho
      exact hsub2 _ (dissectRTCPStats_names env p _ o ho)
    · split at h
      · simp only [Option.some.injEq, Prod.mk.injEq] at h
        obtain ⟨-, rfl⟩ := h
        intro o ho
        exact hsub3 _ (dissectRTPStats_names env p _ o ho)
      · split at h
        · simp only [Option.some.injEq, Prod.mk.injEq] at h
          obtain ⟨-, rfl⟩ := h
          intro o ho
          exact hsub4 _ (horaclifixLoop_names env _ _ o ho)
        · simp only [Option.some.injEq, Prod.mk.injEq] at h
          obtain ⟨-, rfl⟩ := h
          simp

/-! ## `collect`: packet count and size -/

theorem collectPacket_eq_map (env : Env) (cfg : Setting) (p : Prometheus) (now : Nat)
    (pkt : HEP) :
    collectPacket env cfg p now pkt =
      (dispatchPacket env cfg p now pkt).map (fun r => (r.1, countPacket pkt ++ r.2)) := by
  unfold collectPacket
  cases dispatchPacket env cfg p now pkt <;> rfl

theorem countPacket_of_label (pkt : HEP) (l : String)
    (hl : (pkt.ProtoType = 1 ∧ l = "sip") ∨ (pkt.ProtoType = 5 ∧ l = "rtcp") ∨
      (pkt.ProtoType = 38 ∧ l = "horaclifix") ∨ (pkt.ProtoType = 100 ∧ l = "log")) :
    countPacket pkt =
      [MetricOp.counterInc "heplify_packets_total" [l.toList],
       MetricOp.gaugeSet "heplify_packets_size" [l.toList] (pkt.Payload.length : ℚ)] := by
  rcases hl with ⟨h, rfl⟩ | ⟨h, rfl⟩ | ⟨h, rfl⟩ | ⟨h, rfl⟩ <;>
    simp [countPacket, packetTypeLabel, h]

/-- C15: for a packet of protocol type 1, 5, 38 or 100, with `l` the label
`sip`, `rtcp`, `horaclifix` or `log` of its type: the first chain of the loop
body writes one increment of `heplify_packets_total` and one `Set` of
`heplify_packets_size` to the payload length, both under `l`; and whenever the
iteration completes, whatever the configuration and the state of the receiver
(so also when the packet is a duplicate), these are its first two writes and
no later write of the iteration goes to either series. -/
theorem collect_counts_typed_packet (env : Env) (cfg : Setting) (p p' : Prometheus) (now : Nat)
    (pkt : HEP) (ops : List MetricOp) (l : String)
    (hl : (pkt.ProtoType = 1 ∧ l = "sip") ∨ (pkt.ProtoType = 5 ∧ l = "rtcp") ∨
      (pkt.ProtoType = 38 ∧ l = "horaclifix") ∨ (pkt.ProtoType = 100 ∧ l = "log"))
    (hrun : collectPacket env cfg p now pkt = some (p', ops)) :
    countPacket pkt =
      [MetricOp.counterInc "heplify_packets_total" [l.toList],
       MetricOp.gaugeSet "heplify_packets_size" [l.toList] (pkt.Payload.length : ℚ)] ∧
    ∃ rest, dispatchPacket env cfg p now pkt = some (p', rest) ∧
      ops = MetricOp.counterInc "heplify_packets_total" [l.toList] ::
        MetricOp.gaugeSet "heplify_packets_size" [l.toList] (pkt.Payload.length : ℚ) :: rest ∧
      ∀ o ∈ rest, o.name ≠ "heplify_packets_total" ∧ o.name ≠ "heplify_packets_size" := by
  have hc := countPacket_of_label pkt l hl
  refine ⟨hc, ?_⟩
  rw [collectPacket_eq_map] at hrun
  cases hd : dispatchPacket env cfg p now pkt with
  | none => simp [hd] at hrun
  | some r =>
    obtain ⟨r1, r2⟩ := r
    simp only [hd, Option.map_some', Option.some.injEq, Prod.mk.injEq] at hrun
    obtain ⟨rfl, rfl⟩ := hrun
    refine ⟨r2, rfl, by rw [hc]; rfl, ?_⟩
    intro o ho
    have hn := dispatchPacket_names env cfg p r1 now pkt r2 hd o ho
    constructor
    · intro he
      rw [he] at hn
      revert hn
      decide
    · intro he
      rw [he] at hn
      revert hn
      decide

/-- C15, at a concrete input: an INVITE whose key is live in the cache (a
duplicate) completes with exactly the packet count and the packet size, 12
bytes, under `sip`. -/
theorem collect_counts_typed_packet_witness :
    collectPacket sampleEnv (Setting.mk [] [] false false) sampleAnonymousSeen 10
        (HEP.mk 1 [] [] "INVITE sip:a".toList (some sampleInvite)) =
      some (sampleAnonymousSeen,
        countPacket (HEP.mk 1 [] [] "INVITE sip:a".toList (some sampleInvite))) ∧
    countPacket (HEP.mk 1 [] [] "INVITE sip:a".toList (some sampleInvite)) =
      [MetricOp.counterInc "heplify_packets_total" ["sip".toList],
       MetricOp.gaugeSet "heplify_packets_size" ["sip".toList] 12] := by
  have h := (collect_counts_typed_packet sampleEnv (Setting.mk [] [] false false)
    sampleAnonymousSeen sampleAnonymousSeen 10
    (HEP.mk 1 [] [] "INVITE sip:a".toList (some sampleInvite)) _ "sip"
    (Or.inl ⟨rfl, rfl⟩) rfl).1
  refine ⟨rfl, ?_⟩
  rw [h]
  norm_num

/-! ## `collect`: packets that are not decoded -/

theorem dispatchPacket_not_sip (env : Env) (cfg : Setting) (p : Prometheus) (now : Nat)
    (pkt : HEP) (h1 : pkt.ProtoType ≠ 1) :
    dispatchPacket env cfg p now pkt =
      if pkt.ProtoType = 5 then some (p, dissectRTCPStats env p pkt.Payload)
      else if pkt.ProtoType = 34 ∧ cfg.RTPAgentStats = true then
        some (p, dissectRTPStats env p pkt.Payload)
      else if pkt.ProtoType = 38 ∧ cfg.HoraclifixStats = true then
        some (p, dissectHoraclifixStats env p pkt.Payload)
      else some (p, []) := by
  unfold dispatchPacket
  have hd : decide (pkt.ProtoType = 1) = false := by simpa using h1
  rw [hd]
  cases pkt.SIP <;> rfl

/-- C16: the loop body of `collect` writes nothing and leaves the receiver as
it was for a packet whose protocol type is none of 1, 5, 34, 38, 100, and for a
packet of type 34 when `RTPAgentStats` is off; for a packet of type 38 when
`HoraclifixStats` is off it writes only the packet count and size (under the
label `horaclifix`), so no series named `horaclifix_...` is written. -/
theorem collect_ignores_other_packets (env : Env) (cfg : Setting) (p : Prometheus) (now : Nat)
    (pkt : HEP) :
    (pkt.ProtoType ≠ 1 → pkt.ProtoType ≠ 5 → pkt.ProtoType ≠ 34 → pkt.ProtoType ≠ 38 →
      pkt.ProtoType ≠ 100 → collectPacket env cfg p now pkt = some (p, [])) ∧
    (pkt.ProtoType = 34 → cfg.RTPAgentStats = false →
      collectPacket env cfg p now pkt = some (p, [])) ∧
    (pkt.ProtoType = 38 → cfg.HoraclifixStats = false →
      collectPacket env cfg p now pkt =
        some (p, [MetricOp.counterInc "heplify_packets_total" ["horaclifix".toList],
          MetricOp.gaugeSet "heplify_packets_size" ["horaclifix".toList]
            (pkt.Payload.length : ℚ)]) ∧
      ∀ ops, collectPacket env cfg p now pkt = some (p, ops) →
        ∀ o ∈ ops, o.name ∉ horaclifixGaugeVecs.map Prod.fst ∧
          ¬ ("horaclifix_".toList <+: o.name.toList)) := by
  refine ⟨?_, ?_, ?_⟩
  · intro h1 h5 h34 h38 h100
    rw [collectPacket_eq_map, dispatchPacket_not_sip env cfg p now pkt h1]
    simp [h5, h34, h38, countPacket, packetTypeLabel, h1, h100]
  · intro h34 hoff
    rw [collectPacket_eq_map, dispatchPacket_not_sip env cfg p now pkt (by omega)]
    simp [h34, hoff, countPacket, packetTypeLabel]
  · intro h38 hoff
    have hrun : collectPacket env cfg p now pkt =
        some (p, [MetricOp.counterInc "heplify_packets_total" ["horaclifix".toList],
          MetricOp.gaugeSet "heplify_packets_size" ["horaclifix".toList]
            (pkt.Payload.length : ℚ)]) := by
      rw [collectPacket_eq_map, dispatchPacket_not_sip env cfg p now pkt (by omega)]
      simp [h38, hoff, countPacket, packetTypeLabel]
    refine ⟨hrun, ?_⟩
    intro ops hops
    rw [hrun] at hops
    simp only [Option.some.injEq, Prod.mk.injEq, true_and] at hops
    subst hops
    intro o ho
    simp only [List.mem_cons, List.mem_singleton, List.not_mem_nil, or_false] at ho
    rcases ho with rfl | rfl
    · exact ⟨by decide, by decide⟩
    · constructor
      · show "heplify_packets_size" ∉ horaclifixGaugeVecs.map Prod.fst
        decide
      · show ¬ ("horaclifix_".toList <+: "heplify_packets_size".toList)
        decide

/-- C16, at concrete inputs: a packet of type 7, and an agent report (type 34)
with `RTPAgentStats` off, write nothing; an SBC report (type 38) with
`HoraclifixStats` off writes the packet count and its size, 2 bytes. -/
theorem collect_ignores_other_packets_witness :
    collectPacket sampleEnv (Setting.mk [] [] false false) sampleTargets 0
      (HEP.mk 7 [] [] "{}".toList none) = some (sampleTargets, []) ∧
    collectPacket sampleEnv (Setting.mk [] [] false true) sampleTargets 0
      (HEP.mk 34 [] [] "{}".toList none) = some (sampleTargets, []) ∧
    collectPacket sampleEnv (Setting.mk [] [] true false) sampleTargets 0
      (HEP.mk 38 [] [] "{}".toList none) =
      some (sampleTargets,
        [MetricOp.counterInc "heplify_packets_total" ["horaclifix".toList],
         MetricOp.gaugeSet "heplify_packets_size" ["horaclifix".toList]
           (("{}".toList.length : Nat) : ℚ)]) :=
  ⟨(collect_ignores_other_packets sampleEnv (Setting.mk [] [] false false) sampleTargets 0
      (HEP.mk 7 [] [] "{}".toList none)).1 (by decide) (by decide) (by decide) (by decide)
      (by decide),
   (collect_ignores_other_packets sampleEnv (Setting.mk [] [] false true) sampleTargets 0
      (HEP.mk 34 [] [] "{}".toList none)).2.1 rfl rfl,
   ((collect_ignores_other_packets sampleEnv (Setting.mk [] [] true false) sampleTargets 0
      (HEP.mk 38 [] [] "{}".toList none)).2.2 rfl rfl).1⟩

/-! ## `collect`: SIP packets without RTP statistics -/

theorem xrtpIfPresent_empty (tn : GoString) (sip : SIPMsg) (h : sip.RTPStatVal = []) :
    xrtpIfPresent tn sip = some [] := by
  simp [xrtpIfPresent, h]

theorem targetLoop_no_stats (p : Prometheus) (pkt : HEP) (sip : SIPMsg)
    (hempty : sip.RTPStatVal = []) (names : List GoString) :
    ∀ (k : Nat) (ops : List MetricOp), targetLoop p pkt sip k names = some ops →
      ∀ o ∈ ops, o.name = "heplify_method_response" := by
  induction names with
  | nil =>
    intro k ops h o ho
    simp only [targetLoop, Option.some.injEq] at h
    subst h
    simp at ho
  | cons tn tns ih =>
    intro k ops h o ho
    unfold targetLoop at h
    rw [xrtpIfPresent_empty tn sip hempty] at h
    split at h
    · simp at h
    · split at h
      · simp only at h
        split at h
        · simp at h
        · rename_i rest hrest
          simp only [Option.some.injEq] at h
          subst h
          simp only [List.append_nil, List.singleton_append, List.mem_cons] at ho
          rcases ho with rfl | ho
          · rfl
          · exact ih (k + 1) rest hrest o ho
      · exact ih (k + 1) ops h o ho

theorem anonymousBranch_no_stats (env : Env) (p p' : Prometheus) (now : Nat) (sip : SIPMsg)
    (hempty : sip.RTPStatVal = []) (ops : List MetricOp)
    (h : anonymousBranch env p now sip = some (p', ops)) :
    ∀ o ∈ ops, o.name = "heplify_method_response" := by
  unfold anonymousBranch at h
  rw [xrtpIfPresent_empty [] sip hempty] at h
  split at h
  · simp at h
  · split at h
    · simp only [Option.some.injEq, Prod.mk.injEq] at h
      obtain ⟨-, rfl⟩ := h
      simp
    · simp only [Option.some.injEq, Prod.mk.injEq] at h
      obtain ⟨-, rfl⟩ := h
      intro o ho
      rw [List.mem_singleton.mp ho]
      rfl

theorem countPacket_names (pkt : HEP) :
    ∀ o ∈ countPacket pkt,
      o.name = "heplify_packets_total" ∨ o.name = "heplify_packets_size" := by
  intro o ho
  unfold countPacket at ho
  split at ho
  · simp only [List.mem_cons, List.mem_singleton, List.not_mem_nil, or_false] at ho
    rcases ho with rfl | rfl
    · left; rfl
    · right; rfl
  · simp at ho

/-- C17: for a packet of protocol type 1 carrying a SIP message whose RTP
statistics string is empty, the XRTP decoder is not called (the guarded call
writes nothing, for every target name), and whenever the iteration completes,
in target mode or in anonymous mode, every write goes to
`heplify_packets_total`, `heplify_packets_size` or `heplify_method_response`,
none to a `heplify_xrtp_...` series. It completes in target mode when the
address list is as long as the name list, and in anonymous mode when the cache
is allocated. -/
theorem sip_without_stats_writes_no_xrtp (env : Env) (cfg : Setting) (p : Prometheus)
    (now : Nat) (pkt : HEP) (sip : SIPMsg)
    (hproto : pkt.ProtoType = 1) (hsip : pkt.SIP = some sip) (hempty : sip.RTPStatVal = []) :
    (∀ tn, xrtpIfPresent tn sip = some []) ∧
    (∀ p' ops, collectPacket env cfg p now pkt = some (p', ops) →
      ∀ o ∈ ops,
        (o.name = "heplify_packets_total" ∨ o.name = "heplify_packets_size" ∨
          o.name = "heplify_method_response") ∧ o.name ∉ xrtpNames) ∧
    (p.TargetEmpty = false → p.TargetName.length ≤ p.TargetIP.length →
      ∃ ops, collectPacket env cfg p now pkt = some (p, ops)) ∧
    (p.TargetEmpty = true → p.Cache ≠ none →
      ∃ p' ops, collectPacket env cfg p now pkt = some (p', ops)) := by
  have hx : ∀ tn, xrtpIfPresent tn sip = some [] := fun tn => xrtpIfPresent_empty tn sip hempty
  refine ⟨hx, ?_, ?_, ?_⟩
  · intro p' ops hrun o ho
    have key : o.name = "heplify_packets_total" ∨ o.name = "heplify_packets_size" ∨
        o.name = "heplify_method_response" := by
      cases hmode : p.TargetEmpty with
      | false =>
        rw [collectPacket_target_mode env cfg p now pkt sip hmode hsip hproto] at hrun
        cases hl : targetLoop p pkt sip 0 p.TargetName with
        | none => simp [hl] at hrun
        | some tops =>
          simp only [hl, Option.map_some', Option.some.injEq, Prod.mk.injEq] at hrun
          obtain ⟨-, rfl⟩ := hrun
          rcases List.mem_append.mp ho with h | h
          · rcases countPacket_names pkt o h with h' | h'
            · exact Or.inl h'
            · exact Or.inr (Or.inl h')
          · exact Or.inr (Or.inr (targetLoop_no_stats p pkt sip hempty _ 0 tops hl o h))
      | true =>
        rw [collectPacket_anonymous env cfg p now pkt sip hmode hsip hproto] at hrun
        cases hl : anonymousBranch env p now sip with
        | none => simp [hl] at hrun
        | some r =>
          obtain ⟨r1, r2⟩ := r
          simp only [hl, Option.map_some', Option.some.injEq, Prod.mk.injEq] at hrun
          obtain ⟨-, rfl⟩ := hrun
          rcases List.mem_append.mp ho with h | h
          · rcases countPacket_names pkt o h with h' | h'
            · exact Or.inl h'
            · exact Or.inr (Or.inl h')
          · exact Or.inr (Or.inr (anonymousBranch_no_stats env p r1 now sip hempty r2 hl o h))
    refine ⟨key, ?_⟩
    rcases key with h | h | h <;> rw [h] <;> decide
  · intro hmode hlen
    rw [collectPacket_target_mode env cfg p now pkt sip hmode hsip hproto]
    obtain ⟨ops, hops⟩ := targetLoop_isSome p pkt sip (fun tn => by rw [hx tn]; simp)
      p.TargetName 0 (by omega)
    exact ⟨_, by rw [hops]; rfl⟩
  · intro hmode hcache
    rw [collectPacket_anonymous env cfg p now pkt sip hmode hsip hproto]
    obtain ⟨c, hc⟩ := Option.ne_none_iff_exists'.mp hcache
    unfold anonymousBranch
    rw [hc, hx []]
    simp only
    split
    · exact ⟨_, _, rfl⟩
    · exact ⟨_, _, rfl⟩

/-- C17, at concrete inputs: an INVITE without RTP statistics from `10.0.0.1` to
`10.0.0.2` is processed in target mode and in anonymous mode, and in neither
does a write go to a `heplify_xrtp_...` series. -/
theorem sip_without_stats_writes_no_xrtp_witness :
    (∃ ops, collectPacket sampleEnv (Setting.mk [] [] false false) sampleTargets 0
        (HEP.mk 1 "10.0.0.1".toList "10.0.0.2".toList [] (some sampleInvite)) =
        some (sampleTargets, ops) ∧ ∀ o ∈ ops, o.name ∉ xrtpNames) ∧
    (∃ p' ops, collectPacket sampleEnv (Setting.mk [] [] false false) sampleAnonymous 0
        (HEP.mk 1 "10.0.0.1".toList "10.0.0.2".toList [] (some sampleInvite)) =
        some (p', ops) ∧ ∀ o ∈ ops, o.name ∉ xrtpNames) :=
  ⟨⟨_, rfl, fun o ho =>
      ((sip_without_stats_writes_no_xrtp sampleEnv (Setting.mk [] [] false false)
        sampleTargets 0 (HEP.mk 1 "10.0.0.1".toList "10.0.0.2".toList [] (some sampleInvite))
        sampleInvite rfl rfl rfl).2.1 _ _ rfl o ho).2⟩,
   ⟨_, _, rfl, fun o ho =>
      ((sip_without_stats_writes_no_xrtp sampleEnv (Setting.mk [] [] false false)
        sampleAnonymous 0 (HEP.mk 1 "10.0.0.1".toList "10.0.0.2".toList [] (some sampleInvite))
        sampleInvite rfl rfl rfl).2.1 _ _ rfl o ho).2⟩⟩

/-! ## `dissectXRTPStats`: the MOS write -/

theorem xrtpCS_absent (tn : GoString) (m : List (GoString × GoString)) (st : XRTPState)
    (h : mapGet m "CS" = none) : xrtpCS tn m st = st := by
  simp [xrtpCS, h]

theorem xrtpPL_absent (tn : GoString) (m : List (GoString × GoString)) (st : XRTPState)
    (h : mapGet m "PL" = none) : xrtpPL tn m st = st := by
  simp [xrtpPL, h]

theorem xrtpJI_absent (tn : GoString) (m : List (GoString × GoString)) (st : XRTPState)
    (h : mapGet m "JI" = none) : xrtpJI tn m st = st := by
  simp [xrtpJI, h]

theorem xrtpDL_absent (tn : GoString) (m : List (GoString × GoString)) (st : XRTPState)
    (h : mapGet m "DL" = none) : xrtpDL tn m st = st := by
  simp [xrtpDL, h]

theorem filter_mos_parse (tn stats : GoString) :
    (xrtpParse tn stats).ops.filter (fun o => decide (o.name = "heplify_xrtp_mos")) = [] := by
  rw [List.filter_eq_nil_iff]
  intro o ho
  obtain ⟨-, -, -, -, -, -, -, -, hops⟩ := xrtpParse_fields tn stats
  rw [hops] at ho
  simp only [List.mem_append] at ho
  have hne : o.name ≠ "heplify_xrtp_mos" := by
    rcases ho with ((ho | ho) | ho) | ho
    · rw [xrtpCS_init_names tn _ o ho]; decide
    · rcases xrtpPL_init_names tn _ o ho with h | h <;> rw [h] <;> decide
    · rcases xrtpJI_init_names tn _ o ho with h | h <;> rw [h] <;> decide
    · rw [xrtpDL_init_names tn _ o ho]; decide
  simpa using hne

/-- C18: `dissectXRTPStats` completes exactly when the loss division does, and
then, whatever keys were present or parsed, exactly one of its writes goes to
`heplify_xrtp_mos`: the last one, under the given target name. For a string in
which none of the keys `CS`, `PR`, `PS`, `PL`, `JI`, `DL` is present it is the
only write; its value is the MOS for effective latency 10 and loss 0, that is
for `R = 92.95`. -/
theorem xrtp_mos_set_once (tn stats : GoString) :
    ((dissectXRTPStats tn stats).isSome = true ↔ lossDivisor (xrtpParse tn stats) ≠ 0) ∧
    (∀ ops, dissectXRTPStats tn stats = some ops →
      ∃ mos, ops = (xrtpParse tn stats).ops ++ [MetricOp.gaugeSet "heplify_xrtp_mos" [tn] mos] ∧
        ops.filter (fun o => decide (o.name = "heplify_xrtp_mos")) =
          [MetricOp.gaugeSet "heplify_xrtp_mos" [tn] mos]) ∧
    ((∀ key ∈ ["CS", "PR", "PS", "PL", "JI", "DL"], mapGet (statsMap stats) key = none) →
      effectiveLatency (xrtpParse tn stats) = 10 ∧
      lossOf (xrtpParse tn stats) = some 0 ∧
      rFactor 10 0 = 9295 / 100 ∧
      dissectXRTPStats tn stats =
        some [MetricOp.gaugeSet "heplify_xrtp_mos" [tn]
          (1 + (35 / 1000) * (9295 / 100) +
            (7 / 1000000) * (9295 / 100) * (9295 / 100 - 60) * (100 - 9295 / 100))]) := by
  refine ⟨?_, ?_, ?_⟩
  · unfold dissectXRTPStats lossOf goQuo
    simp only
    by_cases h : lossDivisor (xrtpParse tn stats) = 0
    · simp [h]
    · simp [h]
  · intro ops h
    cases hl : lossOf (xrtpParse tn stats) with
    | none => simp [dissectXRTPStats, hl] at h
    | some loss =>
      simp only [dissectXRTPStats, hl, Option.some.injEq] at h
      subst h
      refine ⟨_, rfl, ?_⟩
      rw [List.filter_append, filter_mos_parse]
      rfl
  · intro hkeys
    have hst : xrtpParse tn stats = XRTPState.init := by
      unfold xrtpParse
      simp only
      rw [xrtpCS_absent _ _ _ (hkeys "CS" (by simp)), xrtpPR_absent _ _ (hkeys "PR" (by simp)),
        xrtpPS_absent _ _ (hkeys "PS" (by simp)), xrtpPL_absent _ _ _ (hkeys "PL" (by simp)),
        xrtpJI_absent _ _ _ (hkeys "JI" (by simp)), xrtpDL_absent _ _ _ (hkeys "DL" (by simp))]
    have hel : effectiveLatency XRTPState.init = 10 := by decide
    have hloss : lossOf XRTPState.init = some 0 := by decide
    have hR : rFactor 10 0 = 9295 / 100 := by
      unfold rFactor
      norm_num
    refine ⟨by rw [hst, hel], by rw [hst, hloss], hR, ?_⟩
    simp only [dissectXRTPStats, hst, hloss, hel, hR, mosOf]
    rfl

/-- C18, at concrete inputs: the worked example makes one write to
`heplify_xrtp_mos` among its seven writes, and the string `X=1;junk`, which has
no recognized key, publishes `35235154947/8000000000` (about 4.40). -/
theorem xrtp_mos_set_once_witness :
    (∃ ops mos, dissectXRTPStats "A".toList sampleStats = some ops ∧ ops.length = 7 ∧
      ops.filter (fun o => decide (o.name = "heplify_xrtp_mos")) =
        [MetricOp.gaugeSet "heplify_xrtp_mos" ["A".toList] mos]) ∧
    dissectXRTPStats "A".toList "X=1;junk".toList =
      some [MetricOp.gaugeSet "heplify_xrtp_mos" ["A".toList] (35235154947 / 8000000000)] := by
  constructor
  · obtain ⟨mos, h1, h2⟩ := (xrtp_mos_set_once "A".toList sampleStats).2.1 _ rfl
    exact ⟨_, mos, rfl, by rfl, h2⟩
  · have h := ((xrtp_mos_set_once "A".toList "X=1;junk".toList).2.2 (by decide)).2.2.2
    rw [h]
    norm_num

/-! ## `setup`: deduplication -/

theorem uniqueLoop_eq (ts : List GoString) :
    ∀ seen acc : List GoString,
      uniqueLoop ts seen acc =
        acc ++ (removeLaterRepeats ts).filter (fun y => decide (y ∉ seen)) := by
  induction ts with
  | nil => intro seen acc; simp [uniqueLoop, removeLaterRepeats]
  | cons t ts ih =>
    intro seen acc
    unfold uniqueLoop
    by_cases ht : t ∈ seen
    · rw [if_pos ht, ih]
      congr 1
      simp only [removeLaterRepeats, List.filter_cons, ht, not_true_eq_false, decide_False,
        Bool.false_eq_true, if_false, List.filter_filter]
      apply List.filter_congr
      intro y _
      by_cases hy : y ∈ seen
      · simp [hy]
      · have hyt : y ≠ t := fun h => hy (h ▸ ht)
        simp [hy, hyt]
    · rw [if_neg ht, ih]
      simp only [removeLaterRepeats, List.filter_cons, ht, not_false_eq_true, decide_True,
        if_true, List.filter_filter, List.append_assoc, List.singleton_append]
      congr 2
      apply List.filter_congr
      intro y _
      by_cases hy : y = t
      · simp [hy]
      · simp [hy]

theorem removeLaterRepeats_mem (l : List GoString) (x : GoString) :
    x ∈ removeLaterRepeats l ↔ x ∈ l := by
  induction l with
  | nil => simp [removeLaterRepeats]
  | cons a t ih =>
    simp only [removeLaterRepeats, List.mem_cons, List.mem_filter, ih, decide_eq_true_eq]
    by_cases h : x = a
    · simp [h]
    · simp [h]

theorem removeLaterRepeats_nodup (l : List GoString) : (removeLaterRepeats l).Nodup := by
  induction l with
  | nil => simp [removeLaterRepeats]
  | cons a t ih =>
    simp only [removeLaterRepeats, List.nodup_cons, List.mem_filter, decide_eq_true_eq]
    exact ⟨fun h => h.2 rfl, ih.filter _⟩

theorem removeLaterRepeats_sublist (l : List GoString) : (removeLaterRepeats l).Sublist l := by
  induction l with
  | nil => simp [removeLaterRepeats]
  | cons a t ih =>
    simp only [removeLaterRepeats]
    exact ((List.filter_sublist _).trans ih).cons₂ a

theorem indexOf_head_eq {a b : GoString} (l : List GoString) (h : b = a) :
    List.indexOf a (b :: l) = 0 := by
  rw [List.indexOf_cons]
  simp [h]

theorem indexOf_head_ne {a b : GoString} (l : List GoString) (h : b ≠ a) :
    List.indexOf a (b :: l) = List.indexOf a l + 1 := by
  rw [List.indexOf_cons]
  have hb : (b == a) = false := by simpa using h
  simp [hb]

theorem indexOf_filter_lt (p : GoString → Bool) (l : List GoString) :
    ∀ x y : GoString, p x = true → p y = true → x ∈ l → y ∈ l →
      (List.indexOf x (l.filter p) < List.indexOf y (l.filter p) ↔
        List.indexOf x l < List.indexOf y l) := by
  induction l with
  | nil => intro x y _ _ hx; simp at hx
  | cons b t ih =>
    intro x y hpx hpy hx hy
    by_cases hpb : p b = true
    · rw [List.filter_cons, if_pos hpb]
      by_cases hxb : b = x
      · rw [indexOf_head_eq _ hxb, indexOf_head_eq _ hxb]
        by_cases hyb : b = y
        · rw [indexOf_head_eq _ hyb, indexOf_head_eq _ hyb]
        · rw [indexOf_head_ne _ hyb, indexOf_head_ne _ hyb]
          simp
      · rw [indexOf_head_ne _ hxb, indexOf_head_ne _ hxb]
        by_cases hyb : b = y
        · rw [indexOf_head_eq _ hyb, indexOf_head_eq _ hyb]
          simp
        · rw [indexOf_head_ne _ hyb, indexOf_head_ne _ hyb]
          have hx' : x ∈ t := by
            rcases List.mem_cons.mp hx with h | h
            · exact absurd h.symm hxb
            · exact h
          have hy' : y ∈ t := by
            rcases List.mem_cons.mp hy with h | h
            · exact absurd h.symm hyb
            · exact h
          simp only [Nat.add_lt_add_iff_right]
          exact ih x y hpx hpy hx' hy'
    · rw [List.filter_cons, if_neg hpb]
      have hxb : b ≠ x := fun h => hpb (h ▸ hpx)
      have hyb : b ≠ y := fun h => hpb (h ▸ hpy)
      rw [indexOf_head_ne _ hxb, indexOf_head_ne _ hyb]
      have hx' : x ∈ t := by
        rcases List.mem_cons.mp hx with h | h
        · exact absurd h.symm hxb
        · exact h
      have hy' : y ∈ t := by
        rcases List.mem_cons.mp hy with h | h
        · exact absurd h.symm hyb
        · exact h
      simp only [Nat.add_lt_add_iff_right]
      exact ih x y hpx hpy hx' hy'

theorem removeLaterRepeats_order (l : List GoString) :
    ∀ x y : GoString, x ∈ l → y ∈ l →
      (List.indexOf x (removeLaterRepeats l) < List.indexOf y (removeLaterRepeats l) ↔
        List.indexOf x l < List.indexOf y l) := by
  induction l with
  | nil => intro x y hx; simp at hx
  | cons a t ih =>
    intro x y hx hy
    simp only [removeLaterRepeats]
    by_cases hxa : a = x
    · rw [indexOf_head_eq _ hxa, indexOf_head_eq _ hxa]
      by_cases hya : a = y
      · rw [indexOf_head_eq _ hya, indexOf_head_eq _ hya]
      · rw [indexOf_head_ne _ hya, indexOf_head_ne _ hya]
        simp
    · rw [indexOf_head_ne _ hxa, indexOf_head_ne _ hxa]
      by_cases hya : a = y
      · rw [indexOf_head_eq _ hya, indexOf_head_eq _ hya]
        simp
      · rw [indexOf_head_ne _ hya, indexOf_head_ne _ hya]
        have hx' : x ∈ t := by
          rcases List.mem_cons.mp hx with h | h
          · exact absurd h.symm hxa
          · exact h
        have hy' : y ∈ t := by
          rcases List.mem_cons.mp hy with h | h
          · exact absurd h.symm hya
          · exact h
        simp only [Nat.add_lt_add_iff_right]
        rw [indexOf_filter_lt _ _ x y (by simpa using fun h => hxa h.symm)
          (by simpa using fun h => hya h.symm)
          ((removeLaterRepeats_mem t x).mpr hx') ((removeLaterRepeats_mem t y).mpr hy')]
        exact ih x y hx' hy'

/-- C19: the deduplication loop of `setup`, run on a list `l` from an empty map
and an empty slice, returns `l` with every later repeat removed: the result has
no repeated element, has exactly the elements of `l`, is a sublist of `l`, and
lists them in the order of their first occurrence in `l`. `uniqueIP` and
`uniqueNames` are this result for the two configured lists. -/
theorem setup_dedup_first_occurrence (l : List GoString) :
    uniqueLoop l [] [] = removeLaterRepeats l ∧
    (uniqueLoop l [] []).Nodup ∧
    (∀ x, x ∈ uniqueLoop l [] [] ↔ x ∈ l) ∧
    (uniqueLoop l [] []).Sublist l ∧
    (∀ x y, x ∈ l → y ∈ l →
      (List.indexOf x (uniqueLoop l [] []) < List.indexOf y (uniqueLoop l [] []) ↔
        List.indexOf x l < List.indexOf y l)) ∧
    (∀ (env : Env) (cfg : Setting),
      uniqueIP env cfg = removeLaterRepeats (Split (env.cutSpace cfg.PromTargetIP) ',') ∧
      uniqueNames env cfg =
        removeLaterRepeats (Split (env.cutSpace cfg.PromTargetName) ',')) := by
  have h : ∀ l : List GoString, uniqueLoop l [] [] = removeLaterRepeats l := by
    intro l
    rw [uniqueLoop_eq]
    simp
  refine ⟨h l, ?_, ?_, ?_, ?_, fun env cfg => ⟨h _, h _⟩⟩
  · rw [h]; exact removeLaterRepeats_nodup l
  · intro x; rw [h]; exact removeLaterRepeats_mem l x
  · rw [h]; exact removeLaterRepeats_sublist l
  · intro x y hx hy
    rw [h]
    exact removeLaterRepeats_order l x y hx hy

/-- C19, at a concrete input: the addresses `b,a,b,c,a` are reduced to
`b,a,c`. -/
theorem setup_dedup_first_occurrence_witness :
    uniqueIP sampleEnv (Setting.mk "b, a,b,c,a".toList [] false false) =
      ["b".toList, "a".toList, "c".toList] := by
  rw [((setup_dedup_first_occurrence []).2.2.2.2.2 sampleEnv
    (Setting.mk "b, a,b,c,a".toList [] false false)).1]
  decide

/-! ## `setup`: the registered series -/

theorem setup_registered (env : Env) (cfg : Setting) (p p' : Prometheus)
    (h : setup env cfg p = some (p', none)) :
    p'.CounterVecMetrics = baseCounterVecs ∧
    p'.GaugeVecMetrics =
      baseGaugeVecs ++ (if cfg.HoraclifixStats then horaclifixGaugeVecs else []) ∧
    p'.GaugeMetrics = baseGauges ++ (if cfg.RTPAgentStats then rtpAgentGauges else []) := by
  obtain ⟨b, hb, -⟩ :=
    firstEntriesEmpty_isSome _ _ (uniqueIP_ne_nil env cfg) (uniqueNames_ne_nil env cfg)
  by_cases hlen : (uniqueIP env cfg).length = (uniqueNames env cfg).length
  · cases b
    · simp [setup, hlen, hb] at h
      subst h
      exact ⟨rfl, rfl, rfl⟩
    · simp [setup, hlen, hb] at h
      subst h
      exact ⟨rfl, rfl, rfl⟩
  · simp [setup, hlen] at h

/-- C20: when `setup` returns no error, the series it has registered are those
of the specification, with the same names and label names: the two counter
families; `heplify_packets_size` and the seven `heplify_xrtp_...` gauge families,
followed by the 24 `horaclifix_...` families exactly when `HoraclifixStats` is
on; the four `heplify_rtcp_...` and eight `heplify_rtcpxr_...` gauges, followed by
the six `heplify_rtpagent_...` gauges exactly when `RTPAgentStats` is on. No name
is registered twice. -/
theorem setup_registers_spec_series (env : Env) (cfg : Setting) (p p' : Prometheus)
    (h : setup env cfg p = some (p', none)) :
    p'.CounterVecMetrics = specCounterVecs ∧
    p'.GaugeVecMetrics =
      specGaugeVecs ++ (if cfg.HoraclifixStats then specSbcGaugeVecs else []) ∧
    p'.GaugeMetrics = specGauges ++ (if cfg.RTPAgentStats then specAgentGauges else []) ∧
    (∀ e ∈ specSbcGaugeVecs, e ∈ p'.GaugeVecMetrics ↔ cfg.HoraclifixStats = true) ∧
    (∀ n ∈ specAgentGauges, n ∈ p'.GaugeMetrics ↔ cfg.RTPAgentStats = true) ∧
    (specGaugeVecs.length = 8 ∧ specSbcGaugeVecs.length = 24 ∧ specGauges.length = 12 ∧
      specAgentGauges.length = 6) ∧
    (p'.CounterVecMetrics.map Prod.fst ++ p'.GaugeVecMetrics.map Prod.fst ++
      p'.GaugeMetrics).Nodup := by
  obtain ⟨h1, h2, h3⟩ := setup_registered env cfg p p' h
  have e1 : baseCounterVecs = specCounterVecs := by decide
  have e2 : baseGaugeVecs = specGaugeVecs := by decide
  have e3 : baseGauges = specGauges := by decide
  have e4 : rtpAgentGauges = specAgentGauges := by decide
  have e5 : horaclifixGaugeVecs = specSbcGaugeVecs := by decide
  rw [e1] at h1
  rw [e2, e5] at h2
  rw [e3, e4] at h3
  refine ⟨h1, h2, h3, ?_, ?_, by decide, ?_⟩
  · intro e he
    rw [h2]
    have hd : e ∉ specGaugeVecs := by
      revert e
      decide
    cases cfg.HoraclifixStats
    · simp [hd]
    · simp [he]
  · intro n hn
    rw [h3]
    have hd : n ∉ specGauges := by
      revert n
      decide
    cases cfg.RTPAgentStats
    · simp [hd]
    · simp [hn]
  · rw [h1, h2, h3]
    cases cfg.HoraclifixStats <;> cases cfg.RTPAgentStats <;> decide

/-- C20, at a concrete configuration: with one target, agent reports on and
SBC reports off, `setup` registers the 2 counter families, the 8 always-present
gauge families and 18 gauges, the agent-report ones among them. -/
theorem setup_registers_spec_series_witness :
    ∃ p', setup sampleEnv (Setting.mk "10.0.0.1".toList "A".toList true false)
        Prometheus.zero = some (p', none) ∧
      p'.CounterVecMetrics = specCounterVecs ∧
      p'.GaugeVecMetrics = specGaugeVecs ∧
      p'.GaugeMetrics = specGauges ++ specAgentGauges ∧
      p'.GaugeMetrics.length = 18 ∧
      "heplify_rtpagent_mos" ∈ p'.GaugeMetrics :=
  ⟨_, rfl,
    (setup_registers_spec_series sampleEnv
      (Setting.mk "10.0.0.1".toList "A".toList true false) Prometheus.zero _ rfl).1,
    by
      have h := (setup_registers_spec_series sampleEnv
        (Setting.mk "10.0.0.1".toList "A".toList true false) Prometheus.zero _ rfl).2.1
      simpa using h,
    by
      have h := (setup_registers_spec_series sampleEnv
        (Setting.mk "10.0.0.1".toList "A".toList true false) Prometheus.zero _ rfl).2.2.1
      simpa using h,
    by rfl,
    ((setup_registers_spec_series sampleEnv
      (Setting.mk "10.0.0.1".toList "A".toList true false) Prometheus.zero _ rfl).2.2.2.2.1
      "heplify_rtpagent_mos" (by decide)).mpr rfl⟩

/-! ## `dissectXRTPStats`: the comma-separated values -/

theorem writesTo_append (name : String) (xs ys : List MetricOp) :
    writesTo name (xs ++ ys) = writesTo name xs ++ writesTo name ys := by
  simp [writesTo]

theorem writesTo_all (name : String) (xs : List MetricOp) (h : ∀ o ∈ xs, o.name = name) :
    writesTo name xs = xs := by
  unfold writesTo
  rw [List.filter_eq_self]
  intro o ho
  simpa using h o ho

theorem writesTo_none (name : String) (xs : List MetricOp) (h : ∀ o ∈ xs, o.name ≠ name) :
    writesTo name xs = [] := by
  unfold writesTo
  rw [List.filter_eq_nil_iff]
  intro o ho
  simpa using h o ho

theorem writesTo_setIfParsed (g name : String) (tn : GoString) (r : Int × Option NumError) :
    writesTo g (setIfParsed name tn r) = if g = name then setIfParsed name tn r else [] := by
  by_cases h : g = name
  · rw [if_pos h]
    exact writesTo_all _ _ (fun o ho => (setIfParsed_names _ _ _ o ho).trans h.symm)
  · rw [if_neg h]
    exact writesTo_none _ _ (fun o ho hn => h (hn.symm.trans (setIfParsed_names _ _ _ o ho)))

theorem Split_nil (sep : Char) : Split [] sep = [[]] := rfl

theorem present_of_parts (m : List (GoString × GoString)) (key : String) (v : GoString)
    (h : mapGet m key = some v) (hs : 2 ≤ (Split v ',').length) :
    presentValue m key = some v := by
  rw [presentValue_eq_some]
  refine ⟨h, ?_⟩
  cases v with
  | nil => rw [Split_nil] at hs; simp at hs
  | cons c cs => simp

theorem xrtpPL_ops_mem (tn : GoString) (m : List (GoString × GoString)) (o : MetricOp)
    (ho : o ∈ (xrtpPL tn m XRTPState.init).ops) :
    ∃ v a b, mapGet m "PL" = some v ∧ Split v ',' = [a, b] := by
  unfold xrtpPL at ho
  split at ho
  · simp [XRTPState.init] at ho
  · rename_i v hv
    split at ho
    · split at ho
      · rename_i a b hs
        exact ⟨v, a, b, hv, hs⟩
      · simp [XRTPState.init] at ho
    · simp [XRTPState.init] at ho

theorem xrtpJI_ops_mem (tn : GoString) (m : List (GoString × GoString)) (o : MetricOp)
    (ho : o ∈ (xrtpJI tn m XRTPState.init).ops) :
    ∃ v a b, mapGet m "JI" = some v ∧ Split v ',' = [a, b] := by
  unfold xrtpJI at ho
  split at ho
  · simp [XRTPState.init] at ho
  · rename_i v hv
    split at ho
    · split at ho
      · rename_i a b hs
        exact ⟨v, a, b, hv, hs⟩
      · simp [XRTPState.init] at ho
    · simp [XRTPState.init] at ho

theorem xrtpDL_ops_mem (tn : GoString) (m : List (GoString × GoString)) (o : MetricOp)
    (ho : o ∈ (xrtpDL tn m XRTPState.init).ops) :
    ∃ v a b c, mapGet m "DL" = some v ∧ Split v ',' = [a, b, c] := by
  unfold xrtpDL at ho
  split at ho
  · simp [XRTPState.init] at ho
  · rename_i v hv
    split at ho
    · split at ho
      · rename_i a b c hs
        exact ⟨v, a, b, c, hv, hs⟩
      · simp [XRTPState.init] at ho
    · simp [XRTPState.init] at ho

theorem writesTo_parse (g : String) (tn stats : GoString) :
    writesTo g (xrtpParse tn stats).ops =
      writesTo g (xrtpCS tn (statsMap stats) XRTPState.init).ops ++
      writesTo g (xrtpPL tn (statsMap stats) XRTPState.init).ops ++
      writesTo g (xrtpJI tn (statsMap stats) XRTPState.init).ops ++
      writesTo g (xrtpDL tn (statsMap stats) XRTPState.init).ops := by
  obtain ⟨-, -, -, -, -, -, -, -, hops⟩ := xrtpParse_fields tn stats
  rw [hops, writesTo_append, writesTo_append, writesTo_append]

theorem writesTo_CS_block (g : String) (tn : GoString) (m : List (GoString × GoString))
    (hg : g ≠ "heplify_xrtp_cs") : writesTo g (xrtpCS tn m XRTPState.init).ops = [] :=
  writesTo_none _ _ (fun o ho hn => hg (hn.symm.trans (xrtpCS_init_names tn m o ho)))

theorem writesTo_PL_block (g : String) (tn : GoString) (m : List (GoString × GoString))
    (h1 : g ≠ "heplify_xrtp_plr") (h2 : g ≠ "heplify_xrtp_pls") :
    writesTo g (xrtpPL tn m XRTPState.init).ops = [] :=
  writesTo_none _ _ (fun o ho hn => by
    rcases xrtpPL_init_names tn m o ho with h | h
    · exact h1 (hn.symm.trans h)
    · exact h2 (hn.symm.trans h))

theorem writesTo_JI_block (g : String) (tn : GoString) (m : List (GoString × GoString))
    (h1 : g ≠ "heplify_xrtp_jir") (h2 : g ≠ "heplify_xrtp_jis") :
    writesTo g (xrtpJI tn m XRTPState.init).ops = [] :=
  writesTo_none _ _ (fun o ho hn => by
    rcases xrtpJI_init_names tn m o ho with h | h
    · exact h1 (hn.symm.trans h)
    · exact h2 (hn.symm.trans h))

theorem writesTo_DL_block (g : String) (tn : GoString) (m : List (GoString × GoString))
    (hg : g ≠ "heplify_xrtp_dle") : writesTo g (xrtpDL tn m XRTPState.init).ops = [] :=
  writesTo_none _ _ (fun o ho hn => hg (hn.symm.trans (xrtpDL_init_names tn m o ho)))

theorem parse_ops_source (tn stats : GoString) (o : MetricOp)
    (ho : o ∈ (xrtpParse tn stats).ops) :
    (o.name = "heplify_xrtp_cs" ∧ o ∈ (xrtpCS tn (statsMap stats) XRTPState.init).ops) ∨
    ((o.name = "heplify_xrtp_plr" ∨ o.name = "heplify_xrtp_pls") ∧
      o ∈ (xrtpPL tn (statsMap stats) XRTPState.init).ops) ∨
    ((o.name = "heplify_xrtp_jir" ∨ o.name = "heplify_xrtp_jis") ∧
      o ∈ (xrtpJI tn (statsMap stats) XRTPState.init).ops) ∨
    (o.name = "heplify_xrtp_dle" ∧ o ∈ (xrtpDL tn (statsMap stats) XRTPState.init).ops) := by
  obtain ⟨-, -, -, -, -, -, -, -, hops⟩ := xrtpParse_fields tn stats
  rw [hops] at ho
  simp only [List.mem_append] at ho
  rcases ho with ((ho | ho) | ho) | ho
  · exact Or.inl ⟨xrtpCS_init_names tn _ o ho, ho⟩
  · exact Or.inr (Or.inl ⟨xrtpPL_init_names tn _ o ho, ho⟩)
  · exact Or.inr (Or.inr (Or.inl ⟨xrtpJI_init_names tn _ o ho, ho⟩))
  · exact Or.inr (Or.inr (Or.inr ⟨xrtpDL_init_names tn _ o ho, ho⟩))

/-- C21: the comma-separated values of `dissectXRTPStats`. A write to
`heplify_xrtp_plr` or `heplify_xrtp_pls` is made only when the value of `PL`
splits on `,` into exactly two parts, a write to `heplify_xrtp_jir` or
`heplify_xrtp_jis` only when the value of `JI` does, a write to
`heplify_xrtp_dle` only when the value of `DL` splits into exactly three. When
`PL` (or `JI`) has the two parts `a` and `b`, the received-side gauge is set to
the integer of `a` exactly when `a` parses and the sent-side gauge to the
integer of `b` exactly when `b` parses, neither depending on the other half;
when `DL` has the three parts `a`, `b`, `c` its gauge is set from `a` alone.
These are the writes of a call that completes. -/
theorem xrtp_comma_values (tn stats : GoString) :
    (∀ o ∈ (xrtpParse tn stats).ops,
      o.name = "heplify_xrtp_plr" ∨ o.name = "heplify_xrtp_pls" →
      ∃ v a b, mapGet (statsMap stats) "PL" = some v ∧ Split v ',' = [a, b]) ∧
    (∀ o ∈ (xrtpParse tn stats).ops,
      o.name = "heplify_xrtp_jir" ∨ o.name = "heplify_xrtp_jis" →
      ∃ v a b, mapGet (statsMap stats) "JI" = some v ∧ Split v ',' = [a, b]) ∧
    (∀ o ∈ (xrtpParse tn stats).ops, o.name = "heplify_xrtp_dle" →
      ∃ v a b c, mapGet (statsMap stats) "DL" = some v ∧ Split v ',' = [a, b, c]) ∧
    (∀ v a b, mapGet (statsMap stats) "PL" = some v → Split v ',' = [a, b] →
      writesTo "heplify_xrtp_plr" (xrtpParse tn stats).ops =
        (if (Atoi a).2 = none then
          [MetricOp.gaugeSet "heplify_xrtp_plr" [tn] ((Atoi a).1 : ℚ)] else []) ∧
      writesTo "heplify_xrtp_pls" (xrtpParse tn stats).ops =
        (if (Atoi b).2 = none then
          [MetricOp.gaugeSet "heplify_xrtp_pls" [tn] ((Atoi b).1 : ℚ)] else [])) ∧
    (∀ v a b, mapGet (statsMap stats) "JI" = some v → Split v ',' = [a, b] →
      writesTo "heplify_xrtp_jir" (xrtpParse tn stats).ops =
        (if (Atoi a).2 = none then
          [MetricOp.gaugeSet "heplify_xrtp_jir" [tn] ((Atoi a).1 : ℚ)] else []) ∧
      writesTo "heplify_xrtp_jis" (xrtpParse tn stats).ops =
        (if (Atoi b).2 = none then
          [MetricOp.gaugeSet "heplify_xrtp_jis" [tn] ((Atoi b).1 : ℚ)] else [])) ∧
    (∀ v a b c, mapGet (statsMap stats) "DL" = some v → Split v ',' = [a, b, c] →
      writesTo "heplify_xrtp_dle" (xrtpParse tn stats).ops =
        (if (Atoi a).2 = none then
          [MetricOp.gaugeSet "heplify_xrtp_dle" [tn] ((Atoi a).1 : ℚ)] else [])) ∧
    (∀ res, dissectXRTPStats tn stats = some res →
      ∀ g ∈ ["heplify_xrtp_plr", "heplify_xrtp_pls", "heplify_xrtp_jir", "heplify_xrtp_jis",
        "heplify_xrtp_dle"], writesTo g res = writesTo g (xrtpParse tn stats).ops) := by
  refine ⟨?_, ?_, ?_, ?_, ?_, ?_, ?_⟩
  · intro o ho hn
    rcases parse_ops_source tn stats o ho with h | h | h | h
    · rcases hn with hn | hn <;> exact absurd (hn.symm.trans h.1) (by decide)
    · exact xrtpPL_ops_mem tn _ o h.2
    · rcases hn with hn | hn <;> rcases h.1 with h1 | h1 <;>
        exact absurd (hn.symm.trans h1) (by decide)
    · rcases hn with hn | hn <;> exact absurd (hn.symm.trans h.1) (by decide)
  · intro o ho hn
    rcases parse_ops_source tn stats o ho with h | h | h | h
    · rcases hn with hn | hn <;> exact absurd (hn.symm.trans h.1) (by decide)
    · rcases hn with hn | hn <;> rcases h.1 with h1 | h1 <;>
        exact absurd (hn.symm.trans h1) (by decide)
    · exact xrtpJI_ops_mem tn _ o h.2
    · rcases hn with hn | hn <;> exact absurd (hn.symm.trans h.1) (by decide)
  · intro o ho hn
    rcases parse_ops_source tn stats o ho with h | h | h | h
    · exact absurd (hn.symm.trans h.1) (by decide)
    · rcases h.1 with h1 | h1 <;> exact absurd (hn.symm.trans h1) (by decide)
    · rcases h.1 with h1 | h1 <;> exact absurd (hn.symm.trans h1) (by decide)
    · exact xrtpDL_ops_mem tn _ o h.2
  · intro v a b hv hs
    have hp := present_of_parts _ _ v hv (by rw [hs]; simp)
    have hops := (xrtpPL_at tn _ v a b hp hs).2.2
    constructor
    · rw [writesTo_parse, writesTo_CS_block _ _ _ (by decide),
        writesTo_JI_block _ _ _ (by decide) (by decide), writesTo_DL_block _ _ _ (by decide),
        hops, writesTo_append, writesTo_setIfParsed, writesTo_setIfParsed]
      simp [setIfParsed]
    · rw [writesTo_parse, writesTo_CS_block _ _ _ (by decide),
        writesTo_JI_block _ _ _ (by decide) (by decide), writesTo_DL_block _ _ _ (by decide),
        hops, writesTo_append, writesTo_setIfParsed, writesTo_setIfParsed]
      simp [setIfParsed]
  · intro v a b hv hs
    have hp := present_of_parts _ _ v hv (by rw [hs]; simp)
    have hops := (xrtpJI_at tn _ v a b hp hs).2.2
    constructor
    · rw [writesTo_parse, writesTo_CS_block _ _ _ (by decide),
        writesTo_PL_block _ _ _ (by decide) (by decide), writesTo_DL_block _ _ _ (by decide),
        hops, writesTo_append, writesTo_setIfParsed, writesTo_setIfParsed]
      simp [setIfParsed]
    · rw [writesTo_parse, writesTo_CS_block _ _ _ (by decide),
        writesTo_PL_block _ _ _ (by decide) (by decide), writesTo_DL_block _ _ _ (by decide),
        hops, writesTo_append, writesTo_setIfParsed, writesTo_setIfParsed]
      simp [setIfParsed]
  · intro v a b c hv hs
    have hp := present_of_parts _ _ v hv (by rw [hs]; simp)
    have hops := (xrtpDL_at tn _ v a b c hp hs).2
    rw [writesTo_parse, writesTo_CS_block _ _ _ (by decide),
      writesTo_PL_block _ _ _ (by decide) (by decide),
      writesTo_JI_block _ _ _ (by decide) (by decide), hops, writesTo_setIfParsed]
    simp [setIfParsed]
  · intro res hres g hg
    cases hl : lossOf (xrtpParse tn stats) with
    | none => simp [dissectXRTPStats, hl] at hres
    | some loss =>
      simp only [dissectXRTPStats, hl, Option.some.injEq] at hres
      subst hres
      rw [writesTo_append]
      have hne : g ≠ "heplify_xrtp_mos" := by
        simp only [List.mem_cons, List.mem_singleton, List.mem_nil_iff, or_false] at hg
        rcases hg with h | h | h | h | h <;> rw [h] <;> decide
      have : writesTo g [MetricOp.gaugeSet "heplify_xrtp_mos" [tn]
          (mosOf (rFactor (effectiveLatency (xrtpParse tn stats)) loss))] = [] :=
        writesTo_none _ _ (fun o ho hn => by
          simp only [List.mem_singleton] at ho
          subst ho
          exact hne hn.symm)
      rw [this, List.append_nil]

/-- C21, at the input of the claim and at two others: `PL=2,3;JI=10,20;DL=30,0,0`
publishes `plr = 2`, `pls = 3`, `jir = 10`, `jis = 20`, `dle = 30` and the call
completes; `PL=x,3` publishes no `plr` and `pls = 3`; `PL=2,3,4;DL=30,0`
publishes none of the three. -/
theorem xrtp_comma_values_witness :
    (∃ res, dissectXRTPStats "A".toList sampleCommaStats = some res ∧
      writesTo "heplify_xrtp_plr" res = [MetricOp.gaugeSet "heplify_xrtp_plr" ["A".toList] 2] ∧
      writesTo "heplify_xrtp_pls" res = [MetricOp.gaugeSet "heplify_xrtp_pls" ["A".toList] 3] ∧
      writesTo "heplify_xrtp_jir" res = [MetricOp.gaugeSet "heplify_xrtp_jir" ["A".toList] 10] ∧
      writesTo "heplify_xrtp_jis" res = [MetricOp.gaugeSet "heplify_xrtp_jis" ["A".toList] 20] ∧
      writesTo "heplify_xrtp_dle" res =
        [MetricOp.gaugeSet "heplify_xrtp_dle" ["A".toList] 30]) ∧
    (writesTo "heplify_xrtp_plr" (xrtpParse "A".toList "PL=x,3".toList).ops = [] ∧
      writesTo "heplify_xrtp_pls" (xrtpParse "A".toList "PL=x,3".toList).ops =
        [MetricOp.gaugeSet "heplify_xrtp_pls" ["A".toList] 3]) ∧
    (∀ o ∈ (xrtpParse "A".toList "PL=2,3,4;DL=30,0".toList).ops,
      ¬ (o.name = "heplify_xrtp_plr" ∨ o.name = "heplify_xrtp_pls") ∧
      o.name ≠ "heplify_xrtp_dle") := by
  have e2 : (Atoi "2".toList) = (2, none) := by decide
  have e3 : (Atoi "3".toList) = (3, none) := by decide
  have e10 : (Atoi "10".toList) = (10, none) := by decide
  have e20 : (Atoi "20".toList) = (20, none) := by decide
  have e30 : (Atoi "30".toList) = (30, none) := by decide
  have ex : (Atoi "x".toList) = (0, some NumError.ErrSyntax) := by decide
  refine ⟨?_, ?_, ?_⟩
  · obtain ⟨-, -, -, hpl, hji, hdl, hres⟩ := xrtp_comma_values "A".toList sampleCommaStats
    have h1 := hpl "2,3".toList "2".toList "3".toList (by decide) (by decide)
    have h2 := hji "10,20".toList "10".toList "20".toList (by decide) (by decide)
    have h3 := hdl "30,0,0".toList "30".toList "0".toList "0".toList (by decide) (by decide)
    rw [e2, e3] at h1
    rw [e10, e20] at h2
    rw [e30] at h3
    cases hr : dissectXRTPStats "A".toList sampleCommaStats with
    | none => exact absurd hr (by decide)
    | some res =>
      have hw := hres res hr
      refine ⟨res, rfl, ?_, ?_, ?_, ?_, ?_⟩
      · rw [hw _ (by simp), h1.1]; simp
      · rw [hw _ (by simp), h1.2]; simp
      · rw [hw _ (by simp), h2.1]; simp
      · rw [hw _ (by simp), h2.2]; simp
      · rw [hw _ (by simp), h3]; simp
  · obtain ⟨-, -, -, hpl, -⟩ := xrtp_comma_values "A".toList "PL=x,3".toList
    have h1 := hpl "x,3".toList "x".toList "3".toList (by decide) (by decide)
    rw [ex, e3] at h1
    refine ⟨?_, ?_⟩
    · rw [h1.1]; simp
    · rw [h1.2]; simp
  · obtain ⟨hpl, -, hdl, -⟩ := xrtp_comma_values "A".toList "PL=2,3,4;DL=30,0".toList
    intro o ho
    refine ⟨?_, ?_⟩
    · intro hn
      obtain ⟨v, a, b, hv, hs⟩ := hpl o ho hn
      have hv2 : mapGet (statsMap "PL=2,3,4;DL=30,0".toList) "PL" = some "2,3,4".toList := by
        decide
      rw [hv2] at hv
      obtain rfl := Option.some.inj hv
      have hl : (Split "2,3,4".toList ',').length = 2 := by rw [hs]; rfl
      exact absurd hl (by decide)
    · intro hn
      obtain ⟨v, a, b, c, hv, hs⟩ := hdl o ho hn
      have hv2 : mapGet (statsMap "PL=2,3,4;DL=30,0".toList) "DL" = some "30,0".toList := by
        decide
      rw [hv2] at hv
      obtain rfl := Option.some.inj hv
      have hl : (Split "30,0".toList ',').length = 3 := by rw [hs]; rfl
      exact absurd hl (by decide)

/-! ## `dissectXRTPStats`: the range of the MOS -/

theorem mosOf_sub_one (R : ℚ) :
    mosOf R - 1 = (7 / 1000000) * (R * (160 * R - R ^ 2 - 1000)) := by
  unfold mosOf
  ring

theorem mosOf_below_top (R : ℚ) :
    45 / 10 - mosOf R = (7 / 1000000) * ((100 - R) * (5000 + 60 * R - R ^ 2)) := by
  unfold mosOf
  ring

theorem mosOf_range (R : ℚ) (h : (33 / 5 ≤ R ∧ R ≤ 100) ∨ (-46 ≤ R ∧ R ≤ 0)) :
    1 ≤ mosOf R ∧ mosOf R ≤ 45 / 10 := by
  have h1 := mosOf_sub_one R
  have h2 := mosOf_below_top R
  rcases h with ⟨ha, hb⟩ | ⟨ha, hb⟩
  · have hq : 0 ≤ 160 * R - R ^ 2 - 1000 := by nlinarith
    have hp : 0 ≤ 5000 + 60 * R - R ^ 2 := by nlinarith
    have hR : 0 ≤ R := by linarith
    have hT : 0 ≤ 100 - R := by linarith
    have m1 := mul_nonneg hR hq
    have m2 := mul_nonneg hT hp
    constructor <;> linarith
  · have hq : 0 ≤ -(160 * R - R ^ 2 - 1000) := by nlinarith
    have hp : 0 ≤ 5000 + 60 * R - R ^ 2 := by nlinarith
    have hR : 0 ≤ -R := by linarith
    have hT : 0 ≤ 100 - R := by linarith
    have m1 := mul_nonneg hR hq
    have m2 := mul_nonneg hT hp
    constructor <;> nlinarith

theorem rFactor_low_latency (el loss : Int) (h1 : 0 ≤ el) (h2 : el < 160) (h3 : 0 ≤ loss)
    (h4 : loss ≤ 33) : 33 / 5 ≤ rFactor el loss ∧ rFactor el loss ≤ 100 := by
  unfold rFactor
  rw [if_pos h2]
  have a1 : (0 : ℚ) ≤ (el : ℚ) := by exact_mod_cast h1
  have a2 : (el : ℚ) ≤ 159 := by
    have : el ≤ 159 := by omega
    exact_mod_cast this
  have a3 : (0 : ℚ) ≤ (loss : ℚ) := by exact_mod_cast h3
  have a4 : (loss : ℚ) ≤ 33 := by exact_mod_cast h4
  constructor <;> linarith

/-- C22 (the claim as stated fails): on `PR=1;PS=1;PL=1,1` decoding completes;
the loss ratio is `(1 + 1) * 100 / (1 + 1) = 100`, the effective latency 10, so
`R = 93.2 - 0.25 - 250 = -157.05` and the value set on `heplify_xrtp_mos` is
`454711659947/8000000000`, about 56.8, which is above 4.5. -/
theorem xrtp_mos_high_loss_above_range :
    lossOf (xrtpParse [] sampleHighLoss) = some 100 ∧
    effectiveLatency (xrtpParse [] sampleHighLoss) = 10 ∧
    rFactor 10 100 = -(3141 / 20) ∧
    dissectXRTPStats [] sampleHighLoss =
      some [MetricOp.gaugeSet "heplify_xrtp_plr" [[]] 1,
        MetricOp.gaugeSet "heplify_xrtp_pls" [[]] 1,
        MetricOp.gaugeSet "heplify_xrtp_mos" [[]] (454711659947 / 8000000000)] ∧
    ¬ ((1 : ℚ) ≤ 454711659947 / 8000000000 ∧ (454711659947 / 8000000000 : ℚ) ≤ 45 / 10) := by
  have hl : lossOf (xrtpParse [] sampleHighLoss) = some 100 := by decide
  have he : effectiveLatency (xrtpParse [] sampleHighLoss) = 10 := by decide
  have hR : rFactor 10 100 = -(3141 / 20) := by
    unfold rFactor
    norm_num
  have hops : (xrtpParse [] sampleHighLoss).ops =
      [MetricOp.gaugeSet "heplify_xrtp_plr" [[]] ((1 : Int) : ℚ),
        MetricOp.gaugeSet "heplify_xrtp_pls" [[]] ((1 : Int) : ℚ)] := by
    rfl
  refine ⟨hl, he, hR, ?_, by norm_num⟩
  simp only [dissectXRTPStats, hl, he, hR, hops, mosOf]
  norm_num

/-- C22 (amended): when `dissectXRTPStats` completes, its one write to
`heplify_xrtp_mos` carries `1 + 0.035 R + 0.000007 R (R - 60) (100 - R)` for the
R-factor `R` of the call, with no clamping. That value lies in `[1, 4.5]`
whenever `6.6 <= R <= 100` or `-46 <= R <= 0`; this is the case whenever the
effective latency is in `[0, 160)` and the loss ratio in `[0, 33]`. -/
theorem xrtp_mos_range (tn stats : GoString) (res : List MetricOp)
    (h : dissectXRTPStats tn stats = some res) :
    ∃ (loss : Int) (R mos : ℚ),
      lossOf (xrtpParse tn stats) = some loss ∧
      R = rFactor (effectiveLatency (xrtpParse tn stats)) loss ∧
      mos = 1 + (35 / 1000) * R + (7 / 1000000) * R * (R - 60) * (100 - R) ∧
      writesTo "heplify_xrtp_mos" res = [MetricOp.gaugeSet "heplify_xrtp_mos" [tn] mos] ∧
      ((33 / 5 ≤ R ∧ R ≤ 100) ∨ (-46 ≤ R ∧ R ≤ 0) → 1 ≤ mos ∧ mos ≤ 45 / 10) ∧
      (0 ≤ effectiveLatency (xrtpParse tn stats) → effectiveLatency (xrtpParse tn stats) < 160 →
        0 ≤ loss → loss ≤ 33 → 1 ≤ mos ∧ mos ≤ 45 / 10) := by
  cases hl : lossOf (xrtpParse tn stats) with
  | none => simp [dissectXRTPStats, hl] at h
  | some loss =>
    simp only [dissectXRTPStats, hl, Option.some.injEq] at h
    subst h
    refine ⟨loss, rFactor (effectiveLatency (xrtpParse tn stats)) loss, _, rfl, rfl, rfl, ?_,
      ?_, ?_⟩
    · rw [writesTo_append]
      have h0 : writesTo "heplify_xrtp_mos" (xrtpParse tn stats).ops = [] :=
        filter_mos_parse tn stats
      rw [h0]
      rfl
    · intro hR
      exact mosOf_range _ hR
    · intro h1 h2 h3 h4
      exact mosOf_range _ (Or.inl (rFactor_low_latency _ _ h1 h2 h3 h4))

/-- C22 (amended), at the worked example: the loss ratio is 2 and the effective
latency 60, so the published MOS lies between 1 and 4.5. -/
theorem xrtp_mos_range_witness :
    ∃ res mos, dissectXRTPStats [] sampleStats = some res ∧
      writesTo "heplify_xrtp_mos" res = [MetricOp.gaugeSet "heplify_xrtp_mos" [[]] mos] ∧
      1 ≤ mos ∧ mos ≤ 45 / 10 := by
  cases hr : dissectXRTPStats [] sampleStats with
  | none => exact absurd hr (by decide)
  | some res =>
    obtain ⟨loss, R, mos, hl, -, -, hw, -, hin⟩ := xrtp_mos_range [] sampleStats res hr
    have h2 : lossOf (xrtpParse [] sampleStats) = some 2 := by decide
    rw [h2] at hl
    obtain rfl := Option.some.inj hl
    exact ⟨res, mos, rfl, hw, hin (by decide) (by decide) (by decide) (by decide)⟩

/-! ## Anonymous mode of `collect`: the dedup key -/

theorem anonymousBranch_discards_iff (env : Env) (p : Prometheus) (now : Nat) (s : SIPMsg) :
    anonymousBranch env p now s = some (p, []) ↔
      ∃ c, p.Cache = some c ∧ c.Get now (dedupKey s) = true := by
  constructor
  · intro h
    cases hc : p.Cache with
    | none => simp [anonymousBranch, hc] at h
    | some c =>
      refine ⟨c, rfl, ?_⟩
      cases hg : c.Get now (dedupKey s) with
      | true => rfl
      | false =>
        cases hx : xrtpIfPresent [] s with
        | none => simp [anonymousBranch, hc, hg, hx] at h
        | some xs => simp [anonymousBranch, hc, hg, hx] at h
  · rintro ⟨c, hc, hg⟩
    exact anonymousBranch_duplicate env p c now s hc hg

theorem dedupKey_inj_of_lengths (s t : SIPMsg) (h1 : s.CallID.length = t.CallID.length)
    (h2 : s.Method.length = t.Method.length) (h : dedupKey s = dedupKey t) :
    s.CallID = t.CallID ∧ s.Method = t.Method ∧ s.CseqMethod = t.CseqMethod := by
  unfold dedupKey at h
  rw [List.append_assoc, List.append_assoc] at h
  obtain ⟨e1, h'⟩ := List.append_inj h h1
  obtain ⟨e2, e3⟩ := List.append_inj h' h2
  exact ⟨e1, e2, e3⟩

/-- C23 (the claim as stated fails): the response 200 of call `call-1` and a
message of call `call-12` with start-line token `00` differ in callId and in
method, yet both have the key `call-1200INVITE`; in anonymous mode the second,
arriving ten seconds after the first, is discarded as its duplicate, and
`heplify_method_response` is incremented once. -/
theorem dedupKey_shared_by_distinct_triples :
    sampleOkCall1.CallID ≠ sampleOddCall12.CallID ∧
    sampleOkCall1.Method ≠ sampleOddCall12.Method ∧
    dedupKey sampleOkCall1 = dedupKey sampleOddCall12 ∧
    dedupKey sampleOkCall1 = "call-1200INVITE".toList ∧
    (collect sampleEnv (Setting.mk [] [] false false) sampleAnonymous
        [(0, HEP.mk 1 [] [] [] (some sampleOkCall1)),
         (10, HEP.mk 1 [] [] [] (some sampleOddCall12))]).map
      (fun r => methodResponseIncs r.2) = some [[[], "200".toList, "INVITE".toList]] := by
  decide

/-- C23 (amended): in anonymous mode an observation is discarded as a duplicate
(nothing written, receiver unchanged) exactly when the cache holds an unexpired
entry under its key, the plain concatenation `callId + method + cseqMethod`; so
two observations with the same key are discarded together. Observations whose
three fields are equal have the same key, and observations with the same key
have equal fields provided their callIds are equally long and their methods are
equally long. -/
theorem anonymous_duplicate_iff_key_live (env : Env) (p : Prometheus) (now : Nat)
    (s t : SIPMsg) :
    (anonymousBranch env p now s = some (p, []) ↔
      ∃ c, p.Cache = some c ∧ c.Get now (dedupKey s) = true) ∧
    dedupKey s = s.CallID ++ s.Method ++ s.CseqMethod ∧
    (dedupKey s = dedupKey t →
      (anonymousBranch env p now s = some (p, []) ↔
        anonymousBranch env p now t = some (p, []))) ∧
    (s.CallID = t.CallID → s.Method = t.Method → s.CseqMethod = t.CseqMethod →
      dedupKey s = dedupKey t) ∧
    (s.CallID.length = t.CallID.length → s.Method.length = t.Method.length →
      dedupKey s = dedupKey t →
      s.CallID = t.CallID ∧ s.Method = t.Method ∧ s.CseqMethod = t.CseqMethod) := by
  refine ⟨anonymousBranch_discards_iff env p now s, rfl, ?_, ?_, ?_⟩
  · intro hk
    rw [anonymousBranch_discards_iff, anonymousBranch_discards_iff, hk]
  · intro h1 h2 h3
    unfold dedupKey
    rw [h1, h2, h3]
  · exact dedupKey_inj_of_lengths s t

/-- C23 (amended), at concrete inputs: with the key of the response 200 of
`call-1` in the cache until second 600, the message of `call-12` that shares
the key is discarded at second 10; the INVITE and the BYE of the examples, whose
callIds are equally long, have different keys. -/
theorem anonymous_duplicate_iff_key_live_witness :
    anonymousBranch sampleEnv sampleAnonymousOk 10 sampleOddCall12 =
      some (sampleAnonymousOk, []) ∧
    dedupKey sampleInvite ≠ dedupKey sampleBye ∧
    dedupKey sampleInvite ≠
      dedupKey (SIPMsg.mk "CANCEL".toList "INVITE".toList "call-1".toList []) :=
  ⟨((anonymous_duplicate_iff_key_live sampleEnv sampleAnonymousOk 10 sampleOkCall1
      sampleOddCall12).2.2.1 (by decide)).mp
    ((anonymous_duplicate_iff_key_live sampleEnv sampleAnonymousOk 10 sampleOkCall1
      sampleOddCall12).1.mpr ⟨_, rfl, by decide⟩),
   by decide,
   fun h => absurd
    ((anonymous_duplicate_iff_key_live sampleEnv sampleAnonymousOk 10 sampleInvite
      (SIPMsg.mk "CANCEL".toList "INVITE".toList "call-1".toList [])).2.2.2.2 (by decide)
      (by decide) h).2.1 (by decide)⟩

/-! ## The structured-report decoders: position and meaning -/

theorem rtcp_paths_meaning : rtcpPathsValue.map rtcpGaugeOfPath = baseGauges.map some := by
  decide

theorem rtp_paths_meaning : rtpPathsValue.map rtpGaugeOfPath = rtpAgentGauges.map some := by
  decide

theorem sbc_paths_meaning :
    horaclifixPathsValue.map sbcGaugeOfPath =
      [none, none, none] ++ horaclifixGaugeVecs.map (fun g => some g.1) := by
  decide

theorem rtcpCallback_parsed (env : Env) (idx : Nat) (value : GoString) (f : ℚ) (name : String)
    (hf : env.ParseFloat value = some f) (h : baseGauges[idx]? = some name) :
    rtcpCallback env idx value = [MetricOp.gaugeSet name [] (rtcpConv env idx f)] := by
  have hm := (rtcpCallback_mem env idx value
    (MetricOp.gaugeSet name [] (rtcpConv env idx f))).mpr ⟨name, f, h, hf, rfl⟩
  by_cases hle : idx ≤ 11
  · interval_cases idx <;> simp only [rtcpCallback, setFloat, hf] at hm ⊢ <;>
      rw [List.mem_singleton.mp hm]
  · obtain ⟨k, rfl⟩ : ∃ k, idx = k + 12 := ⟨idx - 12, by omega⟩
    simp [baseGauges] at h

theorem rtpCallback_parsed (env : Env) (idx : Nat) (value : GoString) (f : ℚ) (name : String)
    (hf : env.ParseFloat value = some f) (h : rtpAgentGauges[idx]? = some name) :
    rtpCallback env idx value = [MetricOp.gaugeSet name [] f] := by
  have hm := (rtpCallback_mem env idx value (MetricOp.gaugeSet name [] f)).mpr
    ⟨name, f, h, hf, rfl⟩
  by_cases hle : idx ≤ 5
  · interval_cases idx <;> simp only [rtpCallback, setFloat, hf] at hm ⊢ <;>
      rw [List.mem_singleton.mp hm]
  · obtain ⟨k, rfl⟩ : ∃ k, idx = k + 6 := ⟨idx - 6, by omega⟩
    simp [rtpAgentGauges] at h

theorem horaclifixCallback_mem (env : Env) (st : SbcVars) (idx : Nat) (value : GoString)
    (o : MetricOp) :
    o ∈ (horaclifixCallback env st idx value).2 ↔
      ∃ k name f, idx = k + 3 ∧ (horaclifixGaugeVecs.map Prod.fst)[k]? = some name ∧
        env.ParseFloat value = some f ∧
        o = MetricOp.gaugeSet name (sbcLabelValues st) (sbcConv env idx f) := by
  by_cases hle : idx ≤ 26
  · interval_cases idx <;>
      simp only [horaclifixCallback, setFloat, horaclifixGaugeVecs, sbcConv] <;>
      cases env.ParseFloat value <;> simp
  · obtain ⟨k, rfl⟩ : ∃ k, idx = k + 27 := ⟨idx - 27, by omega⟩
    have h1 : horaclifixCallback env st (k + 27) value = (st, []) := rfl
    rw [h1]
    simp only [List.not_mem_nil, false_iff, not_exists, not_and]
    intro j name f hj hn
    have : j = k + 24 := by omega
    subst this
    simp [horaclifixGaugeVecs] at hn

theorem horaclifixCallback_parsed (env : Env) (st : SbcVars) (k : Nat) (value : GoString)
    (f : ℚ) (name : String) (hf : env.ParseFloat value = some f)
    (h : (horaclifixGaugeVecs.map Prod.fst)[k]? = some name) :
    horaclifixCallback env st (k + 3) value =
      (st, [MetricOp.gaugeSet name (sbcLabelValues st) (sbcConv env (k + 3) f)]) := by
  by_cases hle : k ≤ 23
  · interval_cases k <;> simp [horaclifixGaugeVecs] at h <;> subst h <;>
      simp [horaclifixCallback, setFloat, hf, sbcConv]
  · obtain ⟨j, rfl⟩ : ∃ j, k = j + 24 := ⟨k - 24, by omega⟩
    simp [horaclifixGaugeVecs] at h

theorem getElem?_of_map_eq {α β : Type} (g : α → Option β) (l : List α) (r : List β)
    (h : l.map g = r.map some) (i : Nat) (a : α) (ha : l[i]? = some a) :
    ∃ b, g a = some b ∧ r[i]? = some b := by
  have h1 : (l.map g)[i]? = (r.map some)[i]? := by rw [h]
  rw [List.getElem?_map, List.getElem?_map, ha] at h1
  cases hr : r[i]? with
  | none => rw [hr] at h1; simp at h1
  | some b =>
    rw [hr] at h1
    simp only [Option.map_some', Option.some.injEq] at h1
    exact ⟨b, h1, rfl⟩

theorem setup_paths (env : Env) (cfg : Setting) (p p' : Prometheus)
    (h : setup env cfg p = some (p', none)) :
    p'.rtcpPaths = rtcpPathsValue ∧
    (cfg.RTPAgentStats = true → p'.rtpPaths = rtpPathsValue) ∧
    (cfg.HoraclifixStats = true → p'.horaclifixPaths = horaclifixPathsValue) := by
  obtain ⟨b, hb, -⟩ :=
    firstEntriesEmpty_isSome _ _ (uniqueIP_ne_nil env cfg) (uniqueNames_ne_nil env cfg)
  by_cases hlen : (uniqueIP env cfg).length = (uniqueNames env cfg).length
  · simp only [setup, hlen, hb, ne_eq, not_true_eq_false, if_false, Option.some.injEq,
      Prod.mk.injEq, and_true] at h
    subst h
    refine ⟨rfl, ?_, ?_⟩
    · intro ha; simp [ha]
    · intro hh; simp [hh]
  · simp [setup, hlen] at h

/-- C24: the positional mapping of the three structured decoders. The path lists
that `setup` stores have 12, 6 and 27 entries. For a value that parses as a
float, the callback of `dissectRTCPStats` at the index of a path sets the gauge
that the path stands for, and so does that of `dissectRTPStats`; the callback of
`dissectHoraclifixStats` assigns `NAME`, `INC_REALM`, `OUT_REALM` (indices 0 to
2) to the three label variables and at the index of every later path sets the
gauge that the path stands for, under those labels. At an index past the end of
its path list a callback does nothing, and no gauge is written at two different
indices. -/
theorem positional_mapping_consistent (env : Env) (st : SbcVars) (value : GoString) (f : ℚ)
    (hf : env.ParseFloat value = some f) :
    (rtcpPathsValue.length = 12 ∧ rtpPathsValue.length = 6 ∧
      horaclifixPathsValue.length = 27) ∧
    (∀ (cfg : Setting) (p p' : Prometheus), setup env cfg p = some (p', none) →
      p'.rtcpPaths = rtcpPathsValue ∧
      (cfg.RTPAgentStats = true → p'.rtpPaths = rtpPathsValue) ∧
      (cfg.HoraclifixStats = true → p'.horaclifixPaths = horaclifixPathsValue)) ∧
    (∀ i path, rtcpPathsValue[i]? = some path →
      ∃ g, rtcpGaugeOfPath path = some g ∧
        rtcpCallback env i value = [MetricOp.gaugeSet g [] (rtcpConv env i f)]) ∧
    (∀ i, 12 ≤ i → rtcpCallback env i value = []) ∧
    (∀ i path, rtpPathsValue[i]? = some path →
      ∃ g, rtpGaugeOfPath path = some g ∧
        rtpCallback env i value = [MetricOp.gaugeSet g [] f]) ∧
    (∀ i, 6 ≤ i → rtpCallback env i value = []) ∧
    (horaclifixPathsValue.take 3 = [["NAME"], ["INC_REALM"], ["OUT_REALM"]] ∧
      horaclifixCallback env st 0 value = ({ st with sbcName := parsedString env value }, []) ∧
      horaclifixCallback env st 1 value = ({ st with incRealm := parsedString env value }, []) ∧
      horaclifixCallback env st 2 value =
        ({ st with outRealm := parsedString env value }, [])) ∧
    (∀ i path, 3 ≤ i → horaclifixPathsValue[i]? = some path →
      ∃ g, sbcGaugeOfPath path = some g ∧
        horaclifixCallback env st i value =
          (st, [MetricOp.gaugeSet g (sbcLabelValues st) (sbcConv env i f)])) ∧
    (∀ i, 27 ≤ i → horaclifixCallback env st i value = (st, [])) ∧
    (∀ (i j : Nat) (v w : GoString) (o o' : MetricOp),
      o ∈ rtcpCallback env i v → o' ∈ rtcpCallback env j w → o.name = o'.name → i = j) ∧
    (∀ (i j : Nat) (v w : GoString) (o o' : MetricOp),
      o ∈ rtpCallback env i v → o' ∈ rtpCallback env j w → o.name = o'.name → i = j) ∧
    (∀ (i j : Nat) (s s' : SbcVars) (v w : GoString) (o o' : MetricOp),
      o ∈ (horaclifixCallback env s i v).2 → o' ∈ (horaclifixCallback env s' j w).2 →
      o.name = o'.name → i = j) := by
  refine ⟨⟨rfl, rfl, rfl⟩, setup_paths env, ?_, ?_, ?_, ?_, ⟨rfl, rfl, rfl, rfl⟩, ?_, ?_, ?_, ?_,
    ?_⟩
  · intro i path hp
    obtain ⟨g, hg, hi⟩ := getElem?_of_map_eq _ _ _ rtcp_paths_meaning i path hp
    exact ⟨g, hg, rtcpCallback_parsed env i value f g hf hi⟩
  · intro i hi
    obtain ⟨k, rfl⟩ : ∃ k, i = k + 12 := ⟨i - 12, by omega⟩
    rfl
  · intro i path hp
    obtain ⟨g, hg, hi⟩ := getElem?_of_map_eq _ _ _ rtp_paths_meaning i path hp
    exact ⟨g, hg, rtpCallback_parsed env i value f g hf hi⟩
  · intro i hi
    obtain ⟨k, rfl⟩ : ∃ k, i = k + 6 := ⟨i - 6, by omega⟩
    rfl
  · intro i path h3 hp
    obtain ⟨k, rfl⟩ : ∃ k, i = k + 3 := ⟨i - 3, by omega⟩
    have hm : (horaclifixPathsValue.drop 3).map sbcGaugeOfPath =
        (horaclifixGaugeVecs.map Prod.fst).map some := by decide
    have hp' : (horaclifixPathsValue.drop 3)[k]? = some path := by
      rw [List.getElem?_drop, Nat.add_comm]
      exact hp
    obtain ⟨g, hg, hi⟩ := getElem?_of_map_eq _ _ _ hm k path hp'
    exact ⟨g, hg, horaclifixCallback_parsed env st k value f g hf hi⟩
  · intro i hi
    obtain ⟨k, rfl⟩ : ∃ k, i = k + 27 := ⟨i - 27, by omega⟩
    rfl
  · intro i j v w o o' ho ho' hn
    obtain ⟨n1, f1, h1, -, rfl⟩ := (rtcpCallback_mem env i v o).mp ho
    obtain ⟨n2, f2, h2, -, rfl⟩ := (rtcpCallback_mem env j w o').mp ho'
    have e : n1 = n2 := hn
    subst e
    exact getElem?_nodup_inj baseGauges (by decide) i j n1 h1 h2
  · intro i j v w o o' ho ho' hn
    obtain ⟨n1, f1, h1, -, rfl⟩ := (rtpCallback_mem env i v o).mp ho
    obtain ⟨n2, f2, h2, -, rfl⟩ := (rtpCallback_mem env j w o').mp ho'
    have e : n1 = n2 := hn
    subst e
    exact getElem?_nodup_inj rtpAgentGauges (by decide) i j n1 h1 h2
  · intro i j s s' v w o o' ho ho' hn
    obtain ⟨k1, n1, f1, rfl, h1, -, rfl⟩ := (horaclifixCallback_mem env s i v o).mp ho
    obtain ⟨k2, n2, f2, rfl, h2, -, rfl⟩ := (horaclifixCallback_mem env s' j w o').mp ho'
    have e : n1 = n2 := hn
    subst e
    have := getElem?_nodup_inj (horaclifixGaugeVecs.map Prod.fst) (by decide) k1 k2 n1 h1 h2
    omega

/-- C24, at the indices of the claim: in the sample environment the value `420`
parses as a float; at index 13, the path `INC_RTCP_AVG_LAT`, the callback sets
`horaclifix_inc_rtcp_avg_lat`, and at index 22, the path `OUT_RTCP_PK_LOSS`, it
sets `horaclifix_out_rtcp_lost_packets`; at index 2 of the RTCP list, the path
`report_blocks[0].ia_jitter`, `heplify_rtcp_jitter` is set. -/
theorem positional_mapping_consistent_witness :
    horaclifixPathsValue[13]? = some ["INC_RTCP_AVG_LAT"] ∧
    horaclifixCallback sampleEnv (SbcVars.mk "sbc".toList "core".toList "access".toList) 13
        "420".toList =
      (SbcVars.mk "sbc".toList "core".toList "access".toList,
        [MetricOp.gaugeSet "horaclifix_inc_rtcp_avg_lat"
          ["sbc".toList, "core".toList, "access".toList] (sampleEnv.normMax 420)]) ∧
    horaclifixPathsValue[22]? = some ["OUT_RTCP_PK_LOSS"] ∧
    horaclifixCallback sampleEnv (SbcVars.mk "sbc".toList "core".toList "access".toList) 22
        "420".toList =
      (SbcVars.mk "sbc".toList "core".toList "access".toList,
        [MetricOp.gaugeSet "horaclifix_out_rtcp_lost_packets"
          ["sbc".toList, "core".toList, "access".toList] (sampleEnv.normMax 420)]) ∧
    rtcpPathsValue[2]? = some ["report_blocks", "[0]", "ia_jitter"] ∧
    rtcpCallback sampleEnv 2 "420".toList =
      [MetricOp.gaugeSet "heplify_rtcp_jitter" [] (sampleEnv.normMax 420)] := by
  have hf : sampleEnv.ParseFloat "420".toList = some 420 := by
    simp [sampleEnv, parseUintLoop]
  have h := positional_mapping_consistent sampleEnv
    (SbcVars.mk "sbc".toList "core".toList "access".toList) "420".toList 420 hf
  obtain ⟨-, -, hrtcp, -, -, -, -, hsbc, -⟩ := h
  refine ⟨rfl, ?_, rfl, ?_, rfl, ?_⟩
  · obtain ⟨g, hg, hc⟩ := hsbc 13 ["INC_RTCP_AVG_LAT"] (by decide) rfl
    have e : g = "horaclifix_inc_rtcp_avg_lat" := by
      have : sbcGaugeOfPath ["INC_RTCP_AVG_LAT"] = some "horaclifix_inc_rtcp_avg_lat" := by
        decide
      rw [this] at hg
      exact (Option.some.inj hg).symm
    rw [hc, e]
    simp [sbcLabelValues, sbcConv]
  · obtain ⟨g, hg, hc⟩ := hsbc 22 ["OUT_RTCP_PK_LOSS"] (by decide) rfl
    have e : g = "horaclifix_out_rtcp_lost_packets" := by
      have : sbcGaugeOfPath ["OUT_RTCP_PK_LOSS"] = some "horaclifix_out_rtcp_lost_packets" := by
        decide
      rw [this] at hg
      exact (Option.some.inj hg).symm
    rw [hc, e]
    simp [sbcLabelValues, sbcConv]
  · obtain ⟨g, hg, hc⟩ := hrtcp 2 ["report_blocks", "[0]", "ia_jitter"] rfl
    have e : g = "heplify_rtcp_jitter" := by
      have : rtcpGaugeOfPath ["report_blocks", "[0]", "ia_jitter"] =
          some "heplify_rtcp_jitter" := by decide
      rw [this] at hg
      exact (Option.some.inj hg).symm
    rw [hc, e]
    simp [rtcpConv]

/-! ## `setup`: the first entries -/

theorem setup_targets (env : Env) (cfg : Setting) (p : Prometheus) :
    ∃ p' err, setup env cfg p = some (p', err) ∧
      p'.TargetIP = uniqueIP env cfg ∧ p'.TargetName = uniqueNames env cfg := by
  obtain ⟨b, hb, -⟩ :=
    firstEntriesEmpty_isSome _ _ (uniqueIP_ne_nil env cfg) (uniqueNames_ne_nil env cfg)
  by_cases hlen : (uniqueIP env cfg).length = (uniqueNames env cfg).length
  · simp only [setup, hlen, hb, ne_eq, not_true_eq_false, if_false]
    refine ⟨_, _, rfl, ?_⟩
    cases b <;> simp
  · simp only [setup, hlen, ne_eq, not_false_eq_true, if_true]
    exact ⟨_, _, rfl, rfl, rfl⟩

theorem uniqueLoop_head (l : List GoString) : (uniqueLoop l [] []).head? = l.head? := by
  cases l with
  | nil => rfl
  | cons t ts => rw [uniqueLoop_cons_nil]; rfl

/-- C25: whatever the two configuration strings are (and whatever `cutSpace`
makes of them), the deduplicated address list and name list computed by `setup`
are not empty: each starts with the first piece of its comma split. So the
reads `p.TargetIP[0]` and `p.TargetName[0]` are in range, the test on them has a
value, and `setup` does not panic; the lists it leaves in the receiver have an
entry at index 0. -/
theorem setup_first_entries_in_range (env : Env) (cfg : Setting) (p : Prometheus) :
    uniqueIP env cfg ≠ [] ∧ uniqueNames env cfg ≠ [] ∧
    0 < (uniqueIP env cfg).length ∧ 0 < (uniqueNames env cfg).length ∧
    (uniqueIP env cfg).head? = (Split (env.cutSpace cfg.PromTargetIP) ',').head? ∧
    (uniqueNames env cfg).head? = (Split (env.cutSpace cfg.PromTargetName) ',').head? ∧
    (∃ ip0 n0, (uniqueIP env cfg)[0]? = some ip0 ∧ (uniqueNames env cfg)[0]? = some n0 ∧
      firstEntriesEmpty (uniqueIP env cfg) (uniqueNames env cfg) =
        some (decide (ip0 = [] ∧ n0 = []))) ∧
    (∃ p' err, setup env cfg p = some (p', err) ∧
      p'.TargetIP = uniqueIP env cfg ∧ p'.TargetName = uniqueNames env cfg ∧
      p'.TargetIP[0]? ≠ none ∧ p'.TargetName[0]? ≠ none) := by
  have hi := uniqueIP_ne_nil env cfg
  have hn := uniqueNames_ne_nil env cfg
  refine ⟨hi, hn, List.length_pos.mpr hi, List.length_pos.mpr hn, uniqueLoop_head _,
    uniqueLoop_head _, ?_, ?_⟩
  · cases h1 : uniqueIP env cfg with
    | nil => exact absurd h1 hi
    | cons ip0 ips =>
      cases h2 : uniqueNames env cfg with
      | nil => exact absurd h2 hn
      | cons n0 ns =>
        refine ⟨ip0, n0, by simp, by simp, ?_⟩
        by_cases h : ip0 = []
        · simp [firstEntriesEmpty, h]
        · simp [firstEntriesEmpty, h]
  · obtain ⟨p', err, hs, h1, h2⟩ := setup_targets env cfg p
    refine ⟨p', err, hs, h1, h2, ?_, ?_⟩
    · rw [h1]
      cases h : uniqueIP env cfg with
      | nil => exact absurd h hi
      | cons a as => simp
    · rw [h2]
      cases h : uniqueNames env cfg with
      | nil => exact absurd h hn
      | cons a as => simp

/-- C25, at the empty configuration: with both strings empty each deduplicated
list is the single empty string, and `setup` completes in anonymous mode. -/
theorem setup_first_entries_in_range_witness :
    uniqueIP sampleEnv (Setting.mk [] [] false false) = [[]] ∧
    uniqueNames sampleEnv (Setting.mk [] [] false false) = [[]] ∧
    (∃ p', setup sampleEnv (Setting.mk [] [] false false) Prometheus.zero = some (p', none) ∧
      p'.TargetIP[0]? = some [] ∧ p'.TargetName[0]? = some [] ∧ p'.TargetEmpty = true) ∧
    (∃ p' err, setup sampleEnv (Setting.mk ",,".toList "a".toList false false) Prometheus.zero =
        some (p', err) ∧ p'.TargetIP[0]? ≠ none ∧ p'.TargetName[0]? ≠ none) := by
  refine ⟨rfl, rfl, ⟨_, rfl, rfl, rfl, rfl⟩, ?_⟩
  obtain ⟨p', err, hs, -, -, h1, h2⟩ :=
    (setup_first_entries_in_range sampleEnv (Setting.mk ",,".toList "a".toList false false)
      Prometheus.zero).2.2.2.2.2.2.2
  exact ⟨p', err, hs, h1, h2⟩

end Heplify
